import Mathlib

/-!
Verification development for the cwrappers wrapper-function finder.

The Python sources under `cwrappers/finder` and `finder` are shallowly
embedded below.  libclang cursors become a rose tree `Cursor` carrying the
attributes the analyzer reads (kind, spelling, hash, location, token text,
referenced declaration, result type, children).  Cross-translation-unit
links (`get_definition`/`referenced` for calls) are embedded as a lookup in
an explicit list `tu` of visible function definitions, mirroring the
"callee resolution primitive" of the AST frontend adapter.  Compiled regex
patterns of the helper configuration are embedded as boolean search
predicates, mirroring that `any_match` is the only query made of them.
-/

namespace CW

/-- Cursor kinds distinguished by the analyzer (`K = cindex.CursorKind`).
Every kind the Python code never names is represented by `OTHER`. -/
inductive CK where
  | FUNCTION_DECL | FUNCTION_TEMPLATE | PARM_DECL | VAR_DECL
  | COMPOUND_STMT | IF_STMT | SWITCH_STMT | CASE_STMT | DEFAULT_STMT
  | CONDITIONAL_OPERATOR | FOR_STMT | WHILE_STMT | DO_STMT
  | RETURN_STMT | CALL_EXPR | DECL_STMT | BREAK_STMT | CONTINUE_STMT
  | BINARY_OPERATOR | UNARY_OPERATOR | MEMBER_REF_EXPR | ARRAY_SUBSCRIPT_EXPR
  | DECL_REF_EXPR | PAREN_EXPR | CSTYLE_CAST_EXPR | UNEXPOSED_EXPR
  | INTEGER_LITERAL | OTHER
deriving DecidableEq, Repr

/-- A source location (`cursor.location`); `file` is `None` for builtins. -/
structure Loc where
  file : Option String
  line : Nat
  col : Nat
deriving DecidableEq, Repr

/-- The attributes of a `referenced` declaration that `_var_key` and
`_is_direct_param_ref` read from a `DECL_REF_EXPR`. -/
structure RefInfo where
  kind : CK
  spelling : String
  hash : Nat
deriving DecidableEq, Repr

/-- A libclang cursor: kind, `spelling` (for a call expression this is the
resolved callee name, the value `_callee_name` returns), `hash`,
`location`, concatenated token text (read by `resolve_syscall_indirection`),
optional `referenced` declaration, `result_type.spelling` (meaningful on
function declarations) and the child cursors. -/
inductive Cursor where
  | node (kind : CK) (spelling : String) (hash : Nat) (loc : Option Loc)
      (tokens : String) (refd : Option RefInfo) (resultType : String)
      (children : List Cursor)
deriving Repr

def Cursor.kind : Cursor → CK
  | .node k _ _ _ _ _ _ _ => k

def Cursor.spelling : Cursor → String
  | .node _ s _ _ _ _ _ _ => s

def Cursor.hash : Cursor → Nat
  | .node _ _ h _ _ _ _ _ => h

def Cursor.loc : Cursor → Option Loc
  | .node _ _ _ l _ _ _ _ => l

def Cursor.tokens : Cursor → String
  | .node _ _ _ _ t _ _ _ => t

def Cursor.refd : Cursor → Option RefInfo
  | .node _ _ _ _ _ r _ _ => r

def Cursor.resultType : Cursor → String
  | .node _ _ _ _ _ _ rt _ => rt

def Cursor.children : Cursor → List Cursor
  | .node _ _ _ _ _ _ _ cs => cs

/-! ### The compile-argument sanitizer (`_sanitize_clang_args_for_libclang`)

Strings are posix paths; filesystem and `Path.resolve()` effects are
supplied by an explicit environment record. -/

/-- `s.startswith(pre)`. -/
def strStarts (s pre : String) : Bool := pre.toList.isPrefixOf s.toList

/-- `s.endswith(suf)`. -/
def strEnds (s suf : String) : Bool := suf.toList.isSuffixOf s.toList

/-- Drop the first `n` characters. -/
def strDropN (s : String) (n : Nat) : String := String.mk (s.toList.drop n)

/-- `s.lower()`. -/
def lowerStr (s : String) : String := String.mk (s.toList.map Char.toLower)

/-- `os.path.basename` (posix). -/
def baseName (s : String) : String :=
  String.mk ((s.toList.reverse.takeWhile (fun c => c ≠ '/')).reverse)

/-- Split on `'/'`. -/
def splitSlash : List Char → List (List Char)
  | [] => [[]]
  | c :: rest =>
    let r := splitSlash rest
    if c = '/' then [] :: r
    else
      match r with
      | h :: t => (c :: h) :: t
      | [] => [[c]]

/-- `str(Path(s))` for posix: drop empty and `"."` components; keep a
leading slash; `""` and `"."` collapse to `"."`. -/
def pathNorm (s : String) : String :=
  let comps := (splitSlash s.toList).filter (fun c => decide (c ≠ []) && decide (c ≠ ['.']))
  if strStarts s "/" then
    String.mk ('/' :: (List.intercalate ['/'] comps))
  else if comps = [] then "."
  else String.mk (List.intercalate ['/'] comps)

/-- `str(Path(s).parent)` for posix. -/
def parentOf (s : String) : String :=
  let comps := (splitSlash s.toList).filter (fun c => decide (c ≠ []) && decide (c ≠ ['.']))
  let par := comps.dropLast
  if strStarts s "/" then
    String.mk ('/' :: (List.intercalate ['/'] par))
  else if par = [] then "."
  else String.mk (List.intercalate ['/'] par)

/-- The filesystem / OS effects the sanitizer consults. -/
structure SanEnv where
  addDefaults : Bool
  respFile : String → List String
  resolve : String → String
  multiarchIsDir : Bool
  resourceCandidates : List String
  envResourceDir : Option String
  hasStddef : String → Bool

/-- `_split_response_file` applied over the raw argument list. -/
def expandResp (env : SanEnv) (raw : List String) : List String :=
  (raw.map (fun t => if strStarts t "@" then env.respFile t else [t])).flatten

/-- `_abspath(candidate, base_dir)`. -/
def _abspath (env : SanEnv) (v dir : String) : String :=
  if strStarts v "/" then pathNorm v else env.resolve (dir ++ "/" ++ v)

def DROP_EXACT : List String :=
  ["-c", "-E", "-S", "-pipe", "-static", "-shared", "-rdynamic", "-s",
   "-g", "-ggdb", "-gsplit-dwarf", "-save-temps"]

def DROP_PREFIXES : List String :=
  ["-Wl,", "-Xlinker", "-l", "-L", "-fuse-ld", "-T", "-u",
   "-flto", "-fwhole-program-vtables",
   "-fprofile", "-fcoverage", "--coverage", "-fprofile-",
   "-fsanitize", "-fno-sanitize",
   "-fmodules", "-fmodule-file=", "-fmodule-map-file=", "-fmodules-cache-path",
   "-m"]

def PRESERVE_EXACT : List String := ["-pthread", "-ansi", "-fsigned-char", "-pedantic"]

def PAIR_FLAGS : List String :=
  ["-I", "-isystem", "-iquote", "-idirafter", "-include", "-imacros",
   "-o", "-MF", "-MT", "-MQ", "-MJ",
   "-x", "-isysroot", "--sysroot", "-resource-dir", "-target"]

def OUT_FLAGS : List String := ["-o", "-MF", "-MT", "-MQ", "-MJ"]

def PATH_PAIR_FLAGS : List String :=
  ["-I", "-isystem", "-iquote", "-idirafter", "-include", "-imacros",
   "-isysroot", "--sysroot"]

def COMPILER_BASES : List String :=
  ["clang", "clang-20", "clang-19", "clang-18", "clang-17", "clang-16",
   "gcc", "cc", "c99", "c11"]

def OBJ_SUFFIXES : List String :=
  [".o", ".obj", ".lo", ".a", ".lib", ".so", ".dylib", ".bc", ".ll"]

def SRC_SUFFIXES : List String := [".c", ".cc", ".cpp", ".cxx", ".c++", ".m", ".mm"]

def _is_obj_or_lib (t : String) : Bool := OBJ_SUFFIXES.any (strEnds (lowerStr t))

def _is_source_file (t : String) : Bool := SRC_SUFFIXES.any (strEnds (lowerStr t))

def _is_warning_tok (t : String) : Bool := !strStarts t "-Wl," && strStarts t "-W"

def dropPrefixHit (t : String) : Bool := DROP_PREFIXES.any (fun p => strStarts t p)

/-- The main filtering loop of `_sanitize_clang_args_for_libclang`, with the
`saw_lang` / `saw_std` / `saw_resource_dir` flags threaded; returns the
`filtered` list and the final flags. -/
def sanSingle (env : SanEnv) (dir : String) (tok : String) (first sl ss sr : Bool) :
    List String × Bool × Bool × Bool :=
  if first ∧ ¬ strStarts tok "-" ∧ baseName tok ∈ COMPILER_BASES then ([], sl, ss, sr)
  else if tok ∈ DROP_EXACT then ([], sl, ss, sr)
  else if _is_obj_or_lib tok ∨ _is_source_file tok then ([], sl, ss, sr)
  else if dropPrefixHit tok then ([], sl, ss, sr)
  else if _is_warning_tok tok then ([], sl, ss, sr)
  else if tok ∈ PAIR_FLAGS then ([], sl, ss, sr)
  else if strStarts tok "-std=" then ([tok], sl, true, sr)
  else if strStarts tok "-I" ∧ tok ≠ "-I" then
    let val := strDropN tok 2
    (if val ≠ "" then ["-I", _abspath env val dir] else [], sl, ss, sr)
  else if strStarts tok "-isystem" ∧ tok ≠ "-isystem" then
    let val := strDropN tok 8
    (if val ≠ "" then ["-isystem", _abspath env val dir] else [], sl, ss, sr)
  else if strStarts tok "-iquote" ∧ tok ≠ "-iquote" then
    let val := strDropN tok 7
    (if val ≠ "" then ["-iquote", _abspath env val dir] else [], sl, ss, sr)
  else if strStarts tok "-idirafter" ∧ tok ≠ "-idirafter" then
    let val := strDropN tok 10
    (if val ≠ "" then ["-idirafter", _abspath env val dir] else [], sl, ss, sr)
  else if strStarts tok "-isysroot=" then
    (["-isysroot=" ++ _abspath env (strDropN tok 10) dir], sl, ss, sr)
  else if strStarts tok "--sysroot=" then
    (["--sysroot=" ++ _abspath env (strDropN tok 10) dir], sl, ss, sr)
  else if strStarts tok "-resource-dir=" then
    (["-resource-dir=" ++ _abspath env (strDropN tok 14) dir], sl, ss, true)
  else if strStarts tok "-D" then ([tok], sl, ss, sr)
  else if tok ∈ PRESERVE_EXACT then ([tok], sl, ss, sr)
  else if strStarts tok "-O" then ([tok], sl, ss, sr)
  else ([], sl, ss, sr)

/-- The main filtering loop of `_sanitize_clang_args_for_libclang`, with the
`saw_lang` / `saw_std` / `saw_resource_dir` flags threaded; returns the
`filtered` list and the final flags.  A token that is not a pair flag with
a following value is handled by `sanSingle` (the same branch cascade with
`i + 1 < n` false). -/
def sanLoop (env : SanEnv) (dir : String) :
    List String → Bool → Bool → Bool → Bool → List String × Bool × Bool × Bool
  | [], _, sl, ss, sr => ([], sl, ss, sr)
  | [tok], first, sl, ss, sr => sanSingle env dir tok first sl ss sr
  | tok :: v :: rest2, first, sl, ss, sr =>
    if first ∧ ¬ strStarts tok "-" ∧ baseName tok ∈ COMPILER_BASES then
      sanLoop env dir (v :: rest2) false sl ss sr
    else if tok ∈ DROP_EXACT then sanLoop env dir (v :: rest2) false sl ss sr
    else if _is_obj_or_lib tok ∨ _is_source_file tok then
      sanLoop env dir (v :: rest2) false sl ss sr
    else if dropPrefixHit tok then sanLoop env dir (v :: rest2) false sl ss sr
    else if _is_warning_tok tok then sanLoop env dir (v :: rest2) false sl ss sr
    else if tok ∈ PAIR_FLAGS then
      if strStarts v "-" then
        sanLoop env dir (v :: rest2) false sl ss sr
      else if tok ∈ OUT_FLAGS then
        sanLoop env dir rest2 false sl ss sr
      else
        let abs_val := if tok ∈ PATH_PAIR_FLAGS then _abspath env v dir else v
        let r := sanLoop env dir rest2 false (sl || tok = "-x")
          (ss || strStarts tok "-std") (sr || tok = "-resource-dir")
        (tok :: abs_val :: r.1, r.2)
    else if strStarts tok "-std=" then
      let r := sanLoop env dir (v :: rest2) false sl true sr
      (tok :: r.1, r.2)
    else if strStarts tok "-I" ∧ tok ≠ "-I" then
      let val := strDropN tok 2
      let r := sanLoop env dir (v :: rest2) false sl ss sr
      (if val ≠ "" then "-I" :: _abspath env val dir :: r.1 else r.1, r.2)
    else if strStarts tok "-isystem" ∧ tok ≠ "-isystem" then
      let val := strDropN tok 8
      let r := sanLoop env dir (v :: rest2) false sl ss sr
      (if val ≠ "" then "-isystem" :: _abspath env val dir :: r.1 else r.1, r.2)
    else if strStarts tok "-iquote" ∧ tok ≠ "-iquote" then
      let val := strDropN tok 7
      let r := sanLoop env dir (v :: rest2) false sl ss sr
      (if val ≠ "" then "-iquote" :: _abspath env val dir :: r.1 else r.1, r.2)
    else if strStarts tok "-idirafter" ∧ tok ≠ "-idirafter" then
      let val := strDropN tok 10
      let r := sanLoop env dir (v :: rest2) false sl ss sr
      (if val ≠ "" then "-idirafter" :: _abspath env val dir :: r.1 else r.1, r.2)
    else if strStarts tok "-isysroot=" then
      let r := sanLoop env dir (v :: rest2) false sl ss sr
      (("-isysroot=" ++ _abspath env (strDropN tok 10) dir) :: r.1, r.2)
    else if strStarts tok "--sysroot=" then
      let r := sanLoop env dir (v :: rest2) false sl ss sr
      (("--sysroot=" ++ _abspath env (strDropN tok 10) dir) :: r.1, r.2)
    else if strStarts tok "-resource-dir=" then
      let r := sanLoop env dir (v :: rest2) false sl ss (sr || true)
      (("-resource-dir=" ++ _abspath env (strDropN tok 14) dir) :: r.1, r.2)
    else if strStarts tok "-D" then
      let r := sanLoop env dir (v :: rest2) false sl ss sr
      (tok :: r.1, r.2)
    else if tok ∈ PRESERVE_EXACT then
      let r := sanLoop env dir (v :: rest2) false sl ss sr
      (tok :: r.1, r.2)
    else if strStarts tok "-O" then
      let r := sanLoop env dir (v :: rest2) false sl ss sr
      (tok :: r.1, r.2)
    else sanLoop env dir (v :: rest2) false sl ss sr

/-- `_include_already_present(args, include_path)` (exact string matching). -/
def iapScan (p : String) : List String → Bool
  | [] => false
  | a :: rest =>
    (if a = "-I" then
      (match rest with
       | b :: _ => b = p
       | [] => false)
     else strStarts a "-I" && strDropN a 2 = p) || iapScan p rest

def _include_already_present (args : List String) (p : String) : Bool :=
  if p = "" then false else iapScan p args

/-- `_has_sys_include(argv, path)`. -/
def hsiScan (env : SanEnv) (abs_path : String) : List String → Bool
  | [] => false
  | a :: rest =>
    ((a ∈ (["-I", "-isystem", "-iquote", "-idirafter"] : List String) &&
      (match rest with
       | b :: _ => env.resolve b = abs_path
       | [] => false)) ||
     (strStarts a "-I" && a ≠ "-I" && env.resolve (strDropN a 2) = abs_path)) ||
    hsiScan env abs_path rest

def _has_sys_include (env : SanEnv) (argv : List String) (path : String) : Bool :=
  hsiScan env (env.resolve path) argv

def SYS_PATHS : List String := ["/usr/include", "/usr/include/x86_64-linux-gnu"]

/-- `_has_any_project_includes(argv)`. -/
def hapScan (env : SanEnv) : List String → Bool
  | [] => false
  | a :: rest =>
    ((a ∈ (["-I", "-isystem", "-iquote", "-idirafter"] : List String) &&
      (match rest with
       | b :: _ => !strStarts b "-" && env.resolve b ∉ SYS_PATHS
       | [] => false)) ||
     (strStarts a "-I" && a ≠ "-I" && env.resolve (strDropN a 2) ∉ SYS_PATHS)) ||
    hapScan env rest

def _has_any_project_includes (env : SanEnv) (argv : List String) : Bool :=
  hapScan env argv

/-- The resource-dir candidate selection. -/
def pickResource (env : SanEnv) : Option String :=
  match env.envResourceDir with
  | some rd =>
    if rd ≠ "" ∧ env.hasStddef rd then some rd
    else env.resourceCandidates.find? env.hasStddef
  | none => env.resourceCandidates.find? env.hasStddef

/-- A `-working-directory` token. -/
def isWdTok (t : String) : Bool := t = "-working-directory" || strStarts t "-working-directory="

def MULTIARCH : String := "/usr/include/x86_64-linux-gnu"

/-- The `-x <lang>` prefix chosen from the source suffix. -/
def langPrefixFor (src : String) : List String :=
  let sp := lowerStr src
  if strEnds sp ".c" then ["-x", "c"]
  else if strEnds sp ".cc" ∨ strEnds sp ".cpp" ∨ strEnds sp ".cxx" ∨
      strEnds sp ".c++" then ["-x", "c++"]
  else if strEnds sp ".m" then ["-x", "objective-c"]
  else if strEnds sp ".mm" then ["-x", "objective-c++"]
  else ["-x", "c"]

/-- Post-loop phase: ensure a `-working-directory=` token. -/
def sanWd (dir : String) (l : List String) : List String :=
  if l.any isWdTok then l else l ++ ["-working-directory=" ++ pathNorm dir]

/-- Post-loop phase: `-I <src_dir>` when the source sits outside the entry
directory. -/
def sanSrcI (env : SanEnv) (src dir : String) (l : List String) : List String :=
  let sd := env.resolve (parentOf src)
  let ed := env.resolve dir
  if sd ≠ ed ∧ ¬ _include_already_present l sd then l ++ ["-I", sd] else l

def sanUsr (env : SanEnv) (l : List String) : List String :=
  if ¬ _has_sys_include env l "/usr/include" then l ++ ["-I", "/usr/include"] else l

def sanMulti (env : SanEnv) (l : List String) : List String :=
  if env.multiarchIsDir ∧ ¬ _has_sys_include env l MULTIARCH then
    l ++ ["-I", MULTIARCH]
  else l

def sanRes (env : SanEnv) (sr : Bool) (l : List String) : List String :=
  if sr = false then
    match pickResource env with
    | some p => l ++ ["-resource-dir=" ++ p]
    | none => l
  else l

def sanDefaults (env : SanEnv) (src dir : String) (l : List String) : List String :=
  if env.addDefaults = true ∧ _has_any_project_includes env l = false then
    let ed := env.resolve dir
    let sd := env.resolve (parentOf src)
    let l1 := if ed ≠ "" ∧ ¬ _include_already_present l ed then l ++ ["-I", ed] else l
    if sd ≠ "" ∧ ¬ _include_already_present l1 sd then l1 ++ ["-I", sd] else l1
  else l

def sanLang (sl : Bool) (src : String) (l : List String) : List String :=
  if sl = false then langPrefixFor src ++ l else l

/-- `_sanitize_clang_args_for_libclang(raw_args, src_path, entry_dir)`. -/
def _sanitize_clang_args_for_libclang (env : SanEnv) (raw : List String)
    (src dir : String) : List String :=
  let r := sanLoop env dir (expandResp env raw) true false false false
  sanLang r.2.1 src
    (sanDefaults env src dir
      (sanRes env r.2.2.2
        (sanMulti env
          (sanUsr env
            (sanSrcI env src dir
              (sanWd dir r.1))))))

/-- A concrete environment: no response files, `resolve` normalizes (no
symlinks), no multiarch directory, no clang resource candidates. -/
def envC9 : SanEnv := ⟨false, fun _ => [], fun s => pathNorm s, false, [], none, fun _ => false⟩

/-- A concrete environment whose `resolve` returns a fixed absolute,
normalized path: no response files, no multiarch directory, no resource
candidates, no default includes. -/
def envW : SanEnv := ⟨false, fun _ => [], fun _ => "/r", false, [], none, fun _ => false⟩

/-! ### Prefix and path toolkit -/

/-! ### Stable chunk lists: token shapes the filtering loop re-emits
verbatim (the `-working-directory` token is dropped) -/

def pairChunkOk (env : SanEnv) (dir t v : String) : Bool :=
  !strStarts v "-" && !strStarts v "@" && decide (t ∉ OUT_FLAGS) &&
    (!decide (t ∈ PATH_PAIR_FLAGS) || decide (_abspath env v dir = v))

def singleStable (env : SanEnv) (dir t : String) : Bool :=
  !strStarts t "@" && strStarts t "-" &&
  decide (t ∉ DROP_EXACT) && !_is_obj_or_lib t && !_is_source_file t &&
  !dropPrefixHit t && !_is_warning_tok t && decide (t ∉ PAIR_FLAGS) &&
  (if strStarts t "-std=" then true
   else if strStarts t "-I" ∧ t ≠ "-I" then false
   else if strStarts t "-isystem" ∧ t ≠ "-isystem" then false
   else if strStarts t "-iquote" ∧ t ≠ "-iquote" then false
   else if strStarts t "-idirafter" ∧ t ≠ "-idirafter" then false
   else if strStarts t "-isysroot=" then
     decide ("-isysroot=" ++ _abspath env (strDropN t 10) dir = t)
   else if strStarts t "--sysroot=" then
     decide ("--sysroot=" ++ _abspath env (strDropN t 10) dir = t)
   else if strStarts t "-resource-dir=" then
     decide ("-resource-dir=" ++ _abspath env (strDropN t 14) dir = t)
   else if strStarts t "-D" then true
   else if t ∈ PRESERVE_EXACT then true
   else strStarts t "-O")

def stableChunks (env : SanEnv) (dir : String) : List String → Bool
  | [] => true
  | t :: rest =>
    if isWdTok t then stableChunks env dir rest
    else if t ∈ PAIR_FLAGS then
      match rest with
      | v :: rest2 => pairChunkOk env dir t v && stableChunks env dir rest2
      | [] => false
    else singleStable env dir t && stableChunks env dir rest

/-- The `saw_lang` / `saw_std` / `saw_resource_dir` contributions of a
stable chunk list. -/
def chunkFlags (env : SanEnv) (dir : String) : List String → Bool × Bool × Bool
  | [] => (false, false, false)
  | t :: rest =>
    if isWdTok t then chunkFlags env dir rest
    else if t ∈ PAIR_FLAGS then
      match rest with
      | v :: rest2 =>
        let f := chunkFlags env dir rest2
        (f.1 || t = "-x", f.2.1 || strStarts t "-std", f.2.2 || t = "-resource-dir")
      | [] => (false, false, false)
    else
      let f := chunkFlags env dir rest
      (f.1, f.2.1 || strStarts t "-std=", f.2.2 || strStarts t "-resource-dir=")

theorem Cursor.sizeOf_lt_of_mem_children {c x : Cursor} (hm : c ∈ x.children) :
    sizeOf c < sizeOf x := by
  cases x with
  | node k s h l t r rt cs =>
    have h1 : sizeOf c < sizeOf cs := List.sizeOf_lt_of_mem hm
    simp only [Cursor.children] at hm
    simp only [Cursor.node.sizeOf_spec]
    omega

theorem Cursor.sizeOf_pos (c : Cursor) : 0 < sizeOf c := by
  cases c; simp only [Cursor.node.sizeOf_spec]; omega

theorem List.sizeOf_lt_of_getElem {l : List Cursor} {i : Nat} (h : i < l.length) :
    sizeOf l[i] < sizeOf l := List.sizeOf_lt_of_mem (List.getElem_mem h)

/-- `_callee_name(call)`: the resolved callee spelling.  In the embedding a
call cursor carries that name as its `spelling` (Python falls back to
`call.spelling` and an unresolvable name surfaces as `""`). -/
def _callee_name (call : Cursor) : String := call.spelling

/-- `_function_body_cursor(fn)`: first `COMPOUND_STMT` child. -/
def _function_body_cursor (fn : Cursor) : Option Cursor :=
  fn.children.find? (fun ch => ch.kind = CK.COMPOUND_STMT)

/-- `_callee_definition(call)`: the visible definition cursor of the callee.
Cursor cross-links are embedded as a name lookup in the list `tu` of
function definitions of the translation unit. -/
def _callee_definition (tu : List Cursor) (call : Cursor) : Option Cursor :=
  tu.find? (fun f =>
    (f.kind = CK.FUNCTION_DECL ∨ f.kind = CK.FUNCTION_TEMPLATE) ∧
      f.spelling = _callee_name call)

/-- `_is_param(c)`. -/
def _is_param (c : Cursor) : Bool := c.kind = CK.PARM_DECL

/-- `_var_key(c)`: `"spelling@hash"` of the referenced declaration for a
`DECL_REF_EXPR`, else of the cursor itself (its canonical cursor). -/
def _var_key (c : Cursor) : String :=
  match c.kind, c.refd with
  | CK.DECL_REF_EXPR, some r => r.spelling ++ "@" ++ toString r.hash
  | _, _ => c.spelling ++ "@" ++ toString c.hash

/-- `_var_key` applied to a `RefInfo` (the `referenced` declaration). -/
def refVarKey (r : RefInfo) : String := r.spelling ++ "@" ++ toString r.hash

/-- `_cursor_loc_key(c)`: `(file, line, column)` when a file is present. -/
def _cursor_loc_key (c : Cursor) : Option (String × Nat × Nat) :=
  match c.loc with
  | some l =>
    match l.file with
    | some f => some (f, l.line, l.col)
    | none => none
  | none => none

/-- `HelperConfig`: literal names plus compiled regex patterns; a compiled
pattern is embedded as its `search` predicate. -/
structure HelperConfig where
  benign : List String
  benignRegex : List (String → Bool)
  helpers : List String
  helpersRegex : List (String → Bool)

/-- `HelperConfig.any_match(name, which)`. -/
def HelperConfig.any_match (hc : HelperConfig) (name : String)
    (which : String := "helpers") : Bool :=
  if which = "benign" then
    name ∈ hc.benign || hc.benignRegex.any (fun r => r name)
  else
    name ∈ hc.helpers || hc.helpersRegex.any (fun r => r name)

/-- `ApiCatalog` (the fields the wrapper decisions read). -/
structure ApiCatalog where
  target_names : List String
  helpers : HelperConfig
  thin_aliases : List String

/-- `is_helper_call(call, helpers, kind)`. -/
def is_helper_call (call : Cursor) (helpers : HelperConfig)
    (kind : String := "helpers") : Bool :=
  helpers.any_match (_callee_name call) (if kind = "benign" then "benign" else "helpers")

/-- `\w` of the regex `(?:SYS|__NR)_(\w+)`. -/
def isWordChar (c : Char) : Bool := c.isAlphanum || c = '_'

/-- Maximal-munch run of word characters (the captured `\w+`). -/
def takeWordChars : List Char → List Char
  | [] => []
  | c :: rest => if isWordChar c then c :: takeWordChars rest else []

/-- Try the regex `(?:SYS|__NR)_(\w+)` anchored at this position: literal
`SYS_` or `__NR_` followed by at least one word character; the capture is
the maximal word-character run. -/
def sysMatchAt (l : List Char) : Option String :=
  if l.take 4 = ['S', 'Y', 'S', '_'] then
    let w := takeWordChars (l.drop 4)
    if w = [] then none else some (String.mk w)
  else if l.take 5 = ['_', '_', 'N', 'R', '_'] then
    let w := takeWordChars (l.drop 5)
    if w = [] then none else some (String.mk w)
  else none

/-- `re.search`: leftmost match of `(?:SYS|__NR)_(\w+)`. -/
def sysSearch : List Char → Option String
  | [] => none
  | c :: rest =>
    match sysMatchAt (c :: rest) with
    | some w => some w
    | none => sysSearch rest

/-- `resolve_syscall_indirection(call)`: for `syscall(SYS_*/__NR_*, ...)`
return the implied base name from the second child's token text.  The
numeric-selector fallback through `SYSNR_TO_NAME` can never produce a name:
that module-level dict is initialized empty and never written, so the
fallback is the constant `None`. -/
def resolve_syscall_indirection (call : Cursor) : Option String :=
  if _callee_name call ≠ "syscall" then none
  else
    match call.children with
    | _ :: selector :: _ => sysSearch selector.tokens.toList
    | _ => none

/-- `_call_hits_target_via_one_hop(call, target_names)`: the callee's body
has a direct child call naming a target. -/
def _call_hits_target_via_one_hop (tu : List Cursor) (call : Cursor)
    (target_names : List String) : Bool :=
  match _callee_definition tu call with
  | none => false
  | some callee =>
    match _function_body_cursor callee with
    | none => false
    | some body =>
      body.children.any (fun ch =>
        ch.kind = CK.CALL_EXPR && _callee_name ch ∈ target_names)

/-- `_is_small_function(fn, max_stmts=6)`. -/
def _is_small_function (fn : Cursor) (max_stmts : Nat := 6) : Bool :=
  match _function_body_cursor fn with
  | none => false
  | some body =>
    (body.children.filter (fun c => c.kind ≠ CK.DECL_STMT)).length ≤ max_stmts

mutual

/-- Core of `_call_hits_target_via_n_hops` with the mutated `seen` set
threaded explicitly (the Python set is shared across sibling recursions). -/
def nHopsSeen (tu : List Cursor) (target_names : List String) :
    Nat → Cursor → List Nat → Bool × List Nat
  | 0, _, seen => (false, seen)
  | m + 1, call, seen =>
    match _callee_definition tu call with
    | none => (false, seen)
    | some callee =>
      if ¬ _is_small_function callee then (false, seen)
      else if callee.hash ∈ seen then (false, seen)
      else
        let seen1 := callee.hash :: seen
        match _function_body_cursor callee with
        | none => (false, seen1)
        | some body => nHopsChildren tu target_names m body.children seen1

/-- The `for ch in body.get_children()` loop of the bounded DFS. -/
def nHopsChildren (tu : List Cursor) (target_names : List String) :
    Nat → List Cursor → List Nat → Bool × List Nat
  | _, [], seen => (false, seen)
  | m, ch :: rest, seen =>
    if ch.kind = CK.CALL_EXPR then
      if _callee_name ch ∈ target_names then (true, seen)
      else
        let r := nHopsSeen tu target_names m ch seen
        if r.1 then r else nHopsChildren tu target_names m rest r.2
    else nHopsChildren tu target_names m rest seen

end

/-- `_call_hits_target_via_n_hops(call, target_names, max_hops=2, seen=None)`:
bounded DFS over tiny helper bodies, fresh `seen` set. -/
def _call_hits_target_via_n_hops (tu : List Cursor) (call : Cursor)
    (target_names : List String) (max_hops : Nat := 2) : Bool :=
  (nHopsSeen tu target_names max_hops call []).1

/-- `_inner_target_from_one_hop(call_cursor, target_names)`: first direct
target name in the callee's body. -/
def _inner_target_from_one_hop (tu : List Cursor) (call : Cursor)
    (target_names : List String) : Option String :=
  match _callee_definition tu call with
  | none => none
  | some defn =>
    match _function_body_cursor defn with
    | none => none
    | some body =>
      body.children.findSome? (fun ch =>
        if ch.kind = CK.CALL_EXPR ∧ _callee_name ch ∈ target_names then
          some (_callee_name ch)
        else none)

/-- `_resolve_target_name_for_call(call, catalog)`. -/
def _resolve_target_name_for_call (tu : List Cursor) (call : Cursor)
    (catalog : ApiCatalog) : Option String :=
  let targets := catalog.target_names
  let nm := _callee_name call
  if nm ∈ targets then some nm
  else
    let hop : Option String :=
      if _call_hits_target_via_one_hop tu call targets
          || _call_hits_target_via_n_hops tu call targets 2 then
        match _inner_target_from_one_hop tu call targets with
        | some inner => if inner ≠ "" ∧ inner ∈ targets then some inner else none
        | none => none
      else none
    match resolve_syscall_indirection call with
    | some mapped => if mapped ≠ "" ∧ mapped ∈ targets then some mapped else hop
    | none => hop

/-- `count_calls_in_expr(node, target_names, helpers, max_helper_hops=1)`:
count target calls inside an expression subtree. -/
def count_calls_in_expr (tu : List Cursor) (node : Cursor)
    (target_names : List String) (helpers : HelperConfig)
    (max_helper_hops : Nat := 1) : Nat :=
  (node.children.attach.map (fun x =>
    (if x.1.kind = CK.CALL_EXPR then
      if is_helper_call x.1 helpers "benign" then 0
      else if _callee_name x.1 ∈ target_names then 1
      else if (match resolve_syscall_indirection x.1 with
               | some m => decide (m ≠ "" ∧ m ∈ target_names)
               | none => false) then 1
      else if _call_hits_target_via_one_hop tu x.1 target_names
              || (decide (1 < max_helper_hops)
                  && _call_hits_target_via_n_hops tu x.1 target_names max_helper_hops) then 1
      else 0
     else 0)
    + count_calls_in_expr tu x.1 target_names helpers max_helper_hops)).sum
termination_by sizeOf node
decreasing_by exact Cursor.sizeOf_lt_of_mem_children x.2

/-- `PathResult`. -/
structure PathResult where
  counts : Finset Nat
  unknown : Bool
deriving DecidableEq

/-- `_merge_pr(a, b)`. -/
def _merge_pr (a b : PathResult) : PathResult :=
  ⟨a.counts ∪ b.counts, a.unknown || b.unknown⟩

/-- `cap_union(sumset, val)` (the closure inside `analyze_stmt`). -/
def cap_union (sumset : Finset Nat) (val : Nat) : Finset Nat :=
  (if sumset = ∅ then {0} else sumset).image (fun s =>
    if s + val ≤ 2 then s + val else 2)

/-- The loop-body selection of `analyze_stmt`'s for/while/do branch: the
`body` variable ends up holding the last `COMPOUND_STMT` child (the
`BREAK_STMT`/`CONTINUE_STMT` arms of the Python conditional leave it
unchanged). -/
def loopBodyCursor (cs : List Cursor) : Option Cursor :=
  cs.foldl (fun acc ch => if ch.kind = CK.COMPOUND_STMT then some ch else acc) none

theorem loopBodyCursor_mem {cs : List Cursor} {b : Cursor}
    (h : loopBodyCursor cs = some b) : b ∈ cs := by
  have key : ∀ (l : List Cursor) (acc : Option Cursor),
      l.foldl (fun acc ch => if ch.kind = CK.COMPOUND_STMT then some ch else acc) acc = some b →
      b ∈ l ∨ acc = some b := by
    intro l
    induction l with
    | nil => intro acc h; exact Or.inr h
    | cons x xs ih =>
      intro acc h
      simp only [List.foldl_cons] at h
      rcases ih _ h with h1 | h1
      · exact Or.inl (List.mem_cons_of_mem _ h1)
      · by_cases hk : x.kind = CK.COMPOUND_STMT
        · simp [hk] at h1
          exact Or.inl (h1 ▸ List.mem_cons_self _ _)
        · simp [hk] at h1
          exact Or.inr h1
  rcases key cs none h with h1 | h1
  · exact h1
  · simp at h1

/-- `analyze_stmt(stmt, target_names, helpers, max_helper_hops=1)`:
conservative set of per-path target-call counts. -/
def analyze_stmt (tu : List Cursor) (stmt : Cursor) (target_names : List String)
    (helpers : HelperConfig) (max_helper_hops : Nat := 1) : PathResult :=
  if stmt.kind = CK.RETURN_STMT then
    let cnt := (stmt.children.map (fun ch =>
      count_calls_in_expr tu ch target_names helpers max_helper_hops)).sum
    ⟨{if cnt ≤ 2 then cnt else 2}, false⟩
  else if stmt.kind = CK.CALL_EXPR then
    if is_helper_call stmt helpers "benign" then ⟨{0}, false⟩
    else
      let val : Nat :=
        if _callee_name stmt ∈ target_names then 1
        else if (match resolve_syscall_indirection stmt with
                 | some m => decide (m ≠ "" ∧ m ∈ target_names)
                 | none => false) then 1
        else if _call_hits_target_via_one_hop tu stmt target_names
                || (decide (1 < max_helper_hops)
                    && _call_hits_target_via_n_hops tu stmt target_names max_helper_hops) then 1
        else 0
      ⟨{val}, false⟩
  else if stmt.kind = CK.IF_STMT then
    match hc : stmt.children with
    | _ :: thenB :: rest =>
      _merge_pr (analyze_stmt tu thenB target_names helpers max_helper_hops)
        (match hr : rest with
         | elseB :: _ => analyze_stmt tu elseB target_names helpers max_helper_hops
         | [] => (⟨{0}, false⟩ : PathResult))
    | _ => ⟨{0}, false⟩
  else if stmt.kind = CK.SWITCH_STMT then
    if (stmt.children.attach.foldl (fun (acc : PathResult) x =>
        if x.1.kind = CK.CASE_STMT ∨ x.1.kind = CK.DEFAULT_STMT then
          _merge_pr acc
            (match hcc : x.1.children with
             | _ :: body :: _ => analyze_stmt tu body target_names helpers max_helper_hops
             | _ => (⟨{0}, false⟩ : PathResult))
        else acc) ⟨∅, false⟩).counts = ∅ then
      ⟨{0}, (stmt.children.attach.foldl (fun (acc : PathResult) x =>
        if x.1.kind = CK.CASE_STMT ∨ x.1.kind = CK.DEFAULT_STMT then
          _merge_pr acc
            (match hcc : x.1.children with
             | _ :: body :: _ => analyze_stmt tu body target_names helpers max_helper_hops
             | _ => (⟨{0}, false⟩ : PathResult))
        else acc) ⟨∅, false⟩).unknown⟩
    else
      stmt.children.attach.foldl (fun (acc : PathResult) x =>
        if x.1.kind = CK.CASE_STMT ∨ x.1.kind = CK.DEFAULT_STMT then
          _merge_pr acc
            (match hcc : x.1.children with
             | _ :: body :: _ => analyze_stmt tu body target_names helpers max_helper_hops
             | _ => (⟨{0}, false⟩ : PathResult))
        else acc) ⟨∅, false⟩
  else if stmt.kind = CK.CONDITIONAL_OPERATOR then
    match hc : stmt.children with
    | _ :: thenB :: rest =>
      _merge_pr (analyze_stmt tu thenB target_names helpers max_helper_hops)
        (match hr : rest with
         | elseB :: _ => analyze_stmt tu elseB target_names helpers max_helper_hops
         | [] => (⟨{0}, false⟩ : PathResult))
    | _ => _merge_pr ⟨{0}, false⟩ ⟨{0}, false⟩
  else if stmt.kind = CK.FOR_STMT ∨ stmt.kind = CK.WHILE_STMT ∨ stmt.kind = CK.DO_STMT then
    match hb : loopBodyCursor stmt.children with
    | none => ⟨{2}, true⟩
    | some body =>
      if ∃ x ∈ (analyze_stmt tu body target_names helpers).counts, 2 ≤ x then
        ⟨{2}, true⟩
      else
        ⟨(analyze_stmt tu body target_names helpers).counts ∪ {0, 1},
         (analyze_stmt tu body target_names helpers).unknown⟩
  else if stmt.kind = CK.COMPOUND_STMT then
    ⟨(stmt.children.attach.foldl (fun (st : Finset Nat × Bool) x =>
        ((analyze_stmt tu x.1 target_names helpers max_helper_hops).counts.biUnion
          (fun v => cap_union st.1 v),
         st.2 || (analyze_stmt tu x.1 target_names helpers max_helper_hops).unknown))
        ({0}, false)).1,
     (stmt.children.attach.foldl (fun (st : Finset Nat × Bool) x =>
        ((analyze_stmt tu x.1 target_names helpers max_helper_hops).counts.biUnion
          (fun v => cap_union st.1 v),
         st.2 || (analyze_stmt tu x.1 target_names helpers max_helper_hops).unknown))
        ({0}, false)).2⟩
  else
    stmt.children.attach.foldl (fun acc x =>
      _merge_pr acc (analyze_stmt tu x.1 target_names helpers max_helper_hops))
      ⟨{0}, false⟩
termination_by sizeOf stmt
decreasing_by
  all_goals first
    | exact Cursor.sizeOf_lt_of_mem_children (by rw [hc]; simp)
    | exact lt_trans (Cursor.sizeOf_lt_of_mem_children (by rw [hcc]; simp))
        (Cursor.sizeOf_lt_of_mem_children x.2)
    | exact Cursor.sizeOf_lt_of_mem_children (loopBodyCursor_mem hb)
    | exact Cursor.sizeOf_lt_of_mem_children x.2

/-- Location string `"line:col"` used when collecting call sites
(`"?"` when the cursor has no location). -/
def hitLocString (c : Cursor) : String :=
  match c.loc with
  | some l => toString l.line ++ ":" ++ toString l.col
  | none => "?"

/-- The per-call classification of `collect_target_calls.visit`: does this
call count as a target hit (direct name, syscall indirection, or helper
hop)? -/
def collectHit (tu : List Cursor) (target_names : List String) (n : Cursor) : Bool :=
  if _callee_name n ∈ target_names then true
  else if (match resolve_syscall_indirection n with
           | some m => decide (m ≠ "" ∧ m ∈ target_names)
           | none => false) then true
  else if _call_hits_target_via_one_hop tu n target_names
          || _call_hits_target_via_n_hops tu n target_names 2 then true
  else false

/-- `collect_target_calls(fn, target_names)`: preorder list of (call cursor,
`"line:col"`) pairs for every counted call in `fn`'s subtree. -/
def collect_target_calls (tu : List Cursor) (fn : Cursor)
    (target_names : List String) : List (Cursor × String) :=
  (if fn.kind = CK.CALL_EXPR ∧ collectHit tu target_names fn then
    [(fn, hitLocString fn)]
   else []) ++
  (fn.children.attach.map (fun x =>
    collect_target_calls tu x.1 target_names)).flatten
termination_by sizeOf fn
decreasing_by exact Cursor.sizeOf_lt_of_mem_children x.2

/-- The whitelist `_ATOMIC_PAIRS[""]`: ordered tuples plus frozensets. -/
def atomicPairsOrdered : List (String × String) :=
  [("open", "close"), ("fopen", "fclose"), ("socket", "close"),
   ("malloc", "free"), ("calloc", "free")]

def atomicPairsUnordered : List (String × String) :=
  [("pthread_mutex_lock", "pthread_mutex_unlock"),
   ("pthread_rwlock_rdlock", "pthread_rwlock_unlock")]

/-- `is_atomic_pair(api_names, family)`.  `_ATOMIC_PAIRS` has entries only
under the `""` family, so any other family looks up the empty set. -/
def is_atomic_pair (api_names : List String) (family : String) : Bool :=
  match api_names with
  | [a, b] =>
    family = "" &&
      ((a, b) ∈ atomicPairsOrdered || (b, a) ∈ atomicPairsOrdered ||
        atomicPairsUnordered.any (fun p =>
          (a = p.1 ∧ b = p.2) ∨ (a = p.2 ∧ b = p.1)))
  | _ => false

/-- The helper-only prefix skip of `has_early_guard_return`: advance while
the statement is a `CALL_EXPR` matching the (non-benign) helper config. -/
def skipHelperCalls (helpers : HelperConfig) : List Cursor → List Cursor
  | [] => []
  | s :: rest =>
    if s.kind = CK.CALL_EXPR ∧ is_helper_call s helpers "helpers" then
      skipHelperCalls helpers rest
    else s :: rest

/-- The compound-child test inside `branch_has_immediate_return`: a
compound statement whose first non-declaration statement is a return. -/
def compoundStartsWithReturn (ch : Cursor) : Bool :=
  ch.kind = CK.COMPOUND_STMT &&
    (match (ch.children.filter (fun cc => cc.kind ≠ CK.DECL_STMT)) with
     | i0 :: _ => i0.kind = CK.RETURN_STMT
     | [] => false)

/-- `branch_has_immediate_return(node)` (the closure inside
`has_early_guard_return`): some *child* of the branch node is a return
statement, or a compound statement whose first non-declaration statement is
a return. -/
def branch_has_immediate_return : Option Cursor → Bool
  | none => false
  | some node =>
    node.children.any (fun ch =>
      ch.kind = CK.RETURN_STMT || compoundStartsWithReturn ch)

/-- `has_early_guard_return(func_cursor, helpers)`. -/
def has_early_guard_return (func_cursor : Cursor) (helpers : HelperConfig) : Bool :=
  match _function_body_cursor func_cursor with
  | none => false
  | some body =>
    let stmts := body.children.filter (fun c => c.kind ≠ CK.DECL_STMT)
    match skipHelperCalls helpers stmts with
    | [] => false
    | s :: _ =>
      if s.kind ≠ CK.IF_STMT then false
      else
        let kids := s.children
        branch_has_immediate_return kids[1]? ||
          branch_has_immediate_return kids[2]?

/-- Python's `sorted` on a set of strings: lexicographic sort. -/
def sortStrings (l : List String) : List String :=
  l.mergeSort (fun a b => a ≤ b)

/-- `f"{sorted(counts)}"`: the repr of a Python list of ints. -/
def pyListRepr (l : List Nat) : String :=
  "[" ++ String.intercalate ", " (l.map toString) ++ "]"

/-- Python set `add`: append unless already present (only membership and
sorted output are observed). -/
def addIgnored (l : List String) (s : String) : List String :=
  if s ∈ l then l else l ++ [s]

/-- The `"line:col"` entries appended to `hit_locs` by
`analyze_wrapper_strict_plus.walk_calls`, guarded by `loc and loc.file`. -/
def locHit (c : Cursor) : List String :=
  match c.loc with
  | some l =>
    match l.file with
    | some _ => [toString l.line ++ ":" ++ toString l.col]
    | none => []
  | none => []

/-- The mutable evidence of `analyze_wrapper_strict_plus.walk_calls`. -/
structure WalkSt where
  via_helper_hop : Bool
  via_hop_depth_ge2 : Bool
  ignored : List String
  hitLocs : List String
  apis : List String
deriving DecidableEq, Repr

/-- The call classification inside `walk_calls` (one `ch` of the loop). -/
def walkClassify (tu : List Cursor) (targets : List String)
    (helpers : HelperConfig) (st : WalkSt) (ch : Cursor) : WalkSt :=
  if ch.kind = CK.CALL_EXPR then
    if is_helper_call ch helpers then
      let nm0 := _callee_name ch
      let nm := if nm0 = "" then "<anon>" else nm0
      { st with ignored := addIgnored st.ignored nm }
    else
      let nm := _callee_name ch
      let hopCase : WalkSt :=
        if _call_hits_target_via_one_hop tu ch targets then
          let innerAdd :=
            match _inner_target_from_one_hop tu ch targets with
            | some inner => if inner ≠ "" ∧ inner ∈ targets then [inner] else []
            | none => []
          { st with via_helper_hop := true, apis := st.apis ++ innerAdd,
                    hitLocs := st.hitLocs ++ locHit ch }
        else if _call_hits_target_via_n_hops tu ch targets 2 then
          let innerAdd :=
            match _inner_target_from_one_hop tu ch targets with
            | some inner => if inner ≠ "" ∧ inner ∈ targets then [inner] else []
            | none => []
          { st with via_helper_hop := true, via_hop_depth_ge2 := true,
                    apis := st.apis ++ innerAdd, hitLocs := st.hitLocs ++ locHit ch }
        else st
      if nm ∈ targets then
        { st with apis := st.apis ++ [nm], hitLocs := st.hitLocs ++ locHit ch }
      else
        match resolve_syscall_indirection ch with
        | some mapped =>
          if mapped ≠ "" ∧ mapped ∈ targets then
            { st with apis := st.apis ++ [mapped], hitLocs := st.hitLocs ++ locHit ch }
          else hopCase
        | none => hopCase
  else st

/-- `walk_calls(n)`: classify each child call, then recurse into it. -/
def walk_calls (tu : List Cursor) (targets : List String)
    (helpers : HelperConfig) (n : Cursor) (st : WalkSt) : WalkSt :=
  n.children.attach.foldl (fun st x =>
    walk_calls tu targets helpers x.1 (walkClassify tu targets helpers st x.1)) st
termination_by sizeOf n
decreasing_by exact Cursor.sizeOf_lt_of_mem_children x.2

/-- `TaintState`. -/
structure TaintState where
  taint : List (String × List String)
  ret_tainted : Bool
  ret_trace : List String

def TaintState.lookup (st : TaintState) (key : String) : Option (List String) :=
  (st.taint.find? (fun p => p.1 = key)).map (fun p => p.2)

/-- `TaintState.mark(key, why)`: `taint[key] = taint.get(key, []) + [why]`. -/
def TaintState.mark (st : TaintState) (key why : String) : TaintState :=
  let cur := (st.lookup key).getD []
  { st with taint := (st.taint.filter (fun p => p.1 ≠ key)) ++ [(key, cur ++ [why])] }

def TaintState.is_tainted (st : TaintState) (key : String) : Bool :=
  (st.lookup key).isSome

def TaintState.trace (st : TaintState) (key : String) : List String :=
  (st.lookup key).getD []

/-- `helpers or HelperConfig(set(), [], set(), [])`. -/
def orEmpty : Option HelperConfig → HelperConfig
  | some h => h
  | none => ⟨[], [], [], []⟩

/-- `taint_expr(expr, state, helpers)`: is the expression data-derived from
parameters (with its trace)?  The per-branch child scans return the first
tainted child's verdict. -/
def taint_expr (expr : Cursor) (state : TaintState) (helpers : HelperConfig) :
    Bool × List String :=
  let scan : Unit → Bool × List String := fun _ =>
    match (expr.children.attach.map (fun x => taint_expr x.1 state helpers)).find?
        (fun r => r.1) with
    | some r => r
    | none => (false, [])
  if expr.kind = CK.DECL_REF_EXPR then
    let key := _var_key expr
    if state.is_tainted key then (true, state.trace key) else (false, [])
  else if expr.kind = CK.UNARY_OPERATOR ∨ expr.kind = CK.CSTYLE_CAST_EXPR ∨
      expr.kind = CK.MEMBER_REF_EXPR ∨ expr.kind = CK.ARRAY_SUBSCRIPT_EXPR then
    scan ()
  else if expr.kind = CK.BINARY_OPERATOR then
    scan ()
  else if expr.kind = CK.CALL_EXPR then
    if is_helper_call expr helpers "benign" then (false, []) else (false, [])
  else
    scan ()
termination_by sizeOf expr
decreasing_by all_goals exact Cursor.sizeOf_lt_of_mem_children x.2

/-- `taint_stmt(stmt, state, helpers)`: one pass over the body threading the
mutated state. -/
def taint_stmt (stmt : Cursor) (state : TaintState)
    (helpers : Option HelperConfig) : TaintState :=
  if stmt.kind = CK.DECL_STMT then
    stmt.children.attach.foldl (fun st x => taint_stmt x.1 st helpers) state
  else if stmt.kind = CK.VAR_DECL then
    let lhs := _var_key stmt
    stmt.children.foldl (fun st child =>
      let r := taint_expr child st (orEmpty helpers)
      if r.1 then r.2.foldl (fun st reason => st.mark lhs reason) st else st) state
  else if stmt.kind = CK.BINARY_OPERATOR then
    match stmt.children with
    | [lhs, rhs] =>
      if lhs.kind = CK.DECL_REF_EXPR then
        let key := _var_key lhs
        let r := taint_expr rhs state (orEmpty helpers)
        if r.1 then r.2.foldl (fun st reason => st.mark key reason) state else state
      else state
    | _ => state
  else if stmt.kind = CK.RETURN_STMT then
    stmt.children.foldl (fun st ch =>
      let r := taint_expr ch st (orEmpty helpers)
      if r.1 then { st with ret_tainted := true, ret_trace := st.ret_trace ++ r.2 }
      else st) state
  else
    stmt.children.attach.foldl (fun st x => taint_stmt x.1 st helpers) state
termination_by sizeOf stmt
decreasing_by all_goals exact Cursor.sizeOf_lt_of_mem_children x.2

/-- `extract_call_args(call)`: children after the callee reference. -/
def extract_call_args (call : Cursor) : List Cursor :=
  call.children.tail

/-- One `"arg<i>:tainted/clean [trace]"` line of the derivation trace. -/
def argTraceLine (i : Nat) (r : Bool × List String) : String :=
  "arg" ++ toString i ++ ":" ++ (if r.1 then "tainted" else "clean") ++
    (if r.2 ≠ [] then " [" ++ String.intercalate " ; " r.2 ++ "]" else "")

/-- `check_arguments_provenance(func, calls, helpers=None)`. -/
def check_arguments_provenance (func : Cursor) (calls : List Cursor)
    (helpers : Option HelperConfig := none) : Bool × List String :=
  let st1 := func.children.foldl (fun (st : TaintState) ch =>
    if _is_param ch then st.mark (_var_key ch) (ch.spelling ++ " is param") else st)
    ⟨[], false, []⟩
  match _function_body_cursor func with
  | none => (false, ["no-body"])
  | some body =>
    let st := taint_stmt body st1 helpers
    calls.foldl (fun (acc : Bool × List String) call =>
      (extract_call_args call).enum.foldl (fun (acc2 : Bool × List String) p =>
        let r := taint_expr p.2 st (orEmpty helpers)
        (acc2.1 && r.1, acc2.2 ++ [argTraceLine p.1 r])) acc) (true, [])

/-- The 11-tuple returned by the wrapper decisions, as a structure:
`(keep, per_path_single, total_hits, reason, hit_locs, api_name,
derived_from_params, derivation_trace, pair_used, via_helper_hop,
ignored_helpers)`. -/
structure AnalyzerResult where
  keep : Bool
  per_path_single : Bool
  total_hits : Nat
  reason : String
  hit_locs : List String
  api_name : Option String
  derived_from_params : Bool
  derivation_trace : List String
  pair_used : Bool
  via_helper_hop : Bool
  ignored_helpers : List String
deriving DecidableEq, Repr

/-- Steps 6–8 of `analyze_wrapper_strict_plus` (the code after the
thin-alias policy check): atomic-pair / multi-call decision, provenance,
and the accept return. -/
def strictPlusRest (tu : List Cursor) (func_cursor : Cursor) (catalog : ApiCatalog)
    (guard_ok : Bool) (max_pos total_hits : Nat) (st : WalkSt) : AnalyzerResult :=
  if 2 ≤ max_pos ∧ ¬(total_hits = 2 ∧ is_atomic_pair st.apis "") then
    ⟨false, false, total_hits, "reject: multi-call-per-path", st.hitLocs,
     st.apis.head?, false, [], false, st.via_helper_hop, sortStrings st.ignored⟩
  else
    ⟨true, true, total_hits,
     "ok" ++ (if guard_ok then "+ok-guard" else "") ++
       (if st.via_helper_hop then "+via-hop" else "") ++
       (if decide (2 ≤ max_pos) then "+atomic-pair" else ""),
     st.hitLocs, st.apis.head?,
     (check_arguments_provenance func_cursor
       ((collect_target_calls tu func_cursor catalog.target_names).map Prod.fst)
       (some catalog.helpers)).1,
     (check_arguments_provenance func_cursor
       ((collect_target_calls tu func_cursor catalog.target_names).map Prod.fst)
       (some catalog.helpers)).2,
     decide (2 ≤ max_pos), st.via_helper_hop, sortStrings st.ignored⟩

/-- Step 5 of `analyze_wrapper_strict_plus`: the thin-alias policy applied
to `apis[0]` when it is in `thin_aliases`. -/
def strictPlusThin (tu : List Cursor) (func_cursor : Cursor) (catalog : ApiCatalog)
    (thin_policy : String) (guard_ok : Bool) (max_pos total_hits : Nat)
    (st : WalkSt) : AnalyzerResult :=
  match st.apis with
  | first_api :: _ =>
    if first_api ≠ "" ∧ first_api ∈ catalog.thin_aliases then
      if ((if thin_policy = "" then "default" else thin_policy) = "default" ∨
          (if thin_policy = "" then "default" else thin_policy) = "direct-only") ∧
          st.via_helper_hop then
        ⟨false, false, total_hits, "reject: thin-alias-via-helper", st.hitLocs,
         some first_api, false, [], false, st.via_helper_hop, sortStrings st.ignored⟩
      else if (if thin_policy = "" then "default" else thin_policy) = "allow-1-hop" ∧
          st.via_hop_depth_ge2 then
        ⟨false, false, total_hits, "reject: thin-alias-hop-depth>=2", st.hitLocs,
         some first_api, false, [], false, st.via_helper_hop, sortStrings st.ignored⟩
      else strictPlusRest tu func_cursor catalog guard_ok max_pos total_hits st
    else strictPlusRest tu func_cursor catalog guard_ok max_pos total_hits st
  | [] => strictPlusRest tu func_cursor catalog guard_ok max_pos total_hits st

/-- `analyze_wrapper_strict_plus(func_cursor, catalog, thin_policy="default")`. -/
def analyze_wrapper_strict_plus (tu : List Cursor) (func_cursor : Cursor)
    (catalog : ApiCatalog) (thin_policy : String := "default") : AnalyzerResult :=
  match _function_body_cursor func_cursor with
  | none => ⟨false, false, 0, "no-body", [], none, false, [], false, false, []⟩
  | some body =>
    if (analyze_stmt tu body catalog.target_names catalog.helpers 2).unknown then
      ⟨false, false, 0, "unknown-control-flow", [], none, false, [], false, false, []⟩
    else if 0 ∈ (analyze_stmt tu body catalog.target_names catalog.helpers 2).counts ∧
        (decide (0 ∈ (analyze_stmt tu body catalog.target_names catalog.helpers 2).counts) &&
          has_early_guard_return func_cursor catalog.helpers) = false then
      ⟨false, false, 0,
       "path-counts=" ++ pyListRepr
         (((analyze_stmt tu body catalog.target_names catalog.helpers 2).counts).sort (· ≤ ·)),
       [], none, false, [], false, false, []⟩
    else if (walk_calls tu catalog.target_names catalog.helpers body
        ⟨false, false, [], [], []⟩).hitLocs.length = 0 then
      ⟨false, false, 0, "no-calls", [], none, false, [], false,
       (walk_calls tu catalog.target_names catalog.helpers body
         ⟨false, false, [], [], []⟩).via_helper_hop,
       sortStrings (walk_calls tu catalog.target_names catalog.helpers body
         ⟨false, false, [], [], []⟩).ignored⟩
    else
      strictPlusThin tu func_cursor catalog thin_policy
        (decide (0 ∈ (analyze_stmt tu body catalog.target_names catalog.helpers 2).counts) &&
          has_early_guard_return func_cursor catalog.helpers)
        ((analyze_stmt tu body catalog.target_names catalog.helpers 2).counts.sup id)
        (walk_calls tu catalog.target_names catalog.helpers body
          ⟨false, false, [], [], []⟩).hitLocs.length
        (walk_calls tu catalog.target_names catalog.helpers body ⟨false, false, [], [], []⟩)

/-- The `apis`/`hit_locs` re-collection of `analyze_wrapper_relaxed`
(step 3): collected target calls whose name resolution succeeds. -/
def relaxedResolved (tu : List Cursor) (func_cursor : Cursor)
    (catalog : ApiCatalog) : List (String × String) :=
  (collect_target_calls tu func_cursor catalog.target_names).filterMap (fun p =>
    match _resolve_target_name_for_call tu p.1 catalog with
    | some nm => if nm ≠ "" then some (nm, p.2) else none
    | none => none)

/-- `analyze_wrapper_relaxed(func_cursor, catalog)`. -/
def analyze_wrapper_relaxed (tu : List Cursor) (func_cursor : Cursor)
    (catalog : ApiCatalog) : AnalyzerResult :=
  match _function_body_cursor func_cursor with
  | none => ⟨false, false, 0, "no-body", [], none, false, [], false, false, []⟩
  | some body =>
    if decide (∃ c ∈ (analyze_stmt tu body catalog.target_names catalog.helpers 2).counts,
        0 < c) = false then
      ⟨false, false, 0,
       "path-counts=" ++ pyListRepr
         (((analyze_stmt tu body catalog.target_names catalog.helpers 2).counts).sort (· ≤ ·)),
       [], none, false, [], false, false, []⟩
    else if ((relaxedResolved tu func_cursor catalog).map Prod.fst).length = 0 then
      ⟨false, false, 0, "no-calls", [], none, false, [], false, false, []⟩
    else
      ⟨true,
       decide ((analyze_stmt tu body catalog.target_names catalog.helpers 2).counts ⊆ {0, 1}),
       ((relaxedResolved tu func_cursor catalog).map Prod.fst).length, "ok",
       (relaxedResolved tu func_cursor catalog).map Prod.snd,
       ((relaxedResolved tu func_cursor catalog).map Prod.fst).head?,
       true, [], false, false, []⟩

/-- `_gather_params(fn)`. -/
def _gather_params (fn : Cursor) : List Cursor :=
  fn.children.filter (fun ch => _is_param ch)

/-- An executable size of a cursor tree, the termination measure of the
explicit-stack loops of `compute_arg_ret_pass_multi`. -/
def csize (c : Cursor) : Nat :=
  1 + (c.children.attach.map (fun x => csize x.1)).sum
termination_by sizeOf c
decreasing_by exact Cursor.sizeOf_lt_of_mem_children x.2

/-- Sum of cursor sizes of a stack. -/
def sizeSum (l : List Cursor) : Nat := (l.map csize).sum

theorem csize_eq (x : Cursor) : csize x = 1 + sizeSum x.children := by
  rw [csize, sizeSum]
  congr 1
  rw [List.map_attach]
  simp [Function.comp]

theorem sizeSum_children_lt (x : Cursor) : sizeSum x.children < csize x := by
  rw [csize_eq]; omega

/-- `_strip_noop(e)`: descend through paren / C-style cast / unexposed
nodes, taking the last child each step. -/
def _strip_noop (expr : Cursor) : Cursor :=
  if expr.kind = CK.PAREN_EXPR ∨ expr.kind = CK.CSTYLE_CAST_EXPR ∨
      expr.kind = CK.UNEXPOSED_EXPR then
    match h : expr.children.getLast? with
    | some last => _strip_noop last
    | none => expr
  else expr
termination_by sizeOf expr
decreasing_by
  exact Cursor.sizeOf_lt_of_mem_children (List.mem_of_mem_getLast? h)

/-- One popped node's child sweep inside the member-chain scan of
`_is_direct_param_ref`: returns (bad, base key, children pushed so far in
reverse). -/
def chainStep : List Cursor → Option String → List Cursor →
    Bool × Option String × List Cursor
  | [], base, pushedRev => (false, base, pushedRev)
  | ch :: rest, base, pushedRev =>
    let base' :=
      match ch.kind, ch.refd with
      | CK.DECL_REF_EXPR, some ref =>
        if ref.kind = CK.PARM_DECL then some (refVarKey ref) else base
      | _, _ => base
    if ch.kind = CK.ARRAY_SUBSCRIPT_EXPR ∨ ch.kind = CK.BINARY_OPERATOR ∨
        ch.kind = CK.CALL_EXPR ∨ ch.kind = CK.CONDITIONAL_OPERATOR then
      (true, base', pushedRev)
    else if ch.kind = CK.UNARY_OPERATOR then
      (true, base', pushedRev)
    else chainStep rest base' (ch :: pushedRev)

theorem chainStep_pushed_le (cs : List Cursor) (base : Option String)
    (acc : List Cursor) :
    sizeSum (chainStep cs base acc).2.2 ≤ sizeSum cs + sizeSum acc := by
  induction cs generalizing base acc with
  | nil => simp [chainStep]
  | cons ch rest ih =>
    rw [chainStep]
    have hs : sizeSum (ch :: rest) = csize ch + sizeSum rest := by
      simp [sizeSum]
    split
    · simp only []
      omega
    · split
      · simp only []
        omega
      · have h2 := ih (match ch.kind, ch.refd with
          | CK.DECL_REF_EXPR, some ref =>
            if ref.kind = CK.PARM_DECL then some (refVarKey ref) else base
          | _, _ => base) (ch :: acc)
        have hs2 : sizeSum (ch :: acc) = csize ch + sizeSum acc := by
          simp [sizeSum]
        omega

/-- The LIFO member-chain scan of `_is_direct_param_ref` (`stack_chain`),
with the stack head as its top; returns (bad, base param key). -/
def chainScan : List Cursor → Option String → Bool × Option String
  | [], base => (false, base)
  | n :: rest, base =>
    let r := chainStep n.children base []
    if r.1 then (true, r.2.1)
    else chainScan (r.2.2 ++ rest) r.2.1
termination_by stack _ => sizeSum stack
decreasing_by
  have h1 : sizeSum (chainStep n.children base []).2.2 ≤ sizeSum n.children := by
    have := chainStep_pushed_le n.children base []
    simpa [sizeSum] using this
  have h2 : sizeSum n.children < csize n := sizeSum_children_lt n
  have h3 : sizeSum ((chainStep n.children base []).2.2 ++ rest) =
      sizeSum (chainStep n.children base []).2.2 + sizeSum rest := by
    simp [sizeSum]
  have h4 : sizeSum (n :: rest) = csize n + sizeSum rest := by
    simp [sizeSum]
  omega

/-- `_is_direct_param_ref(e)`. -/
def _is_direct_param_ref (expr : Cursor) : Option String :=
  let e := _strip_noop expr
  if e.kind = CK.DECL_REF_EXPR then
    match e.refd with
    | some ref => if ref.kind = CK.PARM_DECL then some (refVarKey ref) else none
    | none => none
  else if e.kind = CK.UNARY_OPERATOR then
    match e.children with
    | [kid] =>
      let inner := _strip_noop kid
      if inner.kind = CK.MEMBER_REF_EXPR then
        let r := chainScan [inner] none
        if r.1 = false ∧ r.2.isSome then r.2 else none
      else none
    | _ => none
  else none

/-- The per-call loop computing `arg_pass` in `compute_arg_ret_pass_multi`:
returns (`arg_all_direct`, `used_direct_params_union`). -/
def argPassLoop (param_keys : List String) (param_count : Nat) :
    List Cursor → List String → Bool × List String
  | [], union => (false, union)
  | call :: rest, union =>
    let args := extract_call_args call
    if param_count = 0 then argPassLoop param_keys param_count rest union
    else
      let step := args.foldl (fun (acc : List String × List String × Bool) a =>
        match _is_direct_param_ref a with
        | some pk =>
          if pk ∈ param_keys then (acc.1 ++ [pk], addIgnored acc.2.1 pk, acc.2.2)
          else (acc.1, acc.2.1, false)
        | none => (acc.1, acc.2.1, false)) ([], union, true)
      if step.2.2 ∧ step.1.dedup.length = step.1.length ∧
          step.1.dedup.length = param_count then
        (true, step.2.1)
      else argPassLoop param_keys param_count rest step.2.1

/-- `_return_directly_call(ret_node)`: scan the return statement's children;
a stripped binary/unary/ternary root disqualifies the whole return, a
stripped call at a matching call-site location certifies it. -/
def retChildScan (call_loc_keys : List (String × Nat × Nat)) :
    List Cursor → Bool
  | [] => false
  | ec :: rest =>
    let e := _strip_noop ec
    if e.kind = CK.BINARY_OPERATOR ∨ e.kind = CK.UNARY_OPERATOR ∨
        e.kind = CK.CONDITIONAL_OPERATOR then false
    else if e.kind = CK.CALL_EXPR then
      match _cursor_loc_key e with
      | some k => if k ∈ call_loc_keys then true else retChildScan call_loc_keys rest
      | none => retChildScan call_loc_keys rest
    else retChildScan call_loc_keys rest

def _return_directly_call (call_loc_keys : List (String × Nat × Nat))
    (ret_node : Cursor) : Bool :=
  retChildScan call_loc_keys ret_node.children

/-- The return-statement walk of `compute_arg_ret_pass_multi`: count the
`RETURN_STMT` nodes of the subtree satisfying `p`. -/
def countReturnsIn (p : Cursor → Bool) (n : Cursor) : Nat :=
  (if n.kind = CK.RETURN_STMT ∧ p n then 1 else 0) +
    (n.children.attach.map (fun x => countReturnsIn p x.1)).sum
termination_by sizeOf n
decreasing_by exact Cursor.sizeOf_lt_of_mem_children x.2

/-- Python's `str.strip()`: drop whitespace from both ends. -/
def pyStrip (s : String) : String :=
  String.mk (((s.toList.dropWhile Char.isWhitespace).reverse.dropWhile
    Char.isWhitespace).reverse)

/-- `compute_arg_ret_pass_multi(fn, matching_calls)`. -/
def compute_arg_ret_pass_multi (fn : Cursor) (matching_calls : List Cursor) :
    String × String :=
  if matching_calls.isEmpty then ("no", "no")
  else
    let params := _gather_params fn
    let param_keys := (params.map _var_key).dedup
    let param_count := param_keys.length
    let al := argPassLoop param_keys param_count matching_calls []
    let arg_pass :=
      if al.1 then "yes - all"
      else if al.2 ≠ [] then "yes - " ++ toString al.2.length
      else "no"
    let call_loc_keys := matching_calls.filterMap _cursor_loc_key
    let total_returns :=
      match _function_body_cursor fn with
      | none => 0
      | some body => countReturnsIn (fun _ => true) body
    let direct_returns :=
      match _function_body_cursor fn with
      | none => 0
      | some body => countReturnsIn (_return_directly_call call_loc_keys) body
    let ret_pass :=
      if pyStrip fn.resultType = "void" ∨ total_returns = 0 then "no"
      else if direct_returns = total_returns then "yes - all"
      else if 0 < direct_returns then "yes - " ++ toString direct_returns
      else "no"
    (arg_pass, ret_pass)

/-- The fields of a runner `Row` computed from the analyzer outputs
(locations, call-graph aggregation and output formatting are plumbing
outside the claims and are not modelled). -/
structure RowM where
  api_called : String
  total_target_calls : Nat
  hit_locs : List String
  per_path_single : Bool
  derived_from_params : Bool
  derivation_trace : List String
  reason : String
  pair_used : Bool
  via_helper_hop : Bool
  ignored_helpers : List String
  family : String
  is_thin_alias : Bool
deriving DecidableEq, Repr

/-- The legacy mode aliases of `run_finder`. -/
def legacyModeMap (m : String) : String :=
  if m = "perpath_relaxed" then "relaxed"
  else if m = "single" ∨ m = "perpath" ∨ m = "perpath_strict_plus" then "accurate"
  else m

/-- Python truthiness of the runner's `api_name : Optional[str]`. -/
def apiFalsy : Option String → Bool
  | none => true
  | some s => s = ""

/-- The keep filter (relaxed/accurate only) and `Row` construction at the
end of `run_finder`'s cursor loop; `none` means no row is emitted. -/
def runnerEmit (catalog : ApiCatalog) (mode_eff : String) (r : AnalyzerResult)
    (total_hits : Nat) (hit_locs : List String) (api_name : Option String) :
    Option RowM :=
  if (mode_eff = "relaxed" ∨ mode_eff = "accurate") ∧
      (r.keep = false ∨ total_hits = 0 ∨ apiFalsy api_name ∨
        api_name.getD "" ∉ catalog.target_names) then
    none
  else
    some
      { api_called :=
          if mode_eff = "all" ∧ apiFalsy api_name then "other" else api_name.getD ""
        total_target_calls := total_hits
        hit_locs := hit_locs
        per_path_single := r.per_path_single
        derived_from_params := r.derived_from_params
        derivation_trace := r.derivation_trace
        reason :=
          if mode_eff = "all" ∧ apiFalsy api_name then "N/A"
          else if r.reason ≠ "n/a" then r.reason
          else if r.keep then "ok" else "-"
        pair_used := r.pair_used
        via_helper_hop := r.via_helper_hop
        ignored_helpers := r.ignored_helpers
        family :=
          if ¬ apiFalsy api_name ∧ api_name.getD "" ∈ catalog.thin_aliases then
            "thin_alias"
          else "-"
        is_thin_alias :=
          decide (¬ apiFalsy api_name ∧ api_name.getD "" ∈ catalog.thin_aliases) }

/-- The analyzer dispatch of `run_finder`'s `"all"` mode: collect and
resolve target calls; with hits, take the strict-plus verdict but keep the
collected `total_hits`/`hit_locs` and patch a falsy `api_name`; without
hits, keep the function with `reason="N/A"`. -/
def runnerAllDispatch (tu : List Cursor) (catalog : ApiCatalog)
    (thin_policy : String) (cursor : Cursor) :
    AnalyzerResult × Nat × List String × Option String :=
  let resolved := (collect_target_calls tu cursor catalog.target_names).filterMap (fun p =>
    match _resolve_target_name_for_call tu p.1 catalog with
    | some nm => if nm ≠ "" then some (nm, p.2) else none
    | none => none)
  let apis := resolved.map Prod.fst
  let hit_locs := resolved.map Prod.snd
  let total_hits := apis.length
  if 0 < total_hits then
    let r := analyze_wrapper_strict_plus tu cursor catalog thin_policy
    let api_name := if apiFalsy r.api_name ∧ apis ≠ [] then apis.head? else r.api_name
    ({ r with api_name := api_name }, total_hits, hit_locs, api_name)
  else
    (({ keep := true, per_path_single := true, total_hits := 0, reason := "N/A",
        hit_locs := [], api_name := none, derived_from_params := false,
        derivation_trace := [], pair_used := false, via_helper_hop := false,
        ignored_helpers := [] } : AnalyzerResult), 0, [], none)

/-- The per-function-definition body of `run_finder`'s cursor loop
(mode dispatch, keep filter for relaxed/accurate, and the `Row`
construction). -/
def runnerRowForCursor (tu : List Cursor) (catalog : ApiCatalog)
    (mode thin_policy : String) (cursor : Cursor) : Option RowM :=
  if legacyModeMap mode = "relaxed" then
    runnerEmit catalog (legacyModeMap mode) (analyze_wrapper_relaxed tu cursor catalog)
      (analyze_wrapper_relaxed tu cursor catalog).total_hits
      (analyze_wrapper_relaxed tu cursor catalog).hit_locs
      (analyze_wrapper_relaxed tu cursor catalog).api_name
  else if legacyModeMap mode = "accurate" then
    runnerEmit catalog (legacyModeMap mode)
      (analyze_wrapper_strict_plus tu cursor catalog thin_policy)
      (analyze_wrapper_strict_plus tu cursor catalog thin_policy).total_hits
      (analyze_wrapper_strict_plus tu cursor catalog thin_policy).hit_locs
      (analyze_wrapper_strict_plus tu cursor catalog thin_policy).api_name
  else
    runnerEmit catalog (legacyModeMap mode)
      (runnerAllDispatch tu catalog thin_policy cursor).1
      (runnerAllDispatch tu catalog thin_policy cursor).2.1
      (runnerAllDispatch tu catalog thin_policy cursor).2.2.1
      (runnerAllDispatch tu catalog thin_policy cursor).2.2.2

/-! ### Concrete test inputs

Hand-built cursor trees mirroring the ASTs clang produces for the small C
sources of the specification's end-to-end scenarios.  A call expression's
first child is the callee reference, followed by the argument expressions,
as in libclang. -/

/-- The empty helper configuration (no benign or opaque helpers). -/
def hcEmpty : HelperConfig := ⟨[], [], [], []⟩

def mkN (k : CK) (cs : List Cursor) : Cursor := .node k "" 0 none "" none "" cs

def calleeRef (name : String) : Cursor :=
  .node CK.UNEXPOSED_EXPR name 0 none "" none "" []

def mkCall (name : String) (line col : Nat) (args : List Cursor) : Cursor :=
  .node CK.CALL_EXPR name 0 (some ⟨some "t.c", line, col⟩) "" none ""
    (calleeRef name :: args)

def declRef (nm : String) (h : Nat) : Cursor :=
  .node CK.DECL_REF_EXPR nm 0 none "" (some ⟨CK.PARM_DECL, nm, h⟩) "" []

def parm (nm : String) (h : Nat) : Cursor := .node CK.PARM_DECL nm h none "" none "" []

def intLit : Cursor := .node CK.INTEGER_LITERAL "" 0 none "" none "" []

def fnDef (nm rt : String) (cs : List Cursor) : Cursor :=
  .node CK.FUNCTION_DECL nm ((nm.toList.map Char.toNat).sum)
    (some ⟨some "t.c", 1, 1⟩) "" none rt cs

/-- A catalog with targets `close`/`open`, no helpers, `open` thin-aliased. -/
def catEx : ApiCatalog := ⟨["close", "open"], hcEmpty, ["open"]⟩

/-- Scenario 2 of the spec: `int w(int fd){ if(fd<0) return -1; return close(fd); }`. -/
def condEx : Cursor := mkN CK.BINARY_OPERATOR [declRef "fd" 7, intLit]
def retM1 : Cursor := mkN CK.RETURN_STMT [mkN CK.UNARY_OPERATOR [intLit]]
def callClose : Cursor := mkCall "close" 2 27 [declRef "fd" 7]
def retClose : Cursor := mkN CK.RETURN_STMT [callClose]
def ifEx : Cursor := mkN CK.IF_STMT [condEx, retM1]
def bodyW : Cursor := mkN CK.COMPOUND_STMT [ifEx, retClose]
def fnW : Cursor := fnDef "w" "int" [parm "fd" 7, bodyW]

/-- The brace variant `int w(int fd){ if(fd<0){ return -1; } return close(fd); }`. -/
def ifExBr : Cursor := mkN CK.IF_STMT [condEx, mkN CK.COMPOUND_STMT [retM1]]
def fnWBr : Cursor := fnDef "w" "int" [parm "fd" 7, mkN CK.COMPOUND_STMT [ifExBr, retClose]]

/-- Two-hop helper chain `f1 → f2 → tgt` and a while loop calling `f1`
twice, for the loop rule of the per-path counter. -/
def callTgt : Cursor := mkCall "tgt" 10 3 []
def f2Def : Cursor := fnDef "f2" "int" [mkN CK.COMPOUND_STMT [callTgt]]
def callF2 : Cursor := mkCall "f2" 20 3 []
def f1Def : Cursor := fnDef "f1" "int" [mkN CK.COMPOUND_STMT [callF2]]
def callF1a : Cursor := mkCall "f1" 30 3 []
def callF1b : Cursor := mkCall "f1" 31 3 []
def loopBody : Cursor := mkN CK.COMPOUND_STMT [callF1a, callF1b]
def loopEx : Cursor := mkN CK.WHILE_STMT [condEx, loopBody]
def tuHop : List Cursor := [f1Def, f2Def]

/-- A wrapper reaching the thin alias `open` only through the helper `h`:
`int h(){ return ... open(); }` shaped as a body statement, and
`int wthin(){ h(); }`. -/
def callOpen : Cursor := mkCall "open" 40 3 []
def hDef : Cursor := fnDef "h" "int" [mkN CK.COMPOUND_STMT [callOpen]]
def callH : Cursor := mkCall "h" 50 3 []
def bodyThin : Cursor := mkN CK.COMPOUND_STMT [callH]
def fnThin : Cursor := fnDef "wthin" "int" [bodyThin]
def tuThin : List Cursor := [hDef, fnThin]

/-- `int wr(){ close(); }` — a direct zero-argument target call as an
expression statement. -/
def callClose2 : Cursor := mkCall "close" 60 3 []
def bodyR : Cursor := mkN CK.COMPOUND_STMT [callClose2]
def fnR : Cursor := fnDef "wr" "int" [bodyR]

/-- `int w0(){ if(fd<0){ close(); } }` — one path with a target call and
one without, and no early guard. -/
def bodyC1 : Cursor :=
  mkN CK.COMPOUND_STMT [mkN CK.IF_STMT [condEx, mkN CK.COMPOUND_STMT [callClose2]]]
def fnC1 : Cursor := fnDef "w0" "int" [bodyC1]

/-- `int wo(){ open(); }` — a direct thin-alias call. -/
def callOpen2 : Cursor := mkCall "open" 70 3 []
def bodyO : Cursor := mkN CK.COMPOUND_STMT [callOpen2]
def fnO : Cursor := fnDef "wo" "int" [bodyO]

/-- The row emitted in mode `"all"` for `fnThin` (computed by
`runnerRowForCursor tuThin catEx "all" "default" fnThin`). -/
def rowThinAll : RowM :=
  ⟨"open", 1, ["50:3"], false, false, [], "reject: thin-alias-via-helper",
   false, true, [], "thin_alias", true⟩

/-- The row emitted in mode `"accurate"` for `fnO` (computed by
`runnerRowForCursor [] catEx "accurate" "default" fnO`). -/
def rowO : RowM :=
  ⟨"open", 1, ["70:3"], true, true, [], "ok", false, false, [], "thin_alias", true⟩

/-! ### Claim-side formulations (from the claims' wording, for comparison
with the source-derived definitions) -/

/-- The loop rule as worded by the specification: from a body result `B`,
the loop result is `{2}` with `unknown=true` when some count in `B` is
`≥ 2`, else `B ∪ {0, 1}` with `B`'s unknown flag. -/
def loopRuleSpec (B : PathResult) : PathResult :=
  if ∃ x ∈ B.counts, 2 ≤ x then ⟨{2}, true⟩ else ⟨B.counts ∪ {0, 1}, B.unknown⟩

/-- All `RETURN_STMT` nodes of a subtree (claim-side formulation of
"the number of returns"). -/
def returnNodes (n : Cursor) : List Cursor :=
  (if n.kind = CK.RETURN_STMT then [n] else []) ++
    (n.children.attach.map (fun x => returnNodes x.1)).flatten
termination_by sizeOf n
decreasing_by exact Cursor.sizeOf_lt_of_mem_children x.2

/-- Claim-side "direct return": the return's stripped expression is a call
located at a matching call site; a binary, unary, or ternary operator at
the root disqualifies. -/
def retDirectClaim (keys : List (String × Nat × Nat)) (r0 : Cursor) : Bool :=
  match r0.children with
  | [e] =>
    let s := _strip_noop e
    if s.kind = CK.BINARY_OPERATOR ∨ s.kind = CK.UNARY_OPERATOR ∨
        s.kind = CK.CONDITIONAL_OPERATOR then false
    else
      s.kind = CK.CALL_EXPR &&
        (match _cursor_loc_key s with
         | some k => decide (k ∈ keys)
         | none => false)
  | _ => false

/-- The `ret_pass` classification exactly as worded by the claim. -/
def retPassClaim (fn : Cursor) (matching_calls : List Cursor) : String :=
  let keys := matching_calls.filterMap _cursor_loc_key
  let rets :=
    match _function_body_cursor fn with
    | some body => returnNodes body
    | none => []
  if fn.resultType = "void" ∨
      (rets.filter (fun r0 => !r0.children.isEmpty)).length = 0 then "no"
  else
    let total := rets.length
    let direct := (rets.filter (retDirectClaim keys)).length
    if direct = total ∧ total ≠ 0 then "yes - all"
    else if 0 < direct ∧ direct < total then "yes - " ++ toString direct
    else "no"

theorem Cursor.strongRecOn {P : Cursor → Prop}
    (h : ∀ c, (∀ d, sizeOf d < sizeOf c → P d) → P c) : ∀ c, P c := by
  have key : ∀ n (c : Cursor), sizeOf c < n → P c := by
    intro n
    induction n with
    | zero => intro c hc; omega
    | succ n ih => intro c hc; exact h c (fun d hd => ih d (by omega))
  intro c
  exact key (sizeOf c + 1) c (by omega)

theorem cap_union_nonempty (s : Finset Nat) (v : Nat) : (cap_union s v).Nonempty := by
  unfold cap_union
  split
  · exact Finset.Nonempty.image (by simp) _
  · next h => exact Finset.Nonempty.image (Finset.nonempty_iff_ne_empty.mpr h) _

theorem cap_union_subset (s : Finset Nat) (v : Nat) :
    cap_union s v ⊆ ({0, 1, 2} : Finset Nat) := by
  unfold cap_union
  intro x hx
  simp only [Finset.mem_image] at hx
  obtain ⟨a, _, ha⟩ := hx
  simp only [Finset.mem_insert, Finset.mem_singleton]
  split at ha <;> omega

theorem foldl_preserve {α β : Type _} (P : β → Prop) (f : β → α → β) :
    ∀ (l : List α) (b : β), P b → (∀ b a, a ∈ l → P b → P (f b a)) → P (l.foldl f b) := by
  intro l
  induction l with
  | nil => intro b hb _; simpa using hb
  | cons x xs ih =>
    intro b hb hf
    simp only [List.foldl_cons]
    exact ih (f b x) (hf b x (List.mem_cons_self _ _) hb)
      (fun b a ha hb => hf b a (List.mem_cons_of_mem _ ha) hb)

theorem singleton_invariant (v : Nat) (hv : v ≤ 2) (u : Bool) :
    (PathResult.mk {v} u).counts.Nonempty ∧
      (PathResult.mk {v} u).counts ⊆ ({0, 1, 2} : Finset Nat) := by
  refine ⟨Finset.singleton_nonempty _, ?_⟩
  intro x hx
  simp only [Finset.mem_singleton] at hx
  subst hx
  simp only [Finset.mem_insert, Finset.mem_singleton]
  omega

theorem merge_invariant {a b : PathResult}
    (ha : a.counts.Nonempty ∧ a.counts ⊆ ({0, 1, 2} : Finset Nat))
    (hb : b.counts.Nonempty ∧ b.counts ⊆ ({0, 1, 2} : Finset Nat)) :
    (_merge_pr a b).counts.Nonempty ∧
      (_merge_pr a b).counts ⊆ ({0, 1, 2} : Finset Nat) :=
  ⟨Finset.Nonempty.inl ha.1, Finset.union_subset ha.2 hb.2⟩

theorem base0_invariant :
    (PathResult.mk {0} false).counts.Nonempty ∧
      (PathResult.mk {0} false).counts ⊆ ({0, 1, 2} : Finset Nat) :=
  singleton_invariant 0 (by omega) false

/-- C4 invariant core. -/
theorem analyze_stmt_invariant :
    ∀ (stmt : Cursor), ∀ (tu : List Cursor) (targets : List String)
      (helpers : HelperConfig) (mh : Nat),
    (analyze_stmt tu stmt targets helpers mh).counts.Nonempty ∧
      (analyze_stmt tu stmt targets helpers mh).counts ⊆ ({0, 1, 2} : Finset Nat) := by
  refine Cursor.strongRecOn ?_
  intro stmt IH tu targets helpers mh
  rw [analyze_stmt]
  split
  · -- RETURN
    exact singleton_invariant _ (by split <;> omega) _
  split
  · -- CALL
    split
    · exact base0_invariant
    · exact singleton_invariant _
        (by split
            · omega
            · split
              · omega
              · split <;> omega) _
  split
  · -- IF
    split
    · next cond thenB rest hc =>
      have IH1 := IH thenB (Cursor.sizeOf_lt_of_mem_children (by rw [hc]; simp))
        tu targets helpers mh
      split
      · next elseB tl hr =>
        have IH2 := IH elseB (Cursor.sizeOf_lt_of_mem_children (by rw [hc]; simp))
          tu targets helpers mh
        exact ⟨Finset.Nonempty.inl IH1.1, Finset.union_subset IH1.2 IH2.2⟩
      · exact ⟨Finset.Nonempty.inl IH1.1, Finset.union_subset IH1.2 base0_invariant.2⟩
    · exact base0_invariant
  split
  · -- SWITCH
    split
    · next hemp =>
      refine ⟨Finset.singleton_nonempty _, ?_⟩
      intro x hx
      simp only [Finset.mem_singleton] at hx
      simp [hx]
    · next hemp =>
      refine ⟨Finset.nonempty_iff_ne_empty.mpr hemp, ?_⟩
      refine foldl_preserve (fun (acc : PathResult) =>
        acc.counts ⊆ ({0, 1, 2} : Finset Nat)) _ _ _ (by simp) ?_
      intro acc x hx hacc
      split
      · refine Finset.union_subset hacc ?_
        split
        · next body tail hcc =>
          have hb2 : body ∈ x.1.children := by rw [hcc]; simp
          exact (IH body (lt_trans (Cursor.sizeOf_lt_of_mem_children hb2)
            (Cursor.sizeOf_lt_of_mem_children x.2)) tu targets helpers mh).2
        · exact base0_invariant.2
      · exact hacc
  split
  · -- CONDITIONAL_OPERATOR
    split
    · next cond thenB rest hc =>
      have IH1 := IH thenB (Cursor.sizeOf_lt_of_mem_children (by rw [hc]; simp))
        tu targets helpers mh
      split
      · next elseB tl hr =>
        have IH2 := IH elseB (Cursor.sizeOf_lt_of_mem_children (by rw [hc]; simp))
          tu targets helpers mh
        exact merge_invariant IH1 IH2
      · exact merge_invariant IH1 base0_invariant
    · exact merge_invariant base0_invariant base0_invariant
  split
  · -- LOOP
    split
    · exact singleton_invariant 2 (by omega) true
    · next body hb =>
      have IHb := IH body (Cursor.sizeOf_lt_of_mem_children (loopBodyCursor_mem hb))
        tu targets helpers 1
      split
      · exact singleton_invariant 2 (by omega) true
      · refine ⟨Finset.Nonempty.inl IHb.1, Finset.union_subset IHb.2 ?_⟩
        intro x hx
        simp only [Finset.mem_insert, Finset.mem_singleton] at hx ⊢
        omega
  split
  · -- COMPOUND
    refine foldl_preserve (fun (st : Finset Nat × Bool) =>
      st.1.Nonempty ∧ st.1 ⊆ ({0, 1, 2} : Finset Nat)) _ _ _
      ⟨Finset.singleton_nonempty _, by intro x hx; simp at hx; simp [hx]⟩ ?_
    intro st x hx hst
    have IHx := IH x.1 (Cursor.sizeOf_lt_of_mem_children x.2) tu targets helpers mh
    constructor
    · obtain ⟨v, hv⟩ := IHx.1
      exact Finset.Nonempty.mono
        (Finset.subset_biUnion_of_mem (fun v => cap_union st.1 v) hv)
        (cap_union_nonempty st.1 v)
    · exact Finset.biUnion_subset.mpr (fun v _ => cap_union_subset st.1 v)
  · -- default
    refine foldl_preserve (fun (acc : PathResult) =>
      acc.counts.Nonempty ∧ acc.counts ⊆ ({0, 1, 2} : Finset Nat)) _ _ _
      base0_invariant ?_
    intro acc x hx hacc
    exact merge_invariant hacc
      (IH x.1 (Cursor.sizeOf_lt_of_mem_children x.2) tu targets helpers mh)



theorem strictPlusRest_fields (tu : List Cursor) (fn : Cursor) (catalog : ApiCatalog)
    (g : Bool) (mp th : Nat) (st : WalkSt) :
    (strictPlusRest tu fn catalog g mp th st).via_helper_hop = st.via_helper_hop ∧
    (strictPlusRest tu fn catalog g mp th st).api_name = st.apis.head? := by
  unfold strictPlusRest
  split
  · exact ⟨rfl, rfl⟩
  · exact ⟨rfl, rfl⟩

theorem strictPlusThin_accept (tu : List Cursor) (fn : Cursor) (catalog : ApiCatalog)
    (pol : String) (g : Bool) (mp th : Nat) (st : WalkSt) (a : String)
    (hpol : pol = "default" ∨ pol = "direct-only")
    (hkeep : (strictPlusThin tu fn catalog pol g mp th st).keep = true)
    (hapi : (strictPlusThin tu fn catalog pol g mp th st).api_name = some a)
    (ha : a ≠ "") (hthin : a ∈ catalog.thin_aliases) :
    (strictPlusThin tu fn catalog pol g mp th st).via_helper_hop = false := by
  have hpol' : pol ≠ "" := by rcases hpol with h | h <;> simp [h]
  have hpoleq : (if pol = "" then "default" else pol) = pol := if_neg hpol'
  unfold strictPlusThin at hkeep hapi ⊢
  rcases hap : st.apis with _ | ⟨first_api, tl⟩
  · simp only [hap] at hkeep hapi ⊢
    rw [(strictPlusRest_fields tu fn catalog g mp th st).2, hap] at hapi
    simp at hapi
  · simp only [hap] at hkeep hapi ⊢
    by_cases hfirst : first_api ≠ "" ∧ first_api ∈ catalog.thin_aliases
    · rw [if_pos hfirst] at hkeep hapi ⊢
      rw [hpoleq] at hkeep hapi ⊢
      by_cases hvia : st.via_helper_hop = true
      · rw [if_pos ⟨hpol, hvia⟩] at hkeep
        simp at hkeep
      · rw [if_neg (fun hand => hvia hand.2)] at hkeep hapi ⊢
        split
        · exact Bool.not_eq_true _ |>.mp hvia
        · rw [(strictPlusRest_fields tu fn catalog g mp th st).1]
          exact Bool.not_eq_true _ |>.mp hvia
    · rw [if_neg hfirst] at hkeep hapi ⊢
      rw [(strictPlusRest_fields tu fn catalog g mp th st).2, hap] at hapi
      simp only [List.head?, Option.some_inj] at hapi
      subst hapi
      exact absurd ⟨ha, hthin⟩ hfirst



theorem strict_plus_accept_thin_not_via (tu : List Cursor) (fn : Cursor)
    (catalog : ApiCatalog) (pol : String) (a : String)
    (hpol : pol = "default" ∨ pol = "direct-only")
    (hkeep : (analyze_wrapper_strict_plus tu fn catalog pol).keep = true)
    (hapi : (analyze_wrapper_strict_plus tu fn catalog pol).api_name = some a)
    (ha : a ≠ "") (hthin : a ∈ catalog.thin_aliases) :
    (analyze_wrapper_strict_plus tu fn catalog pol).via_helper_hop = false := by
  unfold analyze_wrapper_strict_plus at hkeep hapi ⊢
  rcases hbody : _function_body_cursor fn with _ | body
  · simp only [hbody] at hkeep
    simp at hkeep
  · simp only [hbody] at hkeep hapi ⊢
    by_cases h1 : (analyze_stmt tu body catalog.target_names catalog.helpers 2).unknown = true
    · rw [if_pos h1] at hkeep
      simp at hkeep
    · rw [if_neg h1] at hkeep hapi ⊢
      by_cases h2 : 0 ∈ (analyze_stmt tu body catalog.target_names catalog.helpers 2).counts ∧
          (decide (0 ∈ (analyze_stmt tu body catalog.target_names catalog.helpers 2).counts) &&
            has_early_guard_return fn catalog.helpers) = false
      · rw [if_pos h2] at hkeep
        simp at hkeep
      · rw [if_neg h2] at hkeep hapi ⊢
        by_cases h3 : (walk_calls tu catalog.target_names catalog.helpers body
            ⟨false, false, [], [], []⟩).hitLocs.length = 0
        · rw [if_pos h3] at hkeep
          simp at hkeep
        · rw [if_neg h3] at hkeep hapi ⊢
          exact strictPlusThin_accept _ _ _ _ _ _ _ _ _ hpol hkeep hapi ha hthin



theorem relaxed_no_hop (tu : List Cursor) (fn : Cursor) (catalog : ApiCatalog) :
    (analyze_wrapper_relaxed tu fn catalog).via_helper_hop = false ∧
    (analyze_wrapper_relaxed tu fn catalog).pair_used = false := by
  unfold analyze_wrapper_relaxed
  split
  · exact ⟨rfl, rfl⟩
  · split
    · exact ⟨rfl, rfl⟩
    · split
      · exact ⟨rfl, rfl⟩
      · exact ⟨rfl, rfl⟩

theorem runnerEmit_some (catalog : ApiCatalog) (mode_eff : String)
    (r : AnalyzerResult) (th : Nat) (hl : List String) (an : Option String)
    (row : RowM)
    (hm : mode_eff = "relaxed" ∨ mode_eff = "accurate")
    (hrow : runnerEmit catalog mode_eff r th hl an = some row) :
    r.keep = true ∧ apiFalsy an = false ∧
    row.via_helper_hop = r.via_helper_hop ∧
    row.api_called = an.getD "" := by
  unfold runnerEmit at hrow
  split at hrow
  · simp at hrow
  · next hcond =>
    have hne : ¬ (r.keep = false ∨ th = 0 ∨ apiFalsy an = true ∨
        an.getD "" ∉ catalog.target_names) := by
      intro hbad
      exact hcond ⟨hm, by simpa using hbad⟩
    push_neg at hne
    obtain ⟨h1, _, h3, _⟩ := hne
    have hma : ¬ (mode_eff = "all" ∧ apiFalsy an = true) := by
      rintro ⟨hma, _⟩
      rcases hm with h | h <;> simp [h] at hma
    refine ⟨by simpa using h1, by simpa using h3, ?_, ?_⟩
    · rw [← Option.some_inj.mp hrow]
    · rw [← Option.some_inj.mp hrow]
      simp only [RowM.api_called]
      rw [if_neg hma]

theorem C6_amended_core (tu : List Cursor) (catalog : ApiCatalog)
    (mode thin_policy : String) (fn : Cursor) (row : RowM)
    (hpol : thin_policy = "default" ∨ thin_policy = "direct-only")
    (hm : legacyModeMap mode = "relaxed" ∨ legacyModeMap mode = "accurate")
    (hrow : runnerRowForCursor tu catalog mode thin_policy fn = some row)
    (hthin : row.api_called ∈ catalog.thin_aliases) :
    row.via_helper_hop = false := by
  unfold runnerRowForCursor at hrow
  rcases hm with hm | hm
  · rw [if_pos hm] at hrow
    obtain ⟨_, _, hvia, _⟩ := runnerEmit_some _ _ _ _ _ _ _ (Or.inl hm) hrow
    rw [hvia, (relaxed_no_hop tu fn catalog).1]
  · rw [if_neg (by rw [hm]; decide), if_pos hm] at hrow
    obtain ⟨hkeep, hfal, hvia, hapi⟩ := runnerEmit_some _ _ _ _ _ _ _ (Or.inr hm) hrow
    rw [hvia]
    rcases hoa : (analyze_wrapper_strict_plus tu fn catalog thin_policy).api_name with _ | a
    · rw [hoa] at hfal; simp [apiFalsy] at hfal
    · have ha : a ≠ "" := by
        rw [hoa] at hfal; simpa [apiFalsy] using hfal
      refine strict_plus_accept_thin_not_via tu fn catalog thin_policy a hpol hkeep hoa ha ?_
      rw [hapi, hoa] at hthin
      simpa using hthin



theorem C7_core (tu : List Cursor) (fn : Cursor) (catalog : ApiCatalog)
    (body : Cursor) (hb : _function_body_cursor fn = some body) :
    ((analyze_wrapper_relaxed tu fn catalog).keep = true ↔
      ((∃ c ∈ (analyze_stmt tu body catalog.target_names catalog.helpers 2).counts, 0 < c) ∧
        relaxedResolved tu fn catalog ≠ [])) ∧
    ((analyze_wrapper_relaxed tu fn catalog).keep = true →
      analyze_wrapper_relaxed tu fn catalog =
        ⟨true,
         decide ((analyze_stmt tu body catalog.target_names catalog.helpers 2).counts ⊆ {0, 1}),
         (relaxedResolved tu fn catalog).length, "ok",
         (relaxedResolved tu fn catalog).map Prod.snd,
         ((relaxedResolved tu fn catalog).map Prod.fst).head?, true, [], false, false, []⟩) := by
  unfold analyze_wrapper_relaxed
  simp only [hb]
  by_cases h1 : ∃ c ∈ (analyze_stmt tu body catalog.target_names catalog.helpers 2).counts, 0 < c
  · rw [if_neg (show ¬(decide (∃ c ∈ (analyze_stmt tu body catalog.target_names catalog.helpers 2).counts, 0 < c) = false) from by
      simp only [decide_eq_false_iff_not]
      exact not_not_intro h1)]
    by_cases h2 : relaxedResolved tu fn catalog = []
    · rw [if_pos (by simp [h2])]
      constructor
      · constructor
        · intro hk; simp at hk
        · rintro ⟨_, hne⟩; exact absurd h2 hne
      · intro hk; simp at hk
    · rw [if_neg (by simpa using h2)]
      constructor
      · simp [h1, h2]
      · intro _
        simp [List.length_map]
  · rw [if_pos (show decide (∃ c ∈ (analyze_stmt tu body catalog.target_names catalog.helpers 2).counts, 0 < c) = false from by
      simp only [decide_eq_false_iff_not]
      exact h1)]
    constructor
    · constructor
      · intro hk; simp at hk
      · rintro ⟨hpos, _⟩; exact absurd hpos h1
    · intro hk; simp at hk

theorem foldl_id_of_args_nil {β : Type _} (f : β → Cursor → β)
    (hf : ∀ b c, extract_call_args c = [] → f b c = b) :
    ∀ (l : List Cursor) (b : β), (∀ c ∈ l, extract_call_args c = []) → l.foldl f b = b := by
  intro l
  induction l with
  | nil => intro b _; rfl
  | cons x xs ih =>
    intro b h
    rw [List.foldl_cons, hf b x (h x (List.mem_cons_self _ _))]
    exact ih b (fun c hc => h c (List.mem_cons_of_mem _ hc))

theorem check_arguments_vacuous (fn : Cursor) (calls : List Cursor)
    (helpers : Option HelperConfig) (body : Cursor)
    (hb : _function_body_cursor fn = some body)
    (hargs : ∀ c ∈ calls, extract_call_args c = []) :
    check_arguments_provenance fn calls helpers = (true, []) := by
  unfold check_arguments_provenance
  simp only [hb]
  exact foldl_id_of_args_nil _ (by intro b c hc; rw [hc]; rfl) calls _ hargs



theorem strictPlusRest_derived (tu : List Cursor) (fn : Cursor) (catalog : ApiCatalog)
    (g : Bool) (mp th : Nat) (st : WalkSt)
    (hk : (strictPlusRest tu fn catalog g mp th st).keep = true) :
    (strictPlusRest tu fn catalog g mp th st).derived_from_params =
      (check_arguments_provenance fn
        ((collect_target_calls tu fn catalog.target_names).map Prod.fst)
        (some catalog.helpers)).1 := by
  unfold strictPlusRest at hk ⊢
  split at hk
  · simp at hk
  · next h => rw [if_neg h]

theorem strictPlusThin_derived (tu : List Cursor) (fn : Cursor) (catalog : ApiCatalog)
    (pol : String) (g : Bool) (mp th : Nat) (st : WalkSt)
    (hk : (strictPlusThin tu fn catalog pol g mp th st).keep = true) :
    (strictPlusThin tu fn catalog pol g mp th st).derived_from_params =
      (check_arguments_provenance fn
        ((collect_target_calls tu fn catalog.target_names).map Prod.fst)
        (some catalog.helpers)).1 := by
  unfold strictPlusThin at hk ⊢
  rcases hap : st.apis with _ | ⟨first_api, tl⟩
  · simp only [hap] at hk ⊢
    exact strictPlusRest_derived tu fn catalog g mp th st hk
  · simp only [hap] at hk ⊢
    by_cases hfirst : first_api ≠ "" ∧ first_api ∈ catalog.thin_aliases
    · rw [if_pos hfirst] at hk ⊢
      by_cases hv1 : ((if pol = "" then "default" else pol) = "default" ∨
          (if pol = "" then "default" else pol) = "direct-only") ∧ st.via_helper_hop = true
      · rw [if_pos hv1] at hk; simp at hk
      · rw [if_neg hv1] at hk ⊢
        by_cases hv2 : (if pol = "" then "default" else pol) = "allow-1-hop" ∧
            st.via_hop_depth_ge2 = true
        · rw [if_pos hv2] at hk; simp at hk
        · rw [if_neg hv2] at hk ⊢
          exact strictPlusRest_derived tu fn catalog g mp th st hk
    · rw [if_neg hfirst] at hk ⊢
      exact strictPlusRest_derived tu fn catalog g mp th st hk

theorem strict_plus_accept_derived (tu : List Cursor) (fn : Cursor)
    (catalog : ApiCatalog) (pol : String) (body : Cursor)
    (hb : _function_body_cursor fn = some body)
    (hk : (analyze_wrapper_strict_plus tu fn catalog pol).keep = true) :
    (analyze_wrapper_strict_plus tu fn catalog pol).derived_from_params =
      (check_arguments_provenance fn
        ((collect_target_calls tu fn catalog.target_names).map Prod.fst)
        (some catalog.helpers)).1 := by
  unfold analyze_wrapper_strict_plus at hk ⊢
  simp only [hb] at hk ⊢
  by_cases h1 : (analyze_stmt tu body catalog.target_names catalog.helpers 2).unknown = true
  · rw [if_pos h1] at hk; simp at hk
  · rw [if_neg h1] at hk ⊢
    by_cases h2 : 0 ∈ (analyze_stmt tu body catalog.target_names catalog.helpers 2).counts ∧
        (decide (0 ∈ (analyze_stmt tu body catalog.target_names catalog.helpers 2).counts) &&
          has_early_guard_return fn catalog.helpers) = false
    · rw [if_pos h2] at hk; simp at hk
    · rw [if_neg h2] at hk ⊢
      by_cases h3 : (walk_calls tu catalog.target_names catalog.helpers body
          ⟨false, false, [], [], []⟩).hitLocs.length = 0
      · rw [if_pos h3] at hk; simp at hk
      · rw [if_neg h3] at hk ⊢
        exact strictPlusThin_derived tu fn catalog pol _ _ _ _ hk



/-! ### Builder accessor lemmas (for concrete evaluation) -/

theorem mkN_kind (k : CK) (cs : List Cursor) : (mkN k cs).kind = k := rfl
theorem mkN_children (k : CK) (cs : List Cursor) : (mkN k cs).children = cs := rfl
theorem mkN_spelling (k : CK) (cs : List Cursor) : (mkN k cs).spelling = "" := rfl
theorem mkCall_kind (n : String) (l c : Nat) (a : List Cursor) :
    (mkCall n l c a).kind = CK.CALL_EXPR := rfl
theorem mkCall_children (n : String) (l c : Nat) (a : List Cursor) :
    (mkCall n l c a).children = calleeRef n :: a := rfl
theorem mkCall_spelling (n : String) (l c : Nat) (a : List Cursor) :
    (mkCall n l c a).spelling = n := rfl
theorem mkCall_loc (n : String) (l c : Nat) (a : List Cursor) :
    (mkCall n l c a).loc = some ⟨some "t.c", l, c⟩ := rfl
theorem calleeRef_kind (n : String) : (calleeRef n).kind = CK.UNEXPOSED_EXPR := rfl
theorem calleeRef_children (n : String) : (calleeRef n).children = [] := rfl
theorem declRef_kind (n : String) (h : Nat) : (declRef n h).kind = CK.DECL_REF_EXPR := rfl
theorem declRef_children (n : String) (h : Nat) : (declRef n h).children = [] := rfl
theorem intLit_kind : intLit.kind = CK.INTEGER_LITERAL := rfl
theorem intLit_children : intLit.children = [] := rfl
theorem parm_kind (n : String) (h : Nat) : (parm n h).kind = CK.PARM_DECL := rfl
theorem parm_children (n : String) (h : Nat) : (parm n h).children = [] := rfl
theorem fnDef_kind (n r : String) (cs : List Cursor) :
    (fnDef n r cs).kind = CK.FUNCTION_DECL := rfl
theorem fnDef_children (n r : String) (cs : List Cursor) :
    (fnDef n r cs).children = cs := rfl
theorem fnDef_spelling (n r : String) (cs : List Cursor) :
    (fnDef n r cs).spelling = n := rfl
theorem catEx_targets : catEx.target_names = ["close", "open"] := rfl
theorem catEx_helpers : catEx.helpers = hcEmpty := rfl
theorem catEx_thin : catEx.thin_aliases = ["open"] := rfl

/-! ### Concrete evaluations of the recursive analyses -/

theorem cc_nochild (tu : List Cursor) (n : Cursor) (t : List String)
    (hc : HelperConfig) (mh : Nat) (h : n.children = []) :
    count_calls_in_expr tu n t hc mh = 0 := by
  rw [count_calls_in_expr]
  simp [h, List.attach, List.attachWith, List.pmap]

theorem cc_callClose :
    count_calls_in_expr [] callClose ["close", "open"] hcEmpty 2 = 0 := by
  rw [count_calls_in_expr]
  simp [callClose, mkCall_children, List.attach, List.attachWith, List.pmap,
    calleeRef_kind, declRef_kind,
    cc_nochild [] (calleeRef "close") _ _ _ (calleeRef_children _),
    cc_nochild [] (declRef "fd" 7) _ _ _ (declRef_children _ _)]

theorem ev_callClose2 :
    analyze_stmt [] callClose2 ["close", "open"] hcEmpty 2 = ⟨{1}, false⟩ := by
  rw [analyze_stmt]
  simp [callClose2, mkCall_kind, mkCall_spelling, is_helper_call, HelperConfig.any_match,
    _callee_name, hcEmpty, resolve_syscall_indirection]

theorem ev_thenC1 :
    analyze_stmt [] (mkN CK.COMPOUND_STMT [callClose2]) ["close", "open"] hcEmpty 2
      = ⟨{1}, false⟩ := by
  rw [analyze_stmt]
  simp [mkN_kind, mkN_children, List.attach, List.attachWith, List.pmap, ev_callClose2,
    cap_union]

theorem ev_ifC1 :
    analyze_stmt [] (mkN CK.IF_STMT [condEx, mkN CK.COMPOUND_STMT [callClose2]])
      ["close", "open"] hcEmpty 2 = ⟨{0, 1}, false⟩ := by
  rw [analyze_stmt]
  simp [mkN_kind, mkN_children, ev_thenC1, _merge_pr]
  decide

theorem ev_bodyC1 :
    analyze_stmt [] bodyC1 ["close", "open"] hcEmpty 2 = ⟨{0, 1}, false⟩ := by
  rw [analyze_stmt]
  simp [bodyC1, mkN_kind, mkN_children, List.attach, List.attachWith, List.pmap, ev_ifC1,
    cap_union]
  decide

theorem guard_fnC1 : has_early_guard_return fnC1 hcEmpty = false := by decide

theorem cc_unM1 :
    count_calls_in_expr [] (mkN CK.UNARY_OPERATOR [intLit]) ["close", "open"] hcEmpty 2
      = 0 := by
  rw [count_calls_in_expr]
  simp [mkN_kind, mkN_children, List.attach, List.attachWith, List.pmap, intLit_kind,
    cc_nochild [] intLit _ _ _ intLit_children]

theorem ev_retM1 :
    analyze_stmt [] retM1 ["close", "open"] hcEmpty 2 = ⟨{0}, false⟩ := by
  rw [analyze_stmt]
  simp [retM1, mkN_kind, mkN_children, cc_unM1]

theorem ev_retClose :
    analyze_stmt [] retClose ["close", "open"] hcEmpty 2 = ⟨{0}, false⟩ := by
  rw [analyze_stmt]
  simp [retClose, mkN_kind, mkN_children, cc_callClose]

theorem ev_ifEx :
    analyze_stmt [] ifEx ["close", "open"] hcEmpty 2 = ⟨{0}, false⟩ := by
  rw [analyze_stmt]
  simp [ifEx, mkN_kind, mkN_children, ev_retM1, _merge_pr]

theorem ev_bodyW :
    analyze_stmt [] bodyW ["close", "open"] hcEmpty 2 = ⟨{0}, false⟩ := by
  rw [analyze_stmt]
  simp [bodyW, mkN_kind, mkN_children, List.attach, List.attachWith, List.pmap,
    ev_ifEx, ev_retClose, cap_union]

theorem guard_fnW : has_early_guard_return fnW hcEmpty = false := by decide

theorem guard_fnWBr : has_early_guard_return fnWBr hcEmpty = true := by decide

theorem nh_step0 :
    nHopsChildren tuHop ["tgt"] 0 [callTgt] [152, 151] = (true, [152, 151]) := by
  rw [nHopsChildren]
  simp [show callTgt.kind = CK.CALL_EXPR from rfl,
    show _callee_name callTgt = "tgt" from rfl]

theorem nh_callF2 :
    nHopsSeen tuHop ["tgt"] 1 callF2 [151] = (true, [152, 151]) := by
  rw [nHopsSeen]
  simp [show _callee_definition tuHop callF2 = some f2Def from rfl,
    show _is_small_function f2Def = true from by decide,
    show f2Def.hash = 152 from by decide,
    show _function_body_cursor f2Def = some (mkN CK.COMPOUND_STMT [callTgt]) from rfl,
    mkN_children, nh_step0]

theorem nh_step1 :
    nHopsChildren tuHop ["tgt"] 1 [callF2] [151] = (true, [152, 151]) := by
  rw [nHopsChildren]
  simp [show callF2.kind = CK.CALL_EXPR from rfl,
    show _callee_name callF2 = "f2" from rfl, nh_callF2]

theorem nh_callF1a : _call_hits_target_via_n_hops tuHop callF1a ["tgt"] 2 = true := by
  rw [_call_hits_target_via_n_hops, nHopsSeen]
  simp [show _callee_definition tuHop callF1a = some f1Def from rfl,
    show _is_small_function f1Def = true from by decide,
    show f1Def.hash = 151 from by decide,
    show _function_body_cursor f1Def = some (mkN CK.COMPOUND_STMT [callF2]) from rfl,
    mkN_children, nh_step1]

theorem nh_callF1b : _call_hits_target_via_n_hops tuHop callF1b ["tgt"] 2 = true := by
  rw [_call_hits_target_via_n_hops, nHopsSeen]
  simp [show _callee_definition tuHop callF1b = some f1Def from rfl,
    show _is_small_function f1Def = true from by decide,
    show f1Def.hash = 151 from by decide,
    show _function_body_cursor f1Def = some (mkN CK.COMPOUND_STMT [callF2]) from rfl,
    mkN_children, nh_step1]

theorem oneHop_callF1a : _call_hits_target_via_one_hop tuHop callF1a ["tgt"] = false := by
  decide

theorem ev_callF1a_1 : analyze_stmt tuHop callF1a ["tgt"] hcEmpty 1 = ⟨{0}, false⟩ := by
  rw [analyze_stmt]
  simp [show callF1a.kind = CK.CALL_EXPR from rfl,
    show _callee_name callF1a = "f1" from rfl,
    show is_helper_call callF1a hcEmpty "benign" = false from by decide,
    show resolve_syscall_indirection callF1a = none from rfl,
    oneHop_callF1a]

theorem oneHop_callF1b : _call_hits_target_via_one_hop tuHop callF1b ["tgt"] = false := by
  decide

theorem ev_callF1b_1 : analyze_stmt tuHop callF1b ["tgt"] hcEmpty 1 = ⟨{0}, false⟩ := by
  rw [analyze_stmt]
  simp [show callF1b.kind = CK.CALL_EXPR from rfl,
    show _callee_name callF1b = "f1" from rfl,
    show is_helper_call callF1b hcEmpty "benign" = false from by decide,
    show resolve_syscall_indirection callF1b = none from rfl,
    oneHop_callF1b]

theorem ev_loopBody1 : analyze_stmt tuHop loopBody ["tgt"] hcEmpty 1 = ⟨{0}, false⟩ := by
  rw [analyze_stmt]
  simp [loopBody, mkN_kind, mkN_children, List.attach, List.attachWith, List.pmap,
    ev_callF1a_1, ev_callF1b_1, cap_union]

theorem ev_loopEx : analyze_stmt tuHop loopEx ["tgt"] hcEmpty 2 = ⟨{0, 1}, false⟩ := by
  rw [analyze_stmt]
  simp [loopEx, mkN_kind, mkN_children, loopBodyCursor,
    show condEx.kind = CK.BINARY_OPERATOR from rfl,
    show loopBody.kind = CK.COMPOUND_STMT from rfl, ev_loopBody1]
  decide

theorem ev_callF1a_2 : analyze_stmt tuHop callF1a ["tgt"] hcEmpty 2 = ⟨{1}, false⟩ := by
  rw [analyze_stmt]
  simp [show callF1a.kind = CK.CALL_EXPR from rfl,
    show _callee_name callF1a = "f1" from rfl,
    show is_helper_call callF1a hcEmpty "benign" = false from by decide,
    show resolve_syscall_indirection callF1a = none from rfl, nh_callF1a]

theorem ev_callF1b_2 : analyze_stmt tuHop callF1b ["tgt"] hcEmpty 2 = ⟨{1}, false⟩ := by
  rw [analyze_stmt]
  simp [show callF1b.kind = CK.CALL_EXPR from rfl,
    show _callee_name callF1b = "f1" from rfl,
    show is_helper_call callF1b hcEmpty "benign" = false from by decide,
    show resolve_syscall_indirection callF1b = none from rfl, nh_callF1b]

theorem ev_loopBody2 : analyze_stmt tuHop loopBody ["tgt"] hcEmpty 2 = ⟨{2}, false⟩ := by
  rw [analyze_stmt]
  simp [loopBody, mkN_kind, mkN_children, List.attach, List.attachWith, List.pmap,
    ev_callF1a_2, ev_callF1b_2, cap_union]


/-! ### walk_calls / collect_target_calls evaluations -/

theorem walk_calls_leaf (tu : List Cursor) (t : List String) (hc : HelperConfig)
    (n : Cursor) (st : WalkSt) (h : n.children = []) :
    walk_calls tu t hc n st = st := by
  rw [walk_calls]
  simp [h, List.attach, List.attachWith, List.pmap]

theorem wclassify_noncall (tu : List Cursor) (t : List String) (hc : HelperConfig)
    (st : WalkSt) (ch : Cursor) (h : ¬ ch.kind = CK.CALL_EXPR) :
    walkClassify tu t hc st ch = st := by
  unfold walkClassify
  rw [if_neg h]

theorem wcl_callH :
    walkClassify tuThin ["close", "open"] hcEmpty ⟨false, false, [], [], []⟩ callH =
      ⟨true, false, [], ["50:3"], ["open"]⟩ := by decide

theorem wc_callH (st : WalkSt) :
    walk_calls tuThin ["close", "open"] hcEmpty callH st = st := by
  rw [walk_calls]
  simp [show callH.children = [calleeRef "h"] from rfl, List.attach, List.attachWith,
    List.pmap,
    show ∀ s, walkClassify tuThin ["close", "open"] hcEmpty s (calleeRef "h") = s from
      fun s => wclassify_noncall _ _ _ s _ (by decide),
    show ∀ s, walk_calls tuThin ["close", "open"] hcEmpty (calleeRef "h") s = s from
      fun s => walk_calls_leaf _ _ _ _ s (calleeRef_children "h")]

theorem wc_bodyThin :
    walk_calls tuThin ["close", "open"] hcEmpty bodyThin ⟨false, false, [], [], []⟩ =
      ⟨true, false, [], ["50:3"], ["open"]⟩ := by
  rw [walk_calls]
  simp [show bodyThin.children = [callH] from rfl, List.attach, List.attachWith,
    List.pmap, wcl_callH, wc_callH]

theorem ev_callH :
    analyze_stmt tuThin callH ["close", "open"] hcEmpty 2 = ⟨{1}, false⟩ := by
  rw [analyze_stmt]
  simp [show callH.kind = CK.CALL_EXPR from rfl,
    show _callee_name callH = "h" from rfl,
    show is_helper_call callH hcEmpty "benign" = false from by decide,
    show resolve_syscall_indirection callH = none from rfl,
    show _call_hits_target_via_one_hop tuThin callH ["close", "open"] = true from by decide]

theorem ev_bodyThin :
    analyze_stmt tuThin bodyThin ["close", "open"] hcEmpty 2 = ⟨{1}, false⟩ := by
  rw [analyze_stmt]
  simp [bodyThin, mkN_kind, mkN_children, List.attach, List.attachWith, List.pmap,
    ev_callH, cap_union]

theorem col_calleeRef (tu : List Cursor) (t : List String) (n : String) :
    collect_target_calls tu (calleeRef n) t = [] := by
  rw [collect_target_calls]
  simp [calleeRef_kind, calleeRef_children, List.attach, List.attachWith, List.pmap]

theorem col_callH :
    collect_target_calls tuThin callH ["close", "open"] = [(callH, "50:3")] := by
  rw [collect_target_calls]
  simp [show callH.kind = CK.CALL_EXPR from rfl,
    show collectHit tuThin ["close", "open"] callH = true from by decide,
    show hitLocString callH = "50:3" from by decide,
    show callH.children = [calleeRef "h"] from rfl,
    List.attach, List.attachWith, List.pmap, col_calleeRef]

theorem col_bodyThin :
    collect_target_calls tuThin bodyThin ["close", "open"] = [(callH, "50:3")] := by
  rw [collect_target_calls]
  simp [bodyThin, mkN_kind, mkN_children, List.attach, List.attachWith, List.pmap,
    col_callH]

theorem col_fnThin :
    collect_target_calls tuThin fnThin ["close", "open"] = [(callH, "50:3")] := by
  rw [collect_target_calls]
  simp [fnThin, fnDef_kind, fnDef_children, List.attach, List.attachWith, List.pmap,
    col_bodyThin]

theorem sortStrings_nil : sortStrings [] = [] := by
  simp [sortStrings]

theorem sp_fnThin :
    analyze_wrapper_strict_plus tuThin fnThin catEx "default" =
      ⟨false, false, 1, "reject: thin-alias-via-helper", ["50:3"], some "open",
       false, [], false, true, []⟩ := by
  unfold analyze_wrapper_strict_plus
  simp only [show _function_body_cursor fnThin = some bodyThin from rfl,
    catEx_targets, catEx_helpers, ev_bodyThin, wc_bodyThin]
  norm_num
  unfold strictPlusThin
  simp only [sortStrings_nil]
  decide

theorem ev_callOpen2 :
    analyze_stmt [] callOpen2 ["close", "open"] hcEmpty 2 = ⟨{1}, false⟩ := by
  rw [analyze_stmt]
  simp [show callOpen2.kind = CK.CALL_EXPR from rfl,
    show _callee_name callOpen2 = "open" from rfl,
    show is_helper_call callOpen2 hcEmpty "benign" = false from by decide]

theorem ev_bodyO :
    analyze_stmt [] bodyO ["close", "open"] hcEmpty 2 = ⟨{1}, false⟩ := by
  rw [analyze_stmt]
  simp [bodyO, mkN_kind, mkN_children, List.attach, List.attachWith, List.pmap,
    ev_callOpen2, cap_union]

theorem wcl_callOpen2 :
    walkClassify [] ["close", "open"] hcEmpty ⟨false, false, [], [], []⟩ callOpen2 =
      ⟨false, false, [], ["70:3"], ["open"]⟩ := by decide

theorem wc_callOpen2 (st : WalkSt) :
    walk_calls [] ["close", "open"] hcEmpty callOpen2 st = st := by
  rw [walk_calls]
  simp [show callOpen2.children = [calleeRef "open"] from rfl, List.attach,
    List.attachWith, List.pmap,
    show ∀ s, walkClassify [] ["close", "open"] hcEmpty s (calleeRef "open") = s from
      fun s => wclassify_noncall _ _ _ s _ (by decide),
    show ∀ s, walk_calls [] ["close", "open"] hcEmpty (calleeRef "open") s = s from
      fun s => walk_calls_leaf _ _ _ _ s (calleeRef_children "open")]

theorem wc_bodyO :
    walk_calls [] ["close", "open"] hcEmpty bodyO ⟨false, false, [], [], []⟩ =
      ⟨false, false, [], ["70:3"], ["open"]⟩ := by
  rw [walk_calls]
  simp [bodyO, mkN_kind, mkN_children, List.attach, List.attachWith, List.pmap,
    wcl_callOpen2, wc_callOpen2]

theorem col_callOpen2 :
    collect_target_calls [] callOpen2 ["close", "open"] = [(callOpen2, "70:3")] := by
  rw [collect_target_calls]
  simp [show callOpen2.kind = CK.CALL_EXPR from rfl,
    show collectHit [] ["close", "open"] callOpen2 = true from by decide,
    show hitLocString callOpen2 = "70:3" from by decide,
    show callOpen2.children = [calleeRef "open"] from rfl,
    List.attach, List.attachWith, List.pmap, col_calleeRef]

theorem col_bodyO :
    collect_target_calls [] bodyO ["close", "open"] = [(callOpen2, "70:3")] := by
  rw [collect_target_calls]
  simp [bodyO, mkN_kind, mkN_children, List.attach, List.attachWith, List.pmap,
    col_callOpen2]

theorem col_fnO :
    collect_target_calls [] fnO ["close", "open"] = [(callOpen2, "70:3")] := by
  rw [collect_target_calls]
  simp [fnO, fnDef_kind, fnDef_children, List.attach, List.attachWith, List.pmap,
    col_bodyO]

theorem prov_fnO :
    check_arguments_provenance fnO [callOpen2] (some hcEmpty) = (true, []) :=
  check_arguments_vacuous fnO [callOpen2] (some hcEmpty) bodyO rfl
    (by intro c hc; rw [List.mem_singleton] at hc; subst hc; rfl)

theorem sp_fnO :
    analyze_wrapper_strict_plus [] fnO catEx "default" =
      ⟨true, true, 1, "ok", ["70:3"], some "open", true, [], false, false, []⟩ := by
  unfold analyze_wrapper_strict_plus
  simp only [show _function_body_cursor fnO = some bodyO from rfl,
    catEx_targets, catEx_helpers, ev_bodyO, wc_bodyO]
  norm_num
  unfold strictPlusThin strictPlusRest
  simp only [catEx_targets, catEx_helpers, col_fnO, List.map, prov_fnO, sortStrings_nil]
  decide


theorem rr_O :
    runnerRowForCursor [] catEx "accurate" "default" fnO = some rowO := by
  unfold runnerRowForCursor
  rw [if_neg (by decide), if_pos (by decide)]
  simp only [sp_fnO]
  decide

theorem rad_thin :
    runnerAllDispatch tuThin catEx "default" fnThin =
      (⟨false, false, 1, "reject: thin-alias-via-helper", ["50:3"], some "open",
        false, [], false, true, []⟩, 1, ["50:3"], some "open") := by
  unfold runnerAllDispatch
  rw [catEx_targets, col_fnThin]
  simp [sp_fnThin,
    show _resolve_target_name_for_call tuThin callH catEx = some "open" from by decide]

theorem rr_thin :
    runnerRowForCursor tuThin catEx "all" "default" fnThin = some rowThinAll := by
  unfold runnerRowForCursor
  rw [if_neg (by decide), if_neg (by decide)]
  simp only [rad_thin]
  decide


/-! ### Claim theorems -/

/-- **C1.** The strict-plus analyzer's early rejections: a function with no
body is rejected with reason `"no-body"`; a body whose per-path analysis at
`max_hops = 2` is unknown is rejected with `"unknown-control-flow"`;
otherwise, when `0` is among the per-path counts and the early-guard
predicate does not hold, it is rejected with
`"path-counts=<sorted counts>"`; each rejection returns `keep = false` and
`total_hits = 0`. -/
theorem C1_strict_plus_rejections (tu : List Cursor) (catalog : ApiCatalog)
    (pol : String) (fn : Cursor) :
    (_function_body_cursor fn = none →
      analyze_wrapper_strict_plus tu fn catalog pol =
        ⟨false, false, 0, "no-body", [], none, false, [], false, false, []⟩) ∧
    (∀ body, _function_body_cursor fn = some body →
      (analyze_stmt tu body catalog.target_names catalog.helpers 2).unknown = true →
      analyze_wrapper_strict_plus tu fn catalog pol =
        ⟨false, false, 0, "unknown-control-flow", [], none, false, [], false, false, []⟩) ∧
    (∀ body, _function_body_cursor fn = some body →
      (analyze_stmt tu body catalog.target_names catalog.helpers 2).unknown = false →
      0 ∈ (analyze_stmt tu body catalog.target_names catalog.helpers 2).counts →
      has_early_guard_return fn catalog.helpers = false →
      analyze_wrapper_strict_plus tu fn catalog pol =
        ⟨false, false, 0,
         "path-counts=" ++ pyListRepr
           (((analyze_stmt tu body catalog.target_names catalog.helpers 2).counts).sort (· ≤ ·)),
         [], none, false, [], false, false, []⟩) := by
  refine ⟨?_, ?_, ?_⟩
  · intro h
    unfold analyze_wrapper_strict_plus
    simp only [h]
  · intro body hb hu
    unfold analyze_wrapper_strict_plus
    simp only [hb]
    rw [if_pos hu]
  · intro body hb hu h0 hg
    unfold analyze_wrapper_strict_plus
    simp only [hb]
    rw [if_neg (by simp [hu]), if_pos ⟨h0, by simp [hg]⟩]

/-- Witness for C1: the rejection branch at the concrete one-sided wrapper
`fnC1`, whose per-path counts are `{0, 1}` with no early guard. -/
theorem C1_strict_plus_rejections_witness :
    analyze_wrapper_strict_plus [] fnC1 catEx "default" =
      ⟨false, false, 0,
       "path-counts=" ++ pyListRepr
         (((analyze_stmt [] bodyC1 catEx.target_names catEx.helpers 2).counts).sort (· ≤ ·)),
       [], none, false, [], false, false, []⟩ :=
  (C1_strict_plus_rejections [] catEx "default" fnC1).2.2 bodyC1 rfl
    (by rw [catEx_targets, catEx_helpers, ev_bodyC1])
    (by rw [catEx_targets, catEx_helpers, ev_bodyC1]; decide)
    (by rw [catEx_helpers]; exact guard_fnC1)

/-- **C2 (amended).** For every for/while/do statement, `analyze_stmt`
analyzes the selected loop body with helper-hop bound `1` (the function's
default), not with the enclosing call's bound, and applies the stated
saturation rule to that result; when the loop has no compound child (a
braceless loop body) the result is `{2}` with `unknown = true`. -/
theorem C2_loop_rule (tu : List Cursor) (targets : List String)
    (helpers : HelperConfig) (mh : Nat) (stmt : Cursor)
    (hk : stmt.kind = CK.FOR_STMT ∨ stmt.kind = CK.WHILE_STMT ∨
      stmt.kind = CK.DO_STMT) :
    analyze_stmt tu stmt targets helpers mh =
      match loopBodyCursor stmt.children with
      | none => ⟨{2}, true⟩
      | some body => loopRuleSpec (analyze_stmt tu body targets helpers 1) := by
  have h1 : ¬ stmt.kind = CK.RETURN_STMT := by rcases hk with h | h | h <;> simp [h]
  have h2 : ¬ stmt.kind = CK.CALL_EXPR := by rcases hk with h | h | h <;> simp [h]
  have h3 : ¬ stmt.kind = CK.IF_STMT := by rcases hk with h | h | h <;> simp [h]
  have h4 : ¬ stmt.kind = CK.SWITCH_STMT := by rcases hk with h | h | h <;> simp [h]
  have h5 : ¬ stmt.kind = CK.CONDITIONAL_OPERATOR := by
    rcases hk with h | h | h <;> simp [h]
  rw [analyze_stmt, if_neg h1, if_neg h2, if_neg h3, if_neg h4, if_neg h5, if_pos hk]
  rcases hbc : loopBodyCursor stmt.children with _ | body
  · simp only [hbc]
  · simp only [hbc, loopRuleSpec]

/-- Counterexample to C2 as stated: in a while loop whose body reaches the
target through two helper hops, the enclosing analysis at `max_hops = 2`
yields `{0, 1}` (the body is re-analyzed with the default bound 1), while
the claim's rule applied to the body result at the enclosing bound predicts
`{2}` with `unknown = true`. -/
theorem C2_loop_rule_counterexample :
    loopEx.kind = CK.WHILE_STMT ∧
    loopBodyCursor loopEx.children = some loopBody ∧
    analyze_stmt tuHop loopEx ["tgt"] hcEmpty 2 = ⟨{0, 1}, false⟩ ∧
    loopRuleSpec (analyze_stmt tuHop loopBody ["tgt"] hcEmpty 2) = ⟨{2}, true⟩ ∧
    analyze_stmt tuHop loopEx ["tgt"] hcEmpty 2 ≠
      loopRuleSpec (analyze_stmt tuHop loopBody ["tgt"] hcEmpty 2) := by
  refine ⟨rfl, rfl, ev_loopEx, ?_, ?_⟩
  · rw [ev_loopBody2]; decide
  · rw [ev_loopEx, ev_loopBody2]; decide

/-- Witness for the amended C2 at the concrete while loop `loopEx`. -/
theorem C2_loop_rule_witness :
    analyze_stmt tuHop loopEx ["tgt"] hcEmpty 2 =
      match loopBodyCursor loopEx.children with
      | none => ⟨{2}, true⟩
      | some body => loopRuleSpec (analyze_stmt tuHop body ["tgt"] hcEmpty 1) :=
  C2_loop_rule tuHop ["tgt"] hcEmpty 2 loopEx (Or.inr (Or.inl rfl))

/-- **C3.** The per-path contribution of a call expression follows the
stated priority: benign helpers contribute 0 (also when the name is a
target); else a target name contributes 1; else a recognized
`syscall(SYS_*/__NR_*)` indirection onto a target contributes 1; else a
call reaching a target within the helper-hop bound contributes 1;
otherwise the call contributes 0. -/
theorem C3_call_priority (tu : List Cursor) (targets : List String)
    (helpers : HelperConfig) (mh : Nat) (c : Cursor)
    (hk : c.kind = CK.CALL_EXPR) :
    (is_helper_call c helpers "benign" = true →
      analyze_stmt tu c targets helpers mh = ⟨{0}, false⟩) ∧
    (is_helper_call c helpers "benign" = false → _callee_name c ∈ targets →
      analyze_stmt tu c targets helpers mh = ⟨{1}, false⟩) ∧
    (is_helper_call c helpers "benign" = false → _callee_name c ∉ targets →
      (match resolve_syscall_indirection c with
       | some m => decide (m ≠ "" ∧ m ∈ targets)
       | none => false) = true →
      analyze_stmt tu c targets helpers mh = ⟨{1}, false⟩) ∧
    (is_helper_call c helpers "benign" = false → _callee_name c ∉ targets →
      (match resolve_syscall_indirection c with
       | some m => decide (m ≠ "" ∧ m ∈ targets)
       | none => false) = false →
      (_call_hits_target_via_one_hop tu c targets
        || (decide (1 < mh) && _call_hits_target_via_n_hops tu c targets mh)) = true →
      analyze_stmt tu c targets helpers mh = ⟨{1}, false⟩) ∧
    (is_helper_call c helpers "benign" = false → _callee_name c ∉ targets →
      (match resolve_syscall_indirection c with
       | some m => decide (m ≠ "" ∧ m ∈ targets)
       | none => false) = false →
      (_call_hits_target_via_one_hop tu c targets
        || (decide (1 < mh) && _call_hits_target_via_n_hops tu c targets mh)) = false →
      analyze_stmt tu c targets helpers mh = ⟨{0}, false⟩) := by
  have h1 : ¬ c.kind = CK.RETURN_STMT := by simp [hk]
  refine ⟨?_, ?_, ?_, ?_, ?_⟩
  · intro hben
    rw [analyze_stmt, if_neg h1, if_pos hk, if_pos hben]
  · intro hben htgt
    rw [analyze_stmt, if_neg h1, if_pos hk, if_neg (by simp [hben])]
    simp only [if_pos htgt]
  · intro hben htgt hsys
    rw [analyze_stmt, if_neg h1, if_pos hk, if_neg (by simp [hben])]
    simp only [if_neg htgt, hsys, if_true]
  · intro hben htgt hsys hhop
    rw [analyze_stmt, if_neg h1, if_pos hk, if_neg (by simp [hben])]
    simp only [if_neg htgt, hsys, hhop, if_true, Bool.false_eq_true, if_false]
  · intro hben htgt hsys hhop
    rw [analyze_stmt, if_neg h1, if_pos hk, if_neg (by simp [hben])]
    simp only [if_neg htgt, hsys, hhop, Bool.false_eq_true, if_false]

/-- Witness for C3: the direct target call `close()` contributes exactly 1. -/
theorem C3_call_priority_witness :
    analyze_stmt [] callClose2 catEx.target_names catEx.helpers 2 = ⟨{1}, false⟩ :=
  (C3_call_priority [] catEx.target_names catEx.helpers 2 callClose2 rfl).2.1
    (by decide) (by decide)

/-- **C4.** Every `PathResult` produced by `analyze_stmt` has a non-empty
counts set contained in `{0, 1, 2}`, hence every count is at most 2 —
also in the `unknown = true` case. -/
theorem C4_counts_saturation (tu : List Cursor) (stmt : Cursor)
    (targets : List String) (helpers : HelperConfig) (mh : Nat) :
    (analyze_stmt tu stmt targets helpers mh).counts.Nonempty ∧
    (analyze_stmt tu stmt targets helpers mh).counts ⊆ ({0, 1, 2} : Finset Nat) ∧
    ∀ x ∈ (analyze_stmt tu stmt targets helpers mh).counts, x ≤ 2 := by
  obtain ⟨hn, hs⟩ := analyze_stmt_invariant stmt tu targets helpers mh
  refine ⟨hn, hs, ?_⟩
  intro x hx
  have hm := hs hx
  simp only [Finset.mem_insert, Finset.mem_singleton] at hm
  omega

/-- **C5.** Code bug: `has_early_guard_return` inspects the *children* of
an if-branch, so a branch that is itself a bare return statement (the
braceless `if (fd < 0) return -1;`) is not recognized, although the claim's
premise holds of it; consequently the end-to-end wrapper
`int w(int fd){ if(fd<0) return -1; return close(fd); }` is rejected with
`"path-counts=[0]"` (the direct `return close(fd)` call site also counts 0
because `count_calls_in_expr` classifies only children, never the node
itself) instead of being accepted via `ok-guard`. The braced variant is
recognized. -/
theorem C5_early_guard_code_bug :
    ifEx.children = [condEx, retM1] ∧ retM1.kind = CK.RETURN_STMT ∧
    "close" ∈ catEx.target_names ∧
    has_early_guard_return fnW catEx.helpers = false ∧
    analyze_wrapper_strict_plus [] fnW catEx "default" =
      ⟨false, false, 0, "path-counts=[0]", [], none, false, [], false, false, []⟩ ∧
    has_early_guard_return fnWBr catEx.helpers = true := by
  refine ⟨rfl, rfl, by decide, by rw [catEx_helpers]; exact guard_fnW, ?_,
    by rw [catEx_helpers]; exact guard_fnWBr⟩
  unfold analyze_wrapper_strict_plus
  simp only [show _function_body_cursor fnW = some bodyW from rfl, catEx_targets,
    catEx_helpers, ev_bodyW, guard_fnW]
  rw [if_neg (by simp), if_pos ⟨by decide, by simp⟩, Finset.sort_singleton]
  decide

/-- **C6 (amended).** In the `relaxed` and `accurate` runner modes (and
their legacy aliases), under thin-alias policy `default` or `direct-only`,
no emitted row whose `api_called` is in the catalog's thin aliases has
`via_helper_hop = true`. (In mode `"all"` rejected functions still get
rows, so the invariant as originally quantified fails there.) -/
theorem C6_thin_alias_invariant (tu : List Cursor) (catalog : ApiCatalog)
    (mode thin_policy : String) (fn : Cursor) (row : RowM)
    (hpol : thin_policy = "default" ∨ thin_policy = "direct-only")
    (hm : legacyModeMap mode = "relaxed" ∨ legacyModeMap mode = "accurate")
    (hrow : runnerRowForCursor tu catalog mode thin_policy fn = some row)
    (hthin : row.api_called ∈ catalog.thin_aliases) :
    row.via_helper_hop = false :=
  C6_amended_core tu catalog mode thin_policy fn row hpol hm hrow hthin

/-- Counterexample to C6 as stated (quantified over mode `"all"` too): in
mode `"all"` the runner emits a row for the rejected wrapper `fnThin`
whose `api_called` is the thin alias `"open"` and whose
`via_helper_hop` is true. -/
theorem C6_thin_alias_counterexample :
    runnerRowForCursor tuThin catEx "all" "default" fnThin = some rowThinAll ∧
    rowThinAll.api_called ∈ catEx.thin_aliases ∧
    rowThinAll.via_helper_hop = true :=
  ⟨rr_thin, by decide, rfl⟩

/-- Witness for C6: the accurate-mode row of the direct thin-alias wrapper
`fnO` carries `via_helper_hop = false`. -/
theorem C6_thin_alias_invariant_witness : rowO.via_helper_hop = false :=
  C6_thin_alias_invariant [] catEx "accurate" "default" fnO rowO (Or.inl rfl)
    (Or.inr (by decide)) rr_O (by decide)

/-- **C7.** The relaxed analyzer accepts iff the per-path counter at
`max_hops = 2` yields some positive count and some collected call resolves
to a target name (`unknown` does not reject); on acceptance it returns
`per_path_single` exactly when the counts are contained in `{0, 1}`,
`derived_from_params = true` with an empty trace, `pair_used` and
`via_helper_hop` false, and reason `"ok"`. -/
theorem C7_relaxed_accept (tu : List Cursor) (fn : Cursor) (catalog : ApiCatalog)
    (body : Cursor) (hb : _function_body_cursor fn = some body) :
    ((analyze_wrapper_relaxed tu fn catalog).keep = true ↔
      ((∃ c ∈ (analyze_stmt tu body catalog.target_names catalog.helpers 2).counts, 0 < c) ∧
        relaxedResolved tu fn catalog ≠ [])) ∧
    ((analyze_wrapper_relaxed tu fn catalog).keep = true →
      analyze_wrapper_relaxed tu fn catalog =
        ⟨true,
         decide ((analyze_stmt tu body catalog.target_names catalog.helpers 2).counts ⊆ {0, 1}),
         (relaxedResolved tu fn catalog).length, "ok",
         (relaxedResolved tu fn catalog).map Prod.snd,
         ((relaxedResolved tu fn catalog).map Prod.fst).head?, true, [], false, false, []⟩) :=
  C7_core tu fn catalog body hb

/-- Witness for C7 at the one-call wrapper `fnR`. -/
theorem C7_relaxed_accept_witness :
    ((analyze_wrapper_relaxed [] fnR catEx).keep = true ↔
      ((∃ c ∈ (analyze_stmt [] bodyR catEx.target_names catEx.helpers 2).counts, 0 < c) ∧
        relaxedResolved [] fnR catEx ≠ [])) ∧
    ((analyze_wrapper_relaxed [] fnR catEx).keep = true →
      analyze_wrapper_relaxed [] fnR catEx =
        ⟨true,
         decide ((analyze_stmt [] bodyR catEx.target_names catEx.helpers 2).counts ⊆ {0, 1}),
         (relaxedResolved [] fnR catEx).length, "ok",
         (relaxedResolved [] fnR catEx).map Prod.snd,
         ((relaxedResolved [] fnR catEx).map Prod.fst).head?, true, [], false, false, []⟩) :=
  C7_relaxed_accept [] fnR catEx bodyR rfl

/-- **C10.** `check_arguments_provenance` is vacuously true when every
counted call has no arguments (the empty-call-list case included);
consequently a strict-plus-accepted wrapper whose target calls take no
arguments reports `derived_from_params = true` even though no data flows
from its parameters. -/
theorem C10_vacuous_provenance (tu : List Cursor) (fn : Cursor)
    (catalog : ApiCatalog) (pol : String) (calls : List Cursor) (body : Cursor)
    (helpers : Option HelperConfig)
    (hb : _function_body_cursor fn = some body)
    (hargs : ∀ c ∈ calls, extract_call_args c = []) :
    check_arguments_provenance fn calls helpers = (true, []) ∧
    ((∀ c ∈ (collect_target_calls tu fn catalog.target_names).map Prod.fst,
        extract_call_args c = []) →
      (analyze_wrapper_strict_plus tu fn catalog pol).keep = true →
      (analyze_wrapper_strict_plus tu fn catalog pol).derived_from_params = true) := by
  refine ⟨check_arguments_vacuous fn calls helpers body hb hargs, ?_⟩
  intro hT hkeep
  rw [strict_plus_accept_derived tu fn catalog pol body hb hkeep,
    check_arguments_vacuous fn _ (some catalog.helpers) body hb hT]

/-- Witness for C10 at the zero-argument wrapper `fnR`. -/
theorem C10_vacuous_provenance_witness :
    check_arguments_provenance fnR [callClose2] (some hcEmpty) = (true, []) ∧
    ((∀ c ∈ (collect_target_calls [] fnR catEx.target_names).map Prod.fst,
        extract_call_args c = []) →
      (analyze_wrapper_strict_plus [] fnR catEx "default").keep = true →
      (analyze_wrapper_strict_plus [] fnR catEx "default").derived_from_params = true) :=
  C10_vacuous_provenance [] fnR catEx "default" [callClose2] bodyR (some hcEmpty) rfl
    (by intro c hc; rw [List.mem_singleton] at hc; subst hc; rfl)


theorem length_filter_flatten (p : Cursor → Bool) :
    ∀ (L : List (List Cursor)), ((L.flatten).filter p).length =
      (L.map (fun l => (l.filter p).length)).sum := by
  intro L
  induction L with
  | nil => simp
  | cons x xs ih =>
    simp only [List.flatten_cons, List.filter_append, List.length_append, ih,
      List.map_cons, List.sum_cons]

theorem countReturnsIn_eq (p : Cursor → Bool) :
    ∀ n, countReturnsIn p n = ((returnNodes n).filter p).length := by
  refine Cursor.strongRecOn ?_
  intro n IH
  rw [countReturnsIn, returnNodes]
  rw [List.filter_append, List.length_append]
  congr 1
  · by_cases hk : n.kind = CK.RETURN_STMT
    · by_cases hp : p n = true
      · rw [if_pos ⟨hk, hp⟩]
        simp [hk, hp]
      · rw [if_neg (fun h => hp h.2)]
        simp [hk, hp]
    · rw [if_neg (fun h => hk h.1)]
      simp [hk]
  · rw [length_filter_flatten, List.map_map]
    congr 1
    refine List.map_congr_left ?_
    intro x hx
    exact IH x.1 (Cursor.sizeOf_lt_of_mem_children x.2)

theorem retChildScan_nil (keys : List (String × Nat × Nat)) :
    retChildScan keys [] = false := rfl

theorem retDirect_eq (keys : List (String × Nat × Nat)) (r : Cursor)
    (hr : r.children.length ≤ 1) :
    _return_directly_call keys r = retDirectClaim keys r := by
  rcases hc : r.children with _ | ⟨e, rest⟩
  · rw [_return_directly_call, hc]
    unfold retDirectClaim
    rw [hc]
    rfl
  · rcases rest with _ | ⟨e2, r2⟩
    · rw [_return_directly_call, hc]
      unfold retDirectClaim
      rw [hc]
      rw [retChildScan]
      dsimp only
      by_cases hbad : (_strip_noop e).kind = CK.BINARY_OPERATOR ∨
          (_strip_noop e).kind = CK.UNARY_OPERATOR ∨
          (_strip_noop e).kind = CK.CONDITIONAL_OPERATOR
      · rw [if_pos hbad, if_pos hbad]
      · rw [if_neg hbad, if_neg hbad]
        by_cases hcall : (_strip_noop e).kind = CK.CALL_EXPR
        · rw [if_pos hcall]
          rcases hlk : _cursor_loc_key (_strip_noop e) with _ | k
          · simp [hcall, hlk, retChildScan_nil]
          · by_cases hk : k ∈ keys
            · simp [hcall, hk, hlk]
            · simp [hcall, hk, hlk, retChildScan_nil]
        · rw [if_neg hcall]
          simp [hcall, retChildScan_nil]
    · rw [hc] at hr
      simp at hr

/-- **C8.** For a non-empty set of matching call sites (and returns with at
most one child expression, as clang produces), the `ret_pass`
classification equals the claim's description: `"no"` for void returns or
no expression-bearing return, `"yes - all"` when all (non-zero) returns
directly return a matching call, `"yes - <n>"` for some-but-not-all, else
`"no"`. -/
theorem C8_ret_pass (fn : Cursor) (matching_calls : List Cursor) (body : Cursor)
    (hne : matching_calls ≠ [])
    (htrim : pyStrip fn.resultType = fn.resultType)
    (hb : _function_body_cursor fn = some body)
    (hwf : ∀ r ∈ returnNodes body, r.children.length ≤ 1) :
    (compute_arg_ret_pass_multi fn matching_calls).2 = retPassClaim fn matching_calls := by
  have htot : countReturnsIn (fun _ => true) body = (returnNodes body).length := by
    rw [countReturnsIn_eq, List.filter_true]
  have hdir : countReturnsIn
        (_return_directly_call (matching_calls.filterMap _cursor_loc_key)) body =
      ((returnNodes body).filter
        (retDirectClaim (matching_calls.filterMap _cursor_loc_key))).length := by
    rw [countReturnsIn_eq]
    congr 1
    refine List.filter_congr ?_
    intro r hr
    exact retDirect_eq _ r (hwf r hr)
  unfold compute_arg_ret_pass_multi retPassClaim
  rw [if_neg (by simpa using hne)]
  simp only [hb, htrim, htot, hdir]
  by_cases hv : fn.resultType = "void"
  · simp [hv]
  · by_cases hT : (returnNodes body).length = 0
    · have hnil : returnNodes body = [] := List.length_eq_zero.mp hT
      simp [hv, hT, hnil]
    · by_cases hE : ((returnNodes body).filter (fun r0 => !r0.children.isEmpty)).length
        = 0
      · have hall : ∀ r ∈ returnNodes body, r.children = [] := by
          intro r hr
          have hfe : (returnNodes body).filter (fun r0 => !r0.children.isEmpty) = [] :=
            List.length_eq_zero.mp hE
          have hmem := List.filter_eq_nil_iff.mp hfe r hr
          simpa using hmem
        have hD : (returnNodes body).filter
            (retDirectClaim (matching_calls.filterMap _cursor_loc_key)) = [] := by
          refine List.filter_eq_nil_iff.mpr ?_
          intro r hr
          simp [retDirectClaim, hall r hr]
        rw [if_neg (by push_neg; exact ⟨hv, hT⟩), if_pos (Or.inr hE)]
        rw [hD]
        simp only [List.length_nil]
        rw [if_neg (by omega), if_neg (by omega)]
      · rw [if_neg (show ¬(fn.resultType = "void" ∨
              (returnNodes body).length = 0) from by push_neg; exact ⟨hv, hT⟩),
          if_neg (show ¬(fn.resultType = "void" ∨
              ((returnNodes body).filter (fun r0 => !r0.children.isEmpty)).length = 0)
            from by push_neg; exact ⟨hv, hE⟩)]
        by_cases hDT : ((returnNodes body).filter
            (retDirectClaim (matching_calls.filterMap _cursor_loc_key))).length =
            (returnNodes body).length
        · simp [hDT, hT]
        · by_cases hD0 : 0 < ((returnNodes body).filter
              (retDirectClaim (matching_calls.filterMap _cursor_loc_key))).length
          · have hlt : ((returnNodes body).filter
                (retDirectClaim (matching_calls.filterMap _cursor_loc_key))).length <
                (returnNodes body).length :=
              lt_of_le_of_ne (List.length_filter_le _ _) hDT
            simp [hDT, hD0, hlt]
          · simp [hDT, hD0]

theorem rn_leaf (n : Cursor) (h : n.children = []) (hk : ¬ n.kind = CK.RETURN_STMT) :
    returnNodes n = [] := by
  rw [returnNodes]
  simp [h, hk, List.attach, List.attachWith, List.pmap]

theorem rn_condEx : returnNodes condEx = [] := by
  rw [returnNodes]
  simp [condEx, mkN_kind, mkN_children, List.attach, List.attachWith, List.pmap,
    rn_leaf (declRef "fd" 7) (declRef_children _ _) (by decide),
    rn_leaf intLit intLit_children (by decide)]

theorem rn_unM1 : returnNodes (mkN CK.UNARY_OPERATOR [intLit]) = [] := by
  rw [returnNodes]
  simp [mkN_kind, mkN_children, List.attach, List.attachWith, List.pmap,
    rn_leaf intLit intLit_children (by decide)]

theorem rn_retM1 : returnNodes retM1 = [retM1] := by
  rw [returnNodes]
  simp [retM1, mkN_kind, mkN_children, List.attach, List.attachWith, List.pmap, rn_unM1]

theorem rn_callClose : returnNodes callClose = [] := by
  rw [returnNodes]
  simp [callClose, mkCall_kind, mkCall_children, List.attach, List.attachWith, List.pmap,
    rn_leaf (calleeRef "close") (calleeRef_children _) (by decide),
    rn_leaf (declRef "fd" 7) (declRef_children _ _) (by decide)]

theorem rn_retClose : returnNodes retClose = [retClose] := by
  rw [returnNodes]
  simp [retClose, mkN_kind, mkN_children, List.attach, List.attachWith, List.pmap,
    rn_callClose]

theorem rn_ifEx : returnNodes ifEx = [retM1] := by
  rw [returnNodes]
  simp [ifEx, mkN_kind, mkN_children, List.attach, List.attachWith, List.pmap,
    rn_condEx, rn_retM1]

theorem rn_bodyW : returnNodes bodyW = [retM1, retClose] := by
  rw [returnNodes]
  simp [bodyW, mkN_kind, mkN_children, List.attach, List.attachWith, List.pmap,
    rn_ifEx, rn_retClose]

/-- Witness for C8 at `fnW` with the matching call site of `close(fd)`. -/
theorem C8_ret_pass_witness :
    (compute_arg_ret_pass_multi fnW [callClose]).2 = retPassClaim fnW [callClose] :=
  C8_ret_pass fnW [callClose] bodyW (by simp) (by decide) rfl
    (by rw [rn_bodyW]; decide)

theorem san_run1 :
    _sanitize_clang_args_for_libclang envC9 ["gcc", "-c", "foo.c"] "/a/foo.c" "/a" =
      ["-x", "c", "-working-directory=/a", "-I", "/usr/include"] := by
  decide

theorem san_run2 :
    _sanitize_clang_args_for_libclang envC9
        ["-x", "c", "-working-directory=/a", "-I", "/usr/include"] "/a/foo.c" "/a" =
      ["-x", "c", "-I", "/usr/include", "-working-directory=/a"] := by
  decide

theorem strStarts_trans {s p q : String} (h1 : strStarts s p = true)
    (h2 : strStarts p q = true) : strStarts s q = true := by
  simp only [strStarts, List.isPrefixOf_iff_prefix] at *
  exact h2.trans h1

theorem notStarts_of_prefix {s p q : String} (hs : strStarts s p = true)
    (hq : strStarts p q = false) (hlen : q.toList.length ≤ p.toList.length) :
    strStarts s q = false := by
  simp only [strStarts, List.isPrefixOf_iff_prefix] at hs
  rw [Bool.eq_false_iff]
  intro hqs
  simp only [strStarts, List.isPrefixOf_iff_prefix] at hqs
  have hqp : q.toList <+: p.toList := List.prefix_of_prefix_length_le hqs hs hlen
  rw [Bool.eq_false_iff] at hq
  exact hq (by simpa [strStarts, List.isPrefixOf_iff_prefix] using hqp)

theorem starts_append (p s : String) : strStarts (p ++ s) p = true := by
  simp [strStarts, List.isPrefixOf_iff_prefix]

theorem strDropN_append (p s : String) :
    strDropN (p ++ s) p.toList.length = s := by
  simp [strDropN, strDropN]

theorem starts_refl (p : String) : strStarts p p = true := by
  simp [strStarts, List.isPrefixOf_iff_prefix]

/-- Two incompatible prefixes cannot both start the same string. -/
theorem starts_disjoint {a : String} (p q : String) (hp : strStarts a p = true)
    (h1 : strStarts p q = false) (h2 : strStarts q p = false) :
    strStarts a q = false := by
  rw [Bool.eq_false_iff]
  intro hq
  simp only [strStarts, List.isPrefixOf_iff_prefix] at hp hq
  rw [Bool.eq_false_iff] at h1 h2
  rcases le_total q.toList.length p.toList.length with hl | hl
  · exact h1 (by
      simp only [strStarts, List.isPrefixOf_iff_prefix]
      exact List.prefix_of_prefix_length_le hq hp hl)
  · exact h2 (by
      simp only [strStarts, List.isPrefixOf_iff_prefix]
      exact List.prefix_of_prefix_length_le hp hq hl)

theorem isWdTok_starts {a : String} (h : isWdTok a = true) :
    strStarts a "-working-directory" = true := by
  rcases Bool.or_eq_true_iff.mp h with h1 | h1
  · rw [of_decide_eq_true h1]
    exact starts_refl _
  · exact strStarts_trans h1 (by decide)

theorem isWd_false_of_starts {a : String} (p : String) (hp : strStarts a p = true)
    (h1 : strStarts p "-working-directory" = false)
    (h2 : strStarts "-working-directory" p = false) : isWdTok a = false := by
  rw [Bool.eq_false_iff]
  intro hw
  have := starts_disjoint p "-working-directory" hp h1 h2
  rw [isWdTok_starts hw] at this
  exact Bool.true_eq_false ▸ this

theorem isWd_false_of_not_dash {v : String} (h : strStarts v "-" = false) :
    isWdTok v = false := by
  rw [Bool.eq_false_iff]
  intro hw
  have hs := strStarts_trans (isWdTok_starts hw) (show strStarts "-working-directory" "-" = true by decide)
  rw [h] at hs
  exact Bool.false_eq_true ▸ hs

theorem slash_not_dash {v : String} (h : strStarts v "/" = true) :
    strStarts v "-" = false :=
  starts_disjoint "/" "-" h (by decide) (by decide)

theorem slash_not_at {v : String} (h : strStarts v "/" = true) :
    strStarts v "@" = false :=
  starts_disjoint "/" "@" h (by decide) (by decide)

theorem splitSlash_no_slash (a : List Char) (ha : '/' ∉ a) : splitSlash a = [a] := by
  induction a with
  | nil => rfl
  | cons c t ih =>
    rw [splitSlash]
    have hc : ¬ c = '/' := fun h => ha (h ▸ List.mem_cons_self _ _)
    rw [if_neg hc, ih (fun h => ha (List.mem_cons_of_mem _ h))]

theorem splitSlash_cons_slash (rest : List Char) :
    splitSlash ('/' :: rest) = [] :: splitSlash rest := by
  rw [splitSlash, if_pos rfl]

theorem splitSlash_append (a : List Char) (ha : '/' ∉ a) (rest : List Char) :
    splitSlash (a ++ '/' :: rest) = a :: splitSlash rest := by
  induction a with
  | nil => simpa using splitSlash_cons_slash rest
  | cons c t ih =>
    have hc : ¬ c = '/' := fun h => ha (h ▸ List.mem_cons_self _ _)
    rw [List.cons_append, splitSlash, if_neg hc,
      ih (fun h => ha (List.mem_cons_of_mem _ h))]

theorem splitSlash_mem_no_slash (s : List Char) :
    ∀ c ∈ splitSlash s, '/' ∉ c := by
  induction s with
  | nil =>
    intro c hc
    simp [splitSlash] at hc
    simp [hc]
  | cons x t ih =>
    intro c hc
    rw [splitSlash] at hc
    by_cases hx : x = '/'
    · rw [if_pos hx] at hc
      rcases List.mem_cons.mp hc with h | h
      · simp [h]
      · exact ih c h
    · rw [if_neg hx] at hc
      rcases hsp : splitSlash t with _ | ⟨h0, t0⟩
      · rw [hsp] at hc
        simp at hc
        intro hm
        rcases List.mem_cons.mp (hc ▸ hm) with h | h
        · exact hx h.symm
        · simp at h
      · rw [hsp] at hc
        rcases List.mem_cons.mp hc with h | h
        · intro hm
          rcases List.mem_cons.mp (h ▸ hm) with h2 | h2
          · exact hx h2.symm
          · exact ih h0 (hsp ▸ List.mem_cons_self _ _) h2
        · exact ih c (hsp ▸ List.mem_cons_of_mem _ h)

theorem splitSlash_intercalate (comps : List (List Char))
    (h : ∀ c ∈ comps, ¬c = [] ∧ '/' ∉ c ∧ ¬c = ['.']) :
    (splitSlash (List.intercalate ['/'] comps)).filter
      (fun c => decide (c ≠ []) && decide (c ≠ ['.'])) = comps := by
  induction comps with
  | nil => rfl
  | cons a t ih =>
    rcases t with _ | ⟨b, t2⟩
    · have ha := h a (List.mem_cons_self _ _)
      simp only [List.intercalate, List.intersperse, List.flatten]
      rw [List.append_nil, splitSlash_no_slash a ha.2.1]
      simp [ha.1, ha.2.2]
    · have ha := h a (List.mem_cons_self _ _)
      have hstep : List.intercalate ['/'] (a :: b :: t2) =
          a ++ '/' :: List.intercalate ['/'] (b :: t2) := by
        simp [List.intercalate, List.intersperse]
      rw [hstep, splitSlash_append a ha.2.1, List.filter_cons]
      rw [if_pos (by simp [ha.1, ha.2.2])]
      rw [ih (fun c hc => h c (List.mem_cons_of_mem _ hc))]

theorem toList_mk (l : List Char) : (String.mk l).toList = l := rfl

theorem pathNorm_starts {s : String} (h : strStarts s "/" = true) :
    strStarts (pathNorm s) "/" = true := by
  rw [pathNorm, if_pos h]
  simp [strStarts, List.isPrefixOf, toList_mk]

theorem filt_facts (s : String) :
    ∀ c ∈ (splitSlash s.toList).filter (fun c => decide (c ≠ []) && decide (c ≠ ['.'])),
      ¬c = [] ∧ '/' ∉ c ∧ ¬c = ['.'] := by
  intro c hc
  have h1 := List.of_mem_filter hc
  have h2 := splitSlash_mem_no_slash s.toList c (List.mem_of_mem_filter hc)
  simp at h1
  exact ⟨h1.1, h2, h1.2⟩

theorem pathNorm_idem (s : String) : pathNorm (pathNorm s) = pathNorm s := by
  by_cases h : strStarts s "/" = true
  · have h1 : pathNorm s = String.mk ('/' :: List.intercalate ['/']
        ((splitSlash s.toList).filter (fun c => decide (c ≠ []) && decide (c ≠ ['.'])))) := by
      rw [pathNorm, if_pos h]
    rw [h1, pathNorm]
    rw [if_pos (by simp [strStarts, List.isPrefixOf, toList_mk])]
    rw [toList_mk, splitSlash_cons_slash, List.filter_cons]
    rw [if_neg (by simp)]
    rw [splitSlash_intercalate _ (filt_facts s)]
  · have hb : strStarts s "/" = false := Bool.eq_false_iff.mpr (fun hh => h hh)
    rcases hcomps : (splitSlash s.toList).filter
        (fun c => decide (c ≠ []) && decide (c ≠ ['.'])) with _ | ⟨c0, crest⟩
    · have h1 : pathNorm s = "." := by
        rw [pathNorm, if_neg (by rw [hb]; simp), hcomps]
        simp
      rw [h1]
      decide
    · have hc0 := filt_facts s
      rw [hcomps] at hc0
      have hfacts := hc0 c0 (List.mem_cons_self _ _)
      have h1 : pathNorm s = String.mk (List.intercalate ['/'] (c0 :: crest)) := by
        rw [pathNorm, if_neg (by rw [hb]; simp), hcomps, if_neg (by simp)]
      obtain ⟨tl, htl⟩ : ∃ tl, List.intercalate ['/'] (c0 :: crest) = c0 ++ tl := by
        rcases crest with _ | ⟨b, t2⟩
        · exact ⟨[], by simp [List.intercalate, List.intersperse]⟩
        · exact ⟨'/' :: List.intercalate ['/'] (b :: t2),
            by simp [List.intercalate, List.intersperse]⟩
      rcases hc0s : c0 with _ | ⟨ch, c0t⟩
      · exact absurd hc0s hfacts.1
      · have hch : ¬ ch = '/' := by
          intro hh
          exact (hc0s ▸ hfacts.2.1) (hh ▸ List.mem_cons_self _ _)
        have hns : strStarts (String.mk (List.intercalate ['/'] (c0 :: crest))) "/" = false := by
          rw [htl, hc0s]
          simp [strStarts, List.isPrefixOf, toList_mk]
          exact fun hh => hch hh.symm
        rw [h1, pathNorm, if_neg (by rw [hns]; simp)]
        rw [toList_mk, splitSlash_intercalate _ hc0]
        rw [if_neg (by simp)]

theorem wd_facts {t : String} (h : isWdTok t = true) :
    strStarts t "-" = true ∧ t ∉ DROP_EXACT ∧ dropPrefixHit t = false ∧
    _is_warning_tok t = false ∧ t ∉ PAIR_FLAGS ∧ strStarts t "-std=" = false ∧
    strStarts t "-I" = false ∧ strStarts t "-isystem" = false ∧
    strStarts t "-iquote" = false ∧ strStarts t "-idirafter" = false ∧
    strStarts t "-isysroot=" = false ∧ strStarts t "--sysroot=" = false ∧
    strStarts t "-resource-dir=" = false ∧ strStarts t "-D" = false ∧
    t ∉ PRESERVE_EXACT ∧ strStarts t "-O" = false := by
  have hw := isWdTok_starts h
  refine ⟨strStarts_trans hw (by decide), ?_, ?_, ?_, ?_,
    starts_disjoint _ _ hw (by decide) (by decide),
    starts_disjoint _ _ hw (by decide) (by decide),
    starts_disjoint _ _ hw (by decide) (by decide),
    starts_disjoint _ _ hw (by decide) (by decide),
    starts_disjoint _ _ hw (by decide) (by decide),
    starts_disjoint _ _ hw (by decide) (by decide),
    starts_disjoint _ _ hw (by decide) (by decide),
    starts_disjoint _ _ hw (by decide) (by decide),
    starts_disjoint _ _ hw (by decide) (by decide), ?_,
    starts_disjoint _ _ hw (by decide) (by decide)⟩
  · intro hm
    fin_cases hm <;> exact absurd hw (by decide)
  · have hpref : ∀ p ∈ DROP_PREFIXES, strStarts t p = false := by
      intro p hp
      fin_cases hp <;> exact starts_disjoint _ _ hw (by decide) (by decide)
    rw [dropPrefixHit]
    rw [List.any_eq_false]
    intro p hp
    simp [hpref p hp]
  · rw [_is_warning_tok]
    rw [starts_disjoint _ "-W" hw (by decide) (by decide)]
    simp
  · intro hm
    fin_cases hm <;> exact absurd hw (by decide)
  · intro hm
    fin_cases hm <;> exact absurd hw (by decide)

theorem pair_facts {t : String} (h : t ∈ PAIR_FLAGS) :
    strStarts t "-" = true ∧ t ∉ DROP_EXACT ∧ _is_obj_or_lib t = false ∧
    _is_source_file t = false ∧ dropPrefixHit t = false ∧
    _is_warning_tok t = false ∧ isWdTok t = false := by
  fin_cases h <;> exact ⟨by decide, by decide, by decide, by decide,
    by decide, by decide, by decide⟩

theorem sanSingle_wd (env : SanEnv) (dir : String) {t : String}
    (first sl ss sr : Bool) (h : isWdTok t = true) :
    sanSingle env dir t first sl ss sr = ([], sl, ss, sr) := by
  obtain ⟨hd, hdrop, hpref, hwarn, hpair, hstd, hI, hisys, hiq, hida, hr1, hr2, hres,
    hD, hpres, hO⟩ := wd_facts h
  rw [sanSingle]
  rw [if_neg (by simp [hd])]
  rw [if_neg hdrop]
  by_cases hobj : _is_obj_or_lib t = true ∨ _is_source_file t = true
  · rw [if_pos hobj]
  · rw [if_neg hobj, if_neg (by simp [hpref]), if_neg (by simp [hwarn]), if_neg hpair,
      if_neg (by simp [hstd]), if_neg (by simp [hI]), if_neg (by simp [hisys]),
      if_neg (by simp [hiq]), if_neg (by simp [hida]), if_neg (by simp [hr1]),
      if_neg (by simp [hr2]), if_neg (by simp [hres]), if_neg (by simp [hD]),
      if_neg hpres, if_neg (by simp [hO])]

theorem sanSingle_emit (env : SanEnv) (dir : String) {t : String}
    (first sl ss sr : Bool) (hs : singleStable env dir t = true) :
    sanSingle env dir t first sl ss sr =
      ([t], sl, ss || strStarts t "-std=", sr || strStarts t "-resource-dir=") := by
  simp only [singleStable, Bool.and_eq_true] at hs
  obtain ⟨⟨⟨⟨⟨⟨⟨⟨hat, hd⟩, hdrop⟩, hobj⟩, hsrc⟩, hpref⟩, hwarn⟩, hpair⟩, hcas⟩ := hs
  simp only [Bool.not_eq_true'] at hobj hsrc hpref hwarn
  rw [sanSingle]
  rw [if_neg (by simp [hd])]
  rw [if_neg (of_decide_eq_true hdrop)]
  rw [if_neg (by simp [hobj, hsrc])]
  rw [if_neg (by simp [hpref])]
  rw [if_neg (by simp [hwarn])]
  rw [if_neg (of_decide_eq_true hpair)]
  by_cases h1 : strStarts t "-std=" = true
  · rw [if_pos h1, h1]
    have hnr : strStarts t "-resource-dir=" = false :=
      starts_disjoint _ _ h1 (by decide) (by decide)
    rw [hnr]
    simp
  · rw [if_neg h1] at hcas ⊢
    by_cases h2 : strStarts t "-I" = true ∧ ¬ t = "-I"
    · rw [if_pos h2] at hcas
      simp at hcas
    · rw [if_neg h2] at hcas ⊢
      by_cases h3 : strStarts t "-isystem" = true ∧ ¬ t = "-isystem"
      · rw [if_pos h3] at hcas
        simp at hcas
      · rw [if_neg h3] at hcas ⊢
        by_cases h4 : strStarts t "-iquote" = true ∧ ¬ t = "-iquote"
        · rw [if_pos h4] at hcas
          simp at hcas
        · rw [if_neg h4] at hcas ⊢
          by_cases h5 : strStarts t "-idirafter" = true ∧ ¬ t = "-idirafter"
          · rw [if_pos h5] at hcas
            simp at hcas
          · rw [if_neg h5] at hcas ⊢
            have hstd0 : strStarts t "-std=" = false := Bool.eq_false_iff.mpr h1
            by_cases h6 : strStarts t "-isysroot=" = true
            · rw [if_pos h6] at hcas ⊢
              rw [of_decide_eq_true hcas, hstd0,
                starts_disjoint _ _ h6 (by decide) (by decide)]
              simp
            · rw [if_neg h6] at hcas ⊢
              by_cases h7 : strStarts t "--sysroot=" = true
              · rw [if_pos h7] at hcas ⊢
                rw [of_decide_eq_true hcas, hstd0,
                  starts_disjoint _ _ h7 (by decide) (by decide)]
                simp
              · rw [if_neg h7] at hcas ⊢
                by_cases h8 : strStarts t "-resource-dir=" = true
                · rw [if_pos h8] at hcas ⊢
                  rw [of_decide_eq_true hcas, hstd0, h8]
                  simp
                · rw [if_neg h8] at hcas ⊢
                  have hres0 : strStarts t "-resource-dir=" = false :=
                    Bool.eq_false_iff.mpr h8
                  by_cases h9 : strStarts t "-D" = true
                  · rw [if_pos h9]
                    rw [hstd0, hres0]
                    simp
                  · rw [if_neg h9] at hcas ⊢
                    by_cases h10 : t ∈ PRESERVE_EXACT
                    · rw [if_pos h10]
                      rw [hstd0, hres0]
                      simp
                    · rw [if_neg h10] at hcas ⊢
                      rw [if_pos hcas, hstd0, hres0]
                      simp

/-- For a non-pair token followed by more input, one loop step emits what
`sanSingle` emits and recurses with `sanSingle`'s flag updates. -/
theorem sanLoop_cons_eq (env : SanEnv) (dir t v : String) (rest2 : List String)
    (first sl ss sr : Bool) (e : List String × Bool × Bool × Bool)
    (he : sanSingle env dir t first sl ss sr = e) (hpair : t ∉ PAIR_FLAGS) :
    sanLoop env dir (t :: v :: rest2) first sl ss sr =
      (e.1 ++ (sanLoop env dir (v :: rest2) false e.2.1 e.2.2.1 e.2.2.2).1,
       (sanLoop env dir (v :: rest2) false e.2.1 e.2.2.1 e.2.2.2).2) := by
  rw [sanSingle] at he
  rw [if_neg hpair] at he
  rw [sanLoop, if_neg hpair]
  by_cases h1 : first = true ∧ ¬ strStarts t "-" = true ∧ baseName t ∈ COMPILER_BASES
  · rw [if_pos h1] at he ⊢
    rw [← he]
    simp
  · rw [if_neg h1] at he ⊢
    by_cases h2 : t ∈ DROP_EXACT
    · rw [if_pos h2] at he ⊢
      rw [← he]
      simp
    · rw [if_neg h2] at he ⊢
      by_cases h3 : _is_obj_or_lib t = true ∨ _is_source_file t = true
      · rw [if_pos h3] at he ⊢
        rw [← he]
        simp
      · rw [if_neg h3] at he ⊢
        by_cases h4 : dropPrefixHit t = true
        · rw [if_pos h4] at he ⊢
          rw [← he]
          simp
        · rw [if_neg h4] at he ⊢
          by_cases h5 : _is_warning_tok t = true
          · rw [if_pos h5] at he ⊢
            rw [← he]
            simp
          · rw [if_neg h5] at he ⊢
            by_cases h6 : strStarts t "-std=" = true
            · rw [if_pos h6] at he ⊢
              rw [← he]
              simp
            · rw [if_neg h6] at he ⊢
              by_cases h7 : strStarts t "-I" = true ∧ ¬ t = "-I"
              · rw [if_pos h7] at he ⊢
                rw [← he]
                by_cases hv : strDropN t 2 = ""
                · simp [hv]
                · simp [hv]
              · rw [if_neg h7] at he ⊢
                by_cases h8 : strStarts t "-isystem" = true ∧ ¬ t = "-isystem"
                · rw [if_pos h8] at he ⊢
                  rw [← he]
                  by_cases hv : strDropN t 8 = ""
                  · simp [hv]
                  · simp [hv]
                · rw [if_neg h8] at he ⊢
                  by_cases h9 : strStarts t "-iquote" = true ∧ ¬ t = "-iquote"
                  · rw [if_pos h9] at he ⊢
                    rw [← he]
                    by_cases hv : strDropN t 7 = ""
                    · simp [hv]
                    · simp [hv]
                  · rw [if_neg h9] at he ⊢
                    by_cases h10 : strStarts t "-idirafter" = true ∧ ¬ t = "-idirafter"
                    · rw [if_pos h10] at he ⊢
                      rw [← he]
                      by_cases hv : strDropN t 10 = ""
                      · simp [hv]
                      · simp [hv]
                    · rw [if_neg h10] at he ⊢
                      by_cases h11 : strStarts t "-isysroot=" = true
                      · rw [if_pos h11] at he ⊢
                        rw [← he]
                        simp
                      · rw [if_neg h11] at he ⊢
                        by_cases h12 : strStarts t "--sysroot=" = true
                        · rw [if_pos h12] at he ⊢
                          rw [← he]
                          simp
                        · rw [if_neg h12] at he ⊢
                          by_cases h13 : strStarts t "-resource-dir=" = true
                          · rw [if_pos h13] at he ⊢
                            rw [← he]
                            simp
                          · rw [if_neg h13] at he ⊢
                            by_cases h14 : strStarts t "-D" = true
                            · rw [if_pos h14] at he ⊢
                              rw [← he]
                              simp
                            · rw [if_neg h14] at he ⊢
                              by_cases h15 : t ∈ PRESERVE_EXACT
                              · rw [if_pos h15] at he ⊢
                                rw [← he]
                                simp
                              · rw [if_neg h15] at he ⊢
                                by_cases h16 : strStarts t "-O" = true
                                · rw [if_pos h16] at he ⊢
                                  rw [← he]
                                  simp
                                · rw [if_neg h16] at he ⊢
                                  rw [← he]
                                  simp

theorem singleStable_not_wd {env : SanEnv} {dir t : String}
    (hs : singleStable env dir t = true) : isWdTok t = false := by
  rw [Bool.eq_false_iff]
  intro hw
  obtain ⟨_, _, _, _, hpair, hstd, hI, hisys, hiq, hida, hr1, hr2, hres, hD, hpres, hO⟩ :=
    wd_facts hw
  simp only [singleStable, Bool.and_eq_true] at hs
  obtain ⟨_, hcas⟩ := hs
  rw [if_neg (by simp [hstd]), if_neg (by simp [hI]), if_neg (by simp [hisys]),
    if_neg (by simp [hiq]), if_neg (by simp [hida]), if_neg (by simp [hr1]),
    if_neg (by simp [hr2]), if_neg (by simp [hres]), if_neg (by simp [hD]),
    if_neg hpres, hO] at hcas
  simp at hcas

/-- The filtering loop re-emits a stable chunk list verbatim, minus the
`-working-directory` tokens, accumulating the flags. -/
theorem sanLoop_stable (env : SanEnv) (dir : String) :
    ∀ (l : List String), stableChunks env dir l = true →
    ∀ (first sl ss sr : Bool),
      sanLoop env dir l first sl ss sr =
        (l.filter (fun t => !isWdTok t),
         sl || (chunkFlags env dir l).1,
         ss || (chunkFlags env dir l).2.1,
         sr || (chunkFlags env dir l).2.2) := by
  have key : ∀ (n : Nat) (l : List String), l.length ≤ n →
      stableChunks env dir l = true →
      ∀ (first sl ss sr : Bool),
        sanLoop env dir l first sl ss sr =
          (l.filter (fun t => !isWdTok t),
           sl || (chunkFlags env dir l).1,
           ss || (chunkFlags env dir l).2.1,
           sr || (chunkFlags env dir l).2.2) := by
    intro n
    induction n with
    | zero =>
      intro l hl _ first sl ss sr
      have hnil : l = [] := List.length_eq_zero.mp (Nat.le_zero.mp hl)
      subst hnil
      rw [sanLoop]
      simp [chunkFlags]
    | succ n ih =>
      intro l hl hst first sl ss sr
      rcases l with _ | ⟨t, rest⟩
      · rw [sanLoop]
        simp [chunkFlags]
      · rcases rest with _ | ⟨v, rest2⟩
        · rw [show sanLoop env dir [t] first sl ss sr =
            sanSingle env dir t first sl ss sr from by rw [sanLoop]]
          rw [stableChunks] at hst
          by_cases hwd : isWdTok t = true
          · rw [if_pos hwd] at hst
            rw [sanSingle_wd env dir first sl ss sr hwd]
            simp [List.filter_cons, hwd, chunkFlags]
          · rw [if_neg hwd] at hst
            by_cases hpair : t ∈ PAIR_FLAGS
            · rw [if_pos hpair] at hst
              simp at hst
            · rw [if_neg hpair] at hst
              rw [Bool.and_eq_true] at hst
              obtain ⟨hss, _⟩ := hst
              rw [sanSingle_emit env dir first sl ss sr hss]
              have hnw : isWdTok t = false := singleStable_not_wd hss
              simp [List.filter_cons, hnw, chunkFlags, hwd, hpair]
        · have hlen1 : (v :: rest2).length ≤ n := by simp at hl ⊢; omega
          have hlen2 : rest2.length ≤ n := by simp at hl; omega
          rw [stableChunks] at hst
          by_cases hwd : isWdTok t = true
          · rw [if_pos hwd] at hst
            have hpair : t ∉ PAIR_FLAGS := (wd_facts hwd).2.2.2.2.1
            rw [sanLoop_cons_eq env dir t v rest2 first sl ss sr _
              (sanSingle_wd env dir first sl ss sr hwd) hpair]
            rw [ih (v :: rest2) hlen1 hst false sl ss sr]
            simp [List.filter_cons, hwd, chunkFlags]
          · rw [if_neg hwd] at hst
            by_cases hpair : t ∈ PAIR_FLAGS
            · rw [if_pos hpair] at hst
              rw [Bool.and_eq_true] at hst
              obtain ⟨hpo, hrest⟩ := hst
              simp only [pairChunkOk, Bool.and_eq_true] at hpo
              obtain ⟨⟨⟨hvdash, hvat⟩, hout⟩, hpath⟩ := hpo
              rw [Bool.not_eq_true'] at hvdash hvat
              obtain ⟨hdd, hdrop, hobj, hsrc, hpref, hwarn, hnw⟩ := pair_facts hpair
              rw [sanLoop]
              rw [if_neg (by simp [hdd]), if_neg hdrop,
                if_neg (by simp [hobj, hsrc]), if_neg (by simp [hpref]),
                if_neg (by simp [hwarn]), if_pos hpair,
                if_neg (by simp [hvdash]), if_neg (of_decide_eq_true hout)]
              have habs : (if t ∈ PATH_PAIR_FLAGS then _abspath env v dir else v) = v := by
                rcases Bool.or_eq_true_iff.mp hpath with hh | hh
                · rw [if_neg (by simpa using hh)]
                · split
                  · exact of_decide_eq_true hh
                  · rfl
              have hrec := ih rest2 hlen2 hrest false (sl || decide (t = "-x"))
                (ss || strStarts t "-std") (sr || decide (t = "-resource-dir"))
              simp only [habs, hrec]
              have hvw : isWdTok v = false := isWd_false_of_not_dash hvdash
              simp [List.filter_cons, hnw, hvw, chunkFlags, hwd, hpair,
                Bool.or_assoc, Bool.or_comm, Bool.or_left_comm]
            · rw [if_neg hpair] at hst
              rw [Bool.and_eq_true] at hst
              obtain ⟨hss, hrest⟩ := hst
              rw [sanLoop_cons_eq env dir t v rest2 first sl ss sr _
                (sanSingle_emit env dir first sl ss sr hss) hpair]
              rw [ih (v :: rest2) hlen1 hrest false sl (ss || strStarts t "-std=")
                (sr || strStarts t "-resource-dir=")]
              have hnw := singleStable_not_wd hss
              simp [List.filter_cons, hnw, chunkFlags, hwd, hpair,
                Bool.or_assoc, Bool.or_comm, Bool.or_left_comm]
  intro l hst first sl ss sr
  exact key l.length l (le_refl _) hst first sl ss sr

theorem abspath_abs (env : SanEnv) (dir v : String)
    (HA : ∀ x, strStarts (env.resolve x) "/" = true ∧
      pathNorm (env.resolve x) = env.resolve x) :
    strStarts (_abspath env v dir) "/" = true ∧
      pathNorm (_abspath env v dir) = _abspath env v dir := by
  rw [_abspath]
  split
  · next h => exact ⟨pathNorm_starts h, pathNorm_idem v⟩
  · exact HA _

theorem abspath_idem (env : SanEnv) (dir v : String)
    (HA : ∀ x, strStarts (env.resolve x) "/" = true ∧
      pathNorm (env.resolve x) = env.resolve x) :
    _abspath env (_abspath env v dir) dir = _abspath env v dir := by
  obtain ⟨h1, h2⟩ := abspath_abs env dir v HA
  rw [_abspath, if_pos h1, h2]

theorem preserve_dash : ∀ t ∈ PRESERVE_EXACT, strStarts t "-" = true := by decide

theorem stableChunks_cons_single {env : SanEnv} {dir t : String} {l : List String}
    (h1 : singleStable env dir t = true) (h2 : stableChunks env dir l = true) :
    stableChunks env dir (t :: l) = true := by
  have hw := singleStable_not_wd h1
  have hpair : t ∉ PAIR_FLAGS := by
    simp only [singleStable, Bool.and_eq_true] at h1
    exact of_decide_eq_true h1.1.2
  rcases l with _ | ⟨v, rest⟩ <;>
    simp [stableChunks, hw, hpair, h1, h2]

theorem stableChunks_cons_pair {env : SanEnv} {dir t v : String} {l : List String}
    (hp : t ∈ PAIR_FLAGS) (h1 : pairChunkOk env dir t v = true)
    (h2 : stableChunks env dir l = true) :
    stableChunks env dir (t :: v :: l) = true := by
  simp [stableChunks, (pair_facts hp).2.2.2.2.2.2, hp, h1, h2]

theorem stableChunks_cons_wd {env : SanEnv} {dir t : String} {l : List String}
    (hw : isWdTok t = true) (h2 : stableChunks env dir l = true) :
    stableChunks env dir (t :: l) = true := by
  rcases l with _ | ⟨v, rest⟩ <;> simp [stableChunks, hw, h2]

/-- The tokens one loop step emits for a non-pair token form stable
chunks. -/
theorem sanSingle_emission_stable (env : SanEnv) (dir t : String)
    (first sl ss sr : Bool)
    (HA : ∀ x, strStarts (env.resolve x) "/" = true ∧
      pathNorm (env.resolve x) = env.resolve x)
    (hat : strStarts t "@" = false)
    (hx1 : strStarts t "-isysroot=" = false)
    (hx2 : strStarts t "--sysroot=" = false)
    (hx3 : strStarts t "-resource-dir=" = false) :
    stableChunks env dir (sanSingle env dir t first sl ss sr).1 = true := by
  have habs1 := fun v => (abspath_abs env dir v HA).1
  have habs2 := fun v => abspath_idem env dir v HA
  have hpOk : ∀ (f val : String), f ∈ PATH_PAIR_FLAGS → f ∉ OUT_FLAGS →
      pairChunkOk env dir f (_abspath env val dir) = true := by
    intro f val hf hout
    simp only [pairChunkOk, Bool.and_eq_true]
    exact ⟨⟨⟨by simp [slash_not_dash (habs1 val)], by simp [slash_not_at (habs1 val)]⟩,
      by simp [hout]⟩, by simp [habs2 val]⟩
  rw [sanSingle]
  by_cases h1 : first = true ∧ ¬ strStarts t "-" = true ∧ baseName t ∈ COMPILER_BASES
  · rw [if_pos h1]
    rfl
  rw [if_neg h1]
  by_cases h2 : t ∈ DROP_EXACT
  · rw [if_pos h2]
    rfl
  rw [if_neg h2]
  by_cases h3 : _is_obj_or_lib t = true ∨ _is_source_file t = true
  · rw [if_pos h3]
    rfl
  rw [if_neg h3]
  by_cases h4 : dropPrefixHit t = true
  · rw [if_pos h4]
    rfl
  rw [if_neg h4]
  by_cases h5 : _is_warning_tok t = true
  · rw [if_pos h5]
    rfl
  rw [if_neg h5]
  by_cases h6 : t ∈ PAIR_FLAGS
  · rw [if_pos h6]
    rfl
  rw [if_neg h6]
  by_cases h7 : strStarts t "-std=" = true
  · rw [if_pos h7]
    rw [not_or] at h3
    refine stableChunks_cons_single ?_ rfl
    simp only [singleStable, Bool.and_eq_true]
    refine ⟨⟨⟨⟨⟨⟨⟨⟨by simp [hat], strStarts_trans h7 (by decide)⟩, by simp [h2]⟩,
      by simp [h3.1]⟩, by simp [h3.2]⟩, by simp [h4]⟩, by simp [h5]⟩, by simp [h6]⟩, ?_⟩
    rw [if_pos h7]
  rw [if_neg h7]
  by_cases h8 : strStarts t "-I" = true ∧ ¬ t = "-I"
  · rw [if_pos h8]
    show stableChunks env dir
      (if strDropN t 2 ≠ "" then ["-I", _abspath env (strDropN t 2) dir] else []) = true
    by_cases hv : strDropN t 2 ≠ ""
    · rw [if_pos hv]
      exact stableChunks_cons_pair (by decide) (hpOk "-I" _ (by decide) (by decide)) rfl
    · rw [if_neg hv]
      rfl
  rw [if_neg h8]
  by_cases h9 : strStarts t "-isystem" = true ∧ ¬ t = "-isystem"
  · rw [if_pos h9]
    show stableChunks env dir
      (if strDropN t 8 ≠ "" then ["-isystem", _abspath env (strDropN t 8) dir] else []) = true
    by_cases hv : strDropN t 8 ≠ ""
    · rw [if_pos hv]
      exact stableChunks_cons_pair (by decide) (hpOk "-isystem" _ (by decide) (by decide)) rfl
    · rw [if_neg hv]
      rfl
  rw [if_neg h9]
  by_cases h10 : strStarts t "-iquote" = true ∧ ¬ t = "-iquote"
  · rw [if_pos h10]
    show stableChunks env dir
      (if strDropN t 7 ≠ "" then ["-iquote", _abspath env (strDropN t 7) dir] else []) = true
    by_cases hv : strDropN t 7 ≠ ""
    · rw [if_pos hv]
      exact stableChunks_cons_pair (by decide) (hpOk "-iquote" _ (by decide) (by decide)) rfl
    · rw [if_neg hv]
      rfl
  rw [if_neg h10]
  by_cases h11 : strStarts t "-idirafter" = true ∧ ¬ t = "-idirafter"
  · rw [if_pos h11]
    show stableChunks env dir
      (if strDropN t 10 ≠ "" then ["-idirafter", _abspath env (strDropN t 10) dir] else []) = true
    by_cases hv : strDropN t 10 ≠ ""
    · rw [if_pos hv]
      exact stableChunks_cons_pair (by decide) (hpOk "-idirafter" _ (by decide) (by decide)) rfl
    · rw [if_neg hv]
      rfl
  rw [if_neg h11]
  by_cases h12 : strStarts t "-isysroot=" = true
  · exact absurd h12 (by simp [hx1])
  rw [if_neg h12]
  by_cases h13 : strStarts t "--sysroot=" = true
  · exact absurd h13 (by simp [hx2])
  rw [if_neg h13]
  by_cases h14 : strStarts t "-resource-dir=" = true
  · exact absurd h14 (by simp [hx3])
  rw [if_neg h14]
  by_cases h15 : strStarts t "-D" = true
  · rw [if_pos h15]
    rw [not_or] at h3
    refine stableChunks_cons_single ?_ rfl
    simp only [singleStable, Bool.and_eq_true]
    refine ⟨⟨⟨⟨⟨⟨⟨⟨by simp [hat], strStarts_trans h15 (by decide)⟩, by simp [h2]⟩,
      by simp [h3.1]⟩, by simp [h3.2]⟩, by simp [h4]⟩, by simp [h5]⟩, by simp [h6]⟩, ?_⟩
    rw [if_neg h7, if_neg h8, if_neg h9, if_neg h10, if_neg h11, if_neg h12,
      if_neg h13, if_neg h14, if_pos h15]
  rw [if_neg h15]
  by_cases h16 : t ∈ PRESERVE_EXACT
  · rw [if_pos h16]
    rw [not_or] at h3
    have hdash : strStarts t "-" = true := preserve_dash t h16
    refine stableChunks_cons_single ?_ rfl
    simp only [singleStable, Bool.and_eq_true]
    refine ⟨⟨⟨⟨⟨⟨⟨⟨by simp [hat], hdash⟩, by simp [h2]⟩,
      by simp [h3.1]⟩, by simp [h3.2]⟩, by simp [h4]⟩, by simp [h5]⟩, by simp [h6]⟩, ?_⟩
    rw [if_neg h7, if_neg h8, if_neg h9, if_neg h10, if_neg h11, if_neg h12,
      if_neg h13, if_neg h14, if_neg h15, if_pos h16]
  rw [if_neg h16]
  by_cases h17 : strStarts t "-O" = true
  · rw [if_pos h17]
    rw [not_or] at h3
    refine stableChunks_cons_single ?_ rfl
    simp only [singleStable, Bool.and_eq_true]
    refine ⟨⟨⟨⟨⟨⟨⟨⟨by simp [hat], strStarts_trans h17 (by decide)⟩, by simp [h2]⟩,
      by simp [h3.1]⟩, by simp [h3.2]⟩, by simp [h4]⟩, by simp [h5]⟩, by simp [h6]⟩, ?_⟩
    rw [if_neg h7, if_neg h8, if_neg h9, if_neg h10, if_neg h11, if_neg h12,
      if_neg h13, if_neg h14, if_neg h15, if_neg h16, h17]
  rw [if_neg h17]
  rfl

/-- The flag outputs of one `sanSingle` step are the input flags OR-ed with
the chunk-flag contributions of what it emits. -/
theorem sanSingle_flags (env : SanEnv) (dir t : String)
    (first sl ss sr : Bool) (e : List String × Bool × Bool × Bool)
    (he : sanSingle env dir t first sl ss sr = e)
    (hx1 : strStarts t "-isysroot=" = false)
    (hx2 : strStarts t "--sysroot=" = false)
    (hx3 : strStarts t "-resource-dir=" = false) :
    e.2 = (sl || (chunkFlags env dir e.1).1,
           ss || (chunkFlags env dir e.1).2.1,
           sr || (chunkFlags env dir e.1).2.2) := by
  rw [sanSingle] at he
  by_cases h1 : first = true ∧ ¬ strStarts t "-" = true ∧ baseName t ∈ COMPILER_BASES
  · rw [if_pos h1] at he
    rw [← he]
    simp [chunkFlags]
  rw [if_neg h1] at he
  by_cases h2 : t ∈ DROP_EXACT
  · rw [if_pos h2] at he
    rw [← he]
    simp [chunkFlags]
  rw [if_neg h2] at he
  by_cases h3 : _is_obj_or_lib t = true ∨ _is_source_file t = true
  · rw [if_pos h3] at he
    rw [← he]
    simp [chunkFlags]
  rw [if_neg h3] at he
  by_cases h4 : dropPrefixHit t = true
  · rw [if_pos h4] at he
    rw [← he]
    simp [chunkFlags]
  rw [if_neg h4] at he
  by_cases h5 : _is_warning_tok t = true
  · rw [if_pos h5] at he
    rw [← he]
    simp [chunkFlags]
  rw [if_neg h5] at he
  by_cases h6 : t ∈ PAIR_FLAGS
  · rw [if_pos h6] at he
    rw [← he]
    simp [chunkFlags]
  rw [if_neg h6] at he
  by_cases h7 : strStarts t "-std=" = true
  · rw [if_pos h7] at he
    rw [← he]
    simp [chunkFlags, h6, isWd_false_of_starts _ h7 (by decide) (by decide), h7,
      starts_disjoint _ "-resource-dir=" h7 (by decide) (by decide)]
  rw [if_neg h7] at he
  have hb7 : strStarts t "-std=" = false := Bool.eq_false_iff.mpr h7
  by_cases h8 : strStarts t "-I" = true ∧ ¬ t = "-I"
  · rw [if_pos h8] at he
    rw [← he]
    by_cases hv : strDropN t 2 = "" <;>
      simp [hv, chunkFlags, show isWdTok "-I" = false from by decide,
        show ("-I" ∈ PAIR_FLAGS) from by decide,
        show strStarts "-I" "-std" = false from by decide]
  rw [if_neg h8] at he
  by_cases h9 : strStarts t "-isystem" = true ∧ ¬ t = "-isystem"
  · rw [if_pos h9] at he
    rw [← he]
    by_cases hv : strDropN t 8 = "" <;>
      simp [hv, chunkFlags, show isWdTok "-isystem" = false from by decide,
        show ("-isystem" ∈ PAIR_FLAGS) from by decide,
        show strStarts "-isystem" "-std" = false from by decide]
  rw [if_neg h9] at he
  by_cases h10 : strStarts t "-iquote" = true ∧ ¬ t = "-iquote"
  · rw [if_pos h10] at he
    rw [← he]
    by_cases hv : strDropN t 7 = "" <;>
      simp [hv, chunkFlags, show isWdTok "-iquote" = false from by decide,
        show ("-iquote" ∈ PAIR_FLAGS) from by decide,
        show strStarts "-iquote" "-std" = false from by decide]
  rw [if_neg h10] at he
  by_cases h11 : strStarts t "-idirafter" = true ∧ ¬ t = "-idirafter"
  · rw [if_pos h11] at he
    rw [← he]
    by_cases hv : strDropN t 10 = "" <;>
      simp [hv, chunkFlags, show isWdTok "-idirafter" = false from by decide,
        show ("-idirafter" ∈ PAIR_FLAGS) from by decide,
        show strStarts "-idirafter" "-std" = false from by decide]
  rw [if_neg h11] at he
  by_cases h12 : strStarts t "-isysroot=" = true
  · exact absurd h12 (by simp [hx1])
  rw [if_neg h12] at he
  by_cases h13 : strStarts t "--sysroot=" = true
  · exact absurd h13 (by simp [hx2])
  rw [if_neg h13] at he
  by_cases h14 : strStarts t "-resource-dir=" = true
  · exact absurd h14 (by simp [hx3])
  rw [if_neg h14] at he
  by_cases h15 : strStarts t "-D" = true
  · rw [if_pos h15] at he
    rw [← he]
    simp [chunkFlags, h6, isWd_false_of_starts _ h15 (by decide) (by decide), hb7, hx3]
  rw [if_neg h15] at he
  by_cases h16 : t ∈ PRESERVE_EXACT
  · rw [if_pos h16] at he
    rw [← he]
    simp [chunkFlags, h6,
      (show ∀ x ∈ PRESERVE_EXACT, isWdTok x = false from by decide) t h16, hb7, hx3]
  rw [if_neg h16] at he
  by_cases h17 : strStarts t "-O" = true
  · rw [if_pos h17] at he
    rw [← he]
    simp [chunkFlags, h6, isWd_false_of_starts _ h17 (by decide) (by decide), hb7, hx3]
  rw [if_neg h17] at he
  rw [← he]
  simp [chunkFlags]

theorem chunkFlags_cons_wd {env : SanEnv} {dir t : String} {l : List String}
    (hwd : isWdTok t = true) :
    chunkFlags env dir (t :: l) = chunkFlags env dir l := by
  rcases l with _ | ⟨v, rest⟩ <;> simp [chunkFlags, hwd]

theorem chunkFlags_cons_pair {env : SanEnv} {dir t : String} {v : String}
    {l : List String} (hp : t ∈ PAIR_FLAGS) :
    chunkFlags env dir (t :: v :: l) =
      ((chunkFlags env dir l).1 || decide (t = "-x"),
       (chunkFlags env dir l).2.1 || strStarts t "-std",
       (chunkFlags env dir l).2.2 || decide (t = "-resource-dir")) := by
  have hwd : isWdTok t = false := (pair_facts hp).2.2.2.2.2.2
  simp [chunkFlags, hwd, hp]

theorem chunkFlags_cons_single {env : SanEnv} {dir t : String} {l : List String}
    (hwd : isWdTok t = false) (hp : t ∉ PAIR_FLAGS) :
    chunkFlags env dir (t :: l) =
      ((chunkFlags env dir l).1,
       (chunkFlags env dir l).2.1 || strStarts t "-std=",
       (chunkFlags env dir l).2.2 || strStarts t "-resource-dir=") := by
  rcases l with _ | ⟨v, rest⟩ <;> simp [chunkFlags, hwd, hp]

theorem stableChunks_append {env : SanEnv} {dir : String} {a b : List String}
    (ha : stableChunks env dir a = true) (hb : stableChunks env dir b = true) :
    stableChunks env dir (a ++ b) = true := by
  have key : ∀ (n : Nat) (a : List String), a.length ≤ n →
      stableChunks env dir a = true → stableChunks env dir (a ++ b) = true := by
    intro n
    induction n with
    | zero =>
      intro a hl _
      have : a = [] := List.length_eq_zero.mp (Nat.le_zero.mp hl)
      subst this
      simpa using hb
    | succ n ih =>
      intro a hl hst
      rcases a with _ | ⟨t, rest⟩
      · simpa using hb
      · rcases rest with _ | ⟨v, rest2⟩
        · rw [stableChunks] at hst
          by_cases hwd : isWdTok t = true
          · exact stableChunks_cons_wd hwd (by simpa using hb)
          · rw [if_neg hwd] at hst
            by_cases hp : t ∈ PAIR_FLAGS
            · rw [if_pos hp] at hst
              simp at hst
            · rw [if_neg hp] at hst
              rw [Bool.and_eq_true] at hst
              exact stableChunks_cons_single hst.1 (by simpa using hb)
        · rw [stableChunks] at hst
          by_cases hwd : isWdTok t = true
          · rw [if_pos hwd] at hst
            exact stableChunks_cons_wd hwd (ih _ (by simp at hl ⊢; omega) hst)
          · rw [if_neg hwd] at hst
            by_cases hp : t ∈ PAIR_FLAGS
            · rw [if_pos hp] at hst
              rw [Bool.and_eq_true] at hst
              exact stableChunks_cons_pair hp hst.1 (ih _ (by simp at hl ⊢; omega) hst.2)
            · rw [if_neg hp] at hst
              rw [Bool.and_eq_true] at hst
              exact stableChunks_cons_single hst.1 (ih _ (by simp at hl ⊢; omega) hst.2)
  exact key a.length a (le_refl _) ha

theorem chunkFlags_append {env : SanEnv} {dir : String} {a : List String}
    (b : List String) (ha : stableChunks env dir a = true) :
    chunkFlags env dir (a ++ b) =
      ((chunkFlags env dir a).1 || (chunkFlags env dir b).1,
       (chunkFlags env dir a).2.1 || (chunkFlags env dir b).2.1,
       (chunkFlags env dir a).2.2 || (chunkFlags env dir b).2.2) := by
  have key : ∀ (n : Nat) (a : List String), a.length ≤ n →
      stableChunks env dir a = true →
      chunkFlags env dir (a ++ b) =
        ((chunkFlags env dir a).1 || (chunkFlags env dir b).1,
         (chunkFlags env dir a).2.1 || (chunkFlags env dir b).2.1,
         (chunkFlags env dir a).2.2 || (chunkFlags env dir b).2.2) := by
    intro n
    induction n with
    | zero =>
      intro a hl _
      have : a = [] := List.length_eq_zero.mp (Nat.le_zero.mp hl)
      subst this
      simp [chunkFlags]
    | succ n ih =>
      intro a hl hst
      rcases a with _ | ⟨t, rest⟩
      · simp [chunkFlags]
      · rcases rest with _ | ⟨v, rest2⟩
        · rw [stableChunks] at hst
          by_cases hwd : isWdTok t = true
          · simp only [List.cons_append, List.nil_append, chunkFlags_cons_wd hwd]
            simp [chunkFlags]
          · rw [if_neg hwd] at hst
            by_cases hp : t ∈ PAIR_FLAGS
            · rw [if_pos hp] at hst
              simp at hst
            · have hwd2 : isWdTok t = false := Bool.eq_false_iff.mpr hwd
              simp only [List.cons_append, List.nil_append,
                chunkFlags_cons_single hwd2 hp]
              simp [chunkFlags, Bool.or_assoc, Bool.or_comm, Bool.or_left_comm]
        · rw [stableChunks] at hst
          by_cases hwd : isWdTok t = true
          · rw [if_pos hwd] at hst
            simp only [List.cons_append, chunkFlags_cons_wd hwd]
            exact ih _ (by simp at hl ⊢; omega) hst
          · rw [if_neg hwd] at hst
            by_cases hp : t ∈ PAIR_FLAGS
            · rw [if_pos hp] at hst
              rw [Bool.and_eq_true] at hst
              simp only [List.cons_append, chunkFlags_cons_pair hp,
                ih _ (by simp at hl ⊢; omega) hst.2]
              simp [Bool.or_assoc, Bool.or_comm, Bool.or_left_comm]
            · rw [if_neg hp] at hst
              rw [Bool.and_eq_true] at hst
              have hwd2 : isWdTok t = false := Bool.eq_false_iff.mpr hwd
              have hih := ih (v :: rest2) (by simp at hl ⊢; omega) hst.2
              rw [show (t :: v :: rest2) ++ b = t :: ((v :: rest2) ++ b) from rfl,
                chunkFlags_cons_single hwd2 hp, hih,
                chunkFlags_cons_single hwd2 hp]
              simp [Bool.or_assoc, Bool.or_comm, Bool.or_left_comm]
  exact key a.length a (le_refl _) ha

/-- On any input whose tokens carry no response-file references and none of
the `=`-joined sysroot / resource-dir spellings, the filtering loop emits a
stable chunk list, and its final flags are the initial flags OR-ed with the
chunk flags of the emission. -/
theorem sanLoop_emission (env : SanEnv) (dir : String)
    (HA : ∀ x, strStarts (env.resolve x) "/" = true ∧
      pathNorm (env.resolve x) = env.resolve x) :
    ∀ (l : List String),
      (∀ t ∈ l, strStarts t "@" = false ∧ strStarts t "-isysroot=" = false ∧
        strStarts t "--sysroot=" = false ∧ strStarts t "-resource-dir=" = false) →
      ∀ (first sl ss sr : Bool),
        stableChunks env dir (sanLoop env dir l first sl ss sr).1 = true ∧
        (sanLoop env dir l first sl ss sr).2 =
          (sl || (chunkFlags env dir (sanLoop env dir l first sl ss sr).1).1,
           ss || (chunkFlags env dir (sanLoop env dir l first sl ss sr).1).2.1,
           sr || (chunkFlags env dir (sanLoop env dir l first sl ss sr).1).2.2) := by
  have key : ∀ (n : Nat) (l : List String), l.length ≤ n →
      (∀ t ∈ l, strStarts t "@" = false ∧ strStarts t "-isysroot=" = false ∧
        strStarts t "--sysroot=" = false ∧ strStarts t "-resource-dir=" = false) →
      ∀ (first sl ss sr : Bool),
        stableChunks env dir (sanLoop env dir l first sl ss sr).1 = true ∧
        (sanLoop env dir l first sl ss sr).2 =
          (sl || (chunkFlags env dir (sanLoop env dir l first sl ss sr).1).1,
           ss || (chunkFlags env dir (sanLoop env dir l first sl ss sr).1).2.1,
           sr || (chunkFlags env dir (sanLoop env dir l first sl ss sr).1).2.2) := by
    intro n
    induction n with
    | zero =>
      intro l hl _ first sl ss sr
      have : l = [] := List.length_eq_zero.mp (Nat.le_zero.mp hl)
      subst this
      rw [sanLoop]
      exact ⟨rfl, by simp [chunkFlags]⟩
    | succ n ih =>
      intro l hl hHC first sl ss sr
      rcases l with _ | ⟨t, rest⟩
      · rw [sanLoop]
        exact ⟨rfl, by simp [chunkFlags]⟩
      · rcases rest with _ | ⟨v, rest2⟩
        · obtain ⟨hat, hx1, hx2, hx3⟩ := hHC t (by simp)
          rw [show sanLoop env dir [t] first sl ss sr =
            sanSingle env dir t first sl ss sr from by rw [sanLoop]]
          exact ⟨sanSingle_emission_stable env dir t first sl ss sr HA hat hx1 hx2 hx3,
            sanSingle_flags env dir t first sl ss sr _ rfl hx1 hx2 hx3⟩
        · have hlen1 : (v :: rest2).length ≤ n := by simp at hl ⊢; omega
          have hlen2 : rest2.length ≤ n := by simp at hl; omega
          have hHC1 : ∀ x ∈ v :: rest2, strStarts x "@" = false ∧
              strStarts x "-isysroot=" = false ∧ strStarts x "--sysroot=" = false ∧
              strStarts x "-resource-dir=" = false :=
            fun x hx => hHC x (List.mem_cons_of_mem _ hx)
          have hHC2 : ∀ x ∈ rest2, strStarts x "@" = false ∧
              strStarts x "-isysroot=" = false ∧ strStarts x "--sysroot=" = false ∧
              strStarts x "-resource-dir=" = false :=
            fun x hx => hHC1 x (List.mem_cons_of_mem _ hx)
          obtain ⟨hat, hx1, hx2, hx3⟩ := hHC t (by simp)
          by_cases hp : t ∈ PAIR_FLAGS
          · obtain ⟨hdd, hdrop, hobj, hsrc, hpref, hwarn, hnw⟩ := pair_facts hp
            rw [sanLoop]
            rw [if_neg (by simp [hdd]), if_neg hdrop,
              if_neg (by simp [hobj, hsrc]), if_neg (by simp [hpref]),
              if_neg (by simp [hwarn]), if_pos hp]
            by_cases hvd : strStarts v "-" = true
            · rw [if_pos hvd]
              exact ih (v :: rest2) hlen1 hHC1 false sl ss sr
            · rw [if_neg hvd]
              by_cases hout : t ∈ OUT_FLAGS
              · rw [if_pos hout]
                exact ih rest2 hlen2 hHC2 false sl ss sr
              · rw [if_neg hout]
                have hvd2 : strStarts v "-" = false := Bool.eq_false_iff.mpr hvd
                have hrec := ih rest2 hlen2 hHC2 false (sl || decide (t = "-x"))
                  (ss || strStarts t "-std") (sr || decide (t = "-resource-dir"))
                have hpOk : pairChunkOk env dir t
                    (if t ∈ PATH_PAIR_FLAGS then _abspath env v dir else v) = true := by
                  simp only [pairChunkOk, Bool.and_eq_true]
                  by_cases hpp : t ∈ PATH_PAIR_FLAGS
                  · rw [if_pos hpp]
                    exact ⟨⟨⟨by simp [slash_not_dash (abspath_abs env dir v HA).1],
                      by simp [slash_not_at (abspath_abs env dir v HA).1]⟩,
                      by simp [hout]⟩, by simp [abspath_idem env dir v HA]⟩
                  · rw [if_neg hpp]
                    exact ⟨⟨⟨by simp [hvd2], by simp [(hHC1 v (by simp)).1]⟩,
                      by simp [hout]⟩, by simp [hpp]⟩
                refine ⟨?_, ?_⟩
                · show stableChunks env dir
                    (t :: (if t ∈ PATH_PAIR_FLAGS then _abspath env v dir else v) ::
                      (sanLoop env dir rest2 false (sl || decide (t = "-x"))
                        (ss || strStarts t "-std")
                        (sr || decide (t = "-resource-dir"))).1) = true
                  exact stableChunks_cons_pair hp hpOk hrec.1
                · show (sanLoop env dir rest2 false (sl || decide (t = "-x"))
                      (ss || strStarts t "-std")
                      (sr || decide (t = "-resource-dir"))).2 =
                    (sl || (chunkFlags env dir
                      (t :: (if t ∈ PATH_PAIR_FLAGS then _abspath env v dir else v) ::
                        (sanLoop env dir rest2 false (sl || decide (t = "-x"))
                          (ss || strStarts t "-std")
                          (sr || decide (t = "-resource-dir"))).1)).1,
                     ss || (chunkFlags env dir
                      (t :: (if t ∈ PATH_PAIR_FLAGS then _abspath env v dir else v) ::
                        (sanLoop env dir rest2 false (sl || decide (t = "-x"))
                          (ss || strStarts t "-std")
                          (sr || decide (t = "-resource-dir"))).1)).2.1,
                     sr || (chunkFlags env dir
                      (t :: (if t ∈ PATH_PAIR_FLAGS then _abspath env v dir else v) ::
                        (sanLoop env dir rest2 false (sl || decide (t = "-x"))
                          (ss || strStarts t "-std")
                          (sr || decide (t = "-resource-dir"))).1)).2.2)
                  rw [hrec.2, chunkFlags_cons_pair hp]
                  simp [Bool.or_assoc, Bool.or_comm, Bool.or_left_comm]
          · have hes := sanSingle_emission_stable env dir t first sl ss sr HA hat hx1 hx2 hx3
            have hef := sanSingle_flags env dir t first sl ss sr _ rfl hx1 hx2 hx3
            rw [sanLoop_cons_eq env dir t v rest2 first sl ss sr _ rfl hp]
            have hrec := ih (v :: rest2) hlen1 hHC1 false
              (sanSingle env dir t first sl ss sr).2.1
              (sanSingle env dir t first sl ss sr).2.2.1
              (sanSingle env dir t first sl ss sr).2.2.2
            refine ⟨stableChunks_append hes hrec.1, ?_⟩
            rw [hrec.2, chunkFlags_append _ hes, hef]
            simp [Bool.or_assoc]
  intro l hHC first sl ss sr
  exact key l.length l (le_refl _) hHC first sl ss sr

theorem notdash_not_I {v : String} (h : strStarts v "-" = false) :
    strStarts v "-I" = false := by
  rw [Bool.eq_false_iff]
  intro hI
  rw [strStarts_trans hI (by decide)] at h
  exact Bool.true_eq_false ▸ h

theorem mem_F_dash : ∀ x ∈ (["-I", "-isystem", "-iquote", "-idirafter"] : List String),
    strStarts x "-" = true := by decide

theorem F_sub_pair : ∀ x ∈ (["-I", "-isystem", "-iquote", "-idirafter"] : List String),
    x ∈ PAIR_FLAGS := by decide

/-- A stable single token never looks like an `-I` form. -/
theorem singleScanFacts {env : SanEnv} {dir t : String}
    (hs : singleStable env dir t = true) :
    strStarts t "-I" = false ∧
      t ∉ (["-I", "-isystem", "-iquote", "-idirafter"] : List String) := by
  simp only [singleStable, Bool.and_eq_true] at hs
  obtain ⟨⟨⟨⟨⟨⟨⟨⟨hat, hd⟩, hdrop⟩, hobj⟩, hsrc⟩, hpref⟩, hwarn⟩, hpair⟩, hcas⟩ := hs
  have hpair2 : t ∉ PAIR_FLAGS := of_decide_eq_true hpair
  constructor
  · rw [Bool.eq_false_iff]
    intro hI
    have hne : ¬ t = "-I" := fun he => hpair2 (he ▸ (by decide : "-I" ∈ PAIR_FLAGS))
    rw [if_neg (by simp [starts_disjoint _ "-std=" hI (by decide) (by decide)]),
      if_pos ⟨hI, hne⟩] at hcas
    exact absurd hcas (by simp)
  · intro hm
    exact hpair2 (F_sub_pair t hm)

theorem wd_not_I {t : String} (h : isWdTok t = true) :
    strStarts t "-I" = false ∧
      t ∉ (["-I", "-isystem", "-iquote", "-idirafter"] : List String) := by
  refine ⟨(wd_facts h).2.2.2.2.2.2.1, ?_⟩
  intro hm
  exact (wd_facts h).2.2.2.2.1 (F_sub_pair t hm)

/-- Generic argument-scanner: a positional `or` of hits, each hit looking at
a token and at most the next one. A hit in the scanned list survives
appending on the right. -/
theorem scan_append_right (f : List String → Bool) (g : String → Option String → Bool)
    (hf0 : f [] = false)
    (hfc : ∀ a l, f (a :: l) = (g a l.head? || f l))
    (hg : ∀ a b, g a none = true → g a (some b) = true) :
    ∀ (l m : List String), f l = true → f (l ++ m) = true := by
  intro l
  induction l with
  | nil =>
    intro m h
    rw [hf0] at h
    exact absurd h (by simp)
  | cons a l2 ih =>
    intro m h
    rw [hfc] at h
    rw [show (a :: l2) ++ m = a :: (l2 ++ m) from rfl, hfc]
    rcases Bool.or_eq_true_iff.mp h with hl | hr
    · rcases l2 with _ | ⟨b, l3⟩
      · rcases m with _ | ⟨c, m2⟩
        · exact Bool.or_eq_true_iff.mpr (Or.inl hl)
        · exact Bool.or_eq_true_iff.mpr (Or.inl (hg a c hl))
      · exact Bool.or_eq_true_iff.mpr (Or.inl hl)
    · exact Bool.or_eq_true_iff.mpr (Or.inr (ih m hr))

/-- A hit survives prepending arbitrary tokens. -/
theorem scan_append_left (f : List String → Bool) (g : String → Option String → Bool)
    (hfc : ∀ a l, f (a :: l) = (g a l.head? || f l)) :
    ∀ (l m : List String), f m = true → f (l ++ m) = true := by
  intro l
  induction l with
  | nil => intro m h; simpa using h
  | cons a l2 ih =>
    intro m h
    rw [show (a :: l2) ++ m = a :: (l2 ++ m) from rfl, hfc]
    exact Bool.or_eq_true_iff.mpr (Or.inr (ih m h))

/-- On a stable chunk list, only pair chunks can produce hits, and dropping
the `-working-directory` tokens changes no hit. -/
theorem scan_filter_eq (env : SanEnv) (dir : String)
    (f : List String → Bool) (g : String → Option String → Bool)
    (hfc : ∀ a l, f (a :: l) = (g a l.head? || f l))
    (hwd_g : ∀ t, isWdTok t = true → ∀ ob, g t ob = false)
    (hval_g : ∀ v, strStarts v "-" = false → ∀ ob, g v ob = false)
    (hsingle_g : ∀ t, singleStable env dir t = true → ∀ ob, g t ob = false) :
    ∀ (l : List String), stableChunks env dir l = true →
      f (l.filter (fun t => !isWdTok t)) = f l := by
  have key : ∀ (n : Nat) (l : List String), l.length ≤ n →
      stableChunks env dir l = true →
      f (l.filter (fun t => !isWdTok t)) = f l := by
    intro n
    induction n with
    | zero =>
      intro l hl _
      have : l = [] := List.length_eq_zero.mp (Nat.le_zero.mp hl)
      subst this
      rfl
    | succ n ih =>
      intro l hl hst
      rcases l with _ | ⟨t, rest⟩
      · rfl
      · rcases rest with _ | ⟨v, rest2⟩
        · rw [stableChunks] at hst
          by_cases hwd : isWdTok t = true
          · have hfil : List.filter (fun x => !isWdTok x) [t] = [] := by simp [hwd]
            rw [hfil, hfc t [], hwd_g t hwd]
            simp
          · rw [if_neg hwd] at hst
            by_cases hp : t ∈ PAIR_FLAGS
            · rw [if_pos hp] at hst
              simp at hst
            · have hfil : List.filter (fun x => !isWdTok x) [t] = [t] := by
                simp [Bool.eq_false_iff.mpr hwd]
              rw [hfil]
        · rw [stableChunks] at hst
          by_cases hwd : isWdTok t = true
          · rw [if_pos hwd] at hst
            have hfil : List.filter (fun x => !isWdTok x) (t :: v :: rest2) =
                List.filter (fun x => !isWdTok x) (v :: rest2) := by
              simp [List.filter_cons, hwd]
            rw [hfil, ih (v :: rest2) (by simp at hl ⊢; omega) hst,
              hfc t (v :: rest2), hwd_g t hwd]
            simp
          · rw [if_neg hwd] at hst
            by_cases hp : t ∈ PAIR_FLAGS
            · rw [if_pos hp] at hst
              rw [Bool.and_eq_true] at hst
              obtain ⟨hpo, hrest⟩ := hst
              simp only [pairChunkOk, Bool.and_eq_true] at hpo
              obtain ⟨⟨⟨hvdash, hvat⟩, hout⟩, hpath⟩ := hpo
              rw [Bool.not_eq_true'] at hvdash
              have hvw : isWdTok v = false := isWd_false_of_not_dash hvdash
              have hfil : List.filter (fun x => !isWdTok x) (t :: v :: rest2) =
                  t :: v :: List.filter (fun x => !isWdTok x) rest2 := by
                simp [List.filter_cons, Bool.eq_false_iff.mpr hwd, hvw]
              rw [hfil, hfc t (v :: List.filter (fun x => !isWdTok x) rest2),
                hfc t (v :: rest2),
                hfc v (List.filter (fun x => !isWdTok x) rest2), hfc v rest2,
                ih rest2 (by simp at hl ⊢; omega) hrest]
              simp [hval_g v hvdash]
            · rw [if_neg hp] at hst
              rw [Bool.and_eq_true] at hst
              obtain ⟨hss, hrest⟩ := hst
              have hnw : isWdTok t = false := singleStable_not_wd hss
              have hfil : List.filter (fun x => !isWdTok x) (t :: v :: rest2) =
                  t :: List.filter (fun x => !isWdTok x) (v :: rest2) := by
                simp [List.filter_cons, hnw]
              rw [hfil, hfc t (List.filter (fun x => !isWdTok x) (v :: rest2)),
                hfc t (v :: rest2),
                ih (v :: rest2) (by simp at hl ⊢; omega) hrest]
              simp [hsingle_g t hss]
  intro l hst
  exact key l.length l (le_refl _) hst

theorem iap_append_right (p : String) (l m : List String) (h : iapScan p l = true) :
    iapScan p (l ++ m) = true := by
  refine scan_append_right (iapScan p)
    (fun a ob => if a = "-I" then
        (match ob with | some b => (b = p : Bool) | none => false)
      else strStarts a "-I" && strDropN a 2 = p) rfl
    (fun a l => by rcases l with _ | ⟨b, l2⟩ <;> rfl) ?_ l m h
  intro a b hab
  by_cases ha : a = "-I"
  · subst ha
    simp at hab
  · simpa [ha] using hab

theorem iap_append_left (p : String) (l m : List String) (h : iapScan p m = true) :
    iapScan p (l ++ m) = true :=
  scan_append_left (iapScan p)
    (fun a ob => if a = "-I" then
        (match ob with | some b => (b = p : Bool) | none => false)
      else strStarts a "-I" && strDropN a 2 = p)
    (fun a l => by rcases l with _ | ⟨b, l2⟩ <;> rfl) l m h

theorem iap_filter (env : SanEnv) (dir p : String) (l : List String)
    (hst : stableChunks env dir l = true) :
    iapScan p (l.filter (fun t => !isWdTok t)) = iapScan p l := by
  refine scan_filter_eq env dir (iapScan p)
    (fun a ob => if a = "-I" then
        (match ob with | some b => (b = p : Bool) | none => false)
      else strStarts a "-I" && strDropN a 2 = p)
    (fun a l => by rcases l with _ | ⟨b, l2⟩ <;> rfl) ?_ ?_ ?_ l hst
  · intro t ht ob
    have hI := (wd_not_I ht).1
    have hne : ¬ t = "-I" := fun he => by
      rw [he, starts_refl] at hI
      exact absurd hI (by simp)
    simp [hne, hI]
  · intro v hv ob
    have hI := notdash_not_I hv
    have hne : ¬ v = "-I" := fun he => absurd (he ▸ hv) (by decide)
    simp [hne, hI]
  · intro t ht ob
    have hI := (singleScanFacts ht).1
    have hne : ¬ t = "-I" := fun he => (singleScanFacts ht).2 (by rw [he]; decide)
    simp [hne, hI]

theorem iap_append_pair (p : String) (l : List String) :
    iapScan p (l ++ ["-I", p]) = true :=
  iap_append_left p l ["-I", p] (by simp [iapScan])

theorem hsi_append_right (env : SanEnv) (q : String) (l m : List String)
    (h : hsiScan env q l = true) : hsiScan env q (l ++ m) = true := by
  refine scan_append_right (hsiScan env q)
    (fun a ob => (a ∈ (["-I", "-isystem", "-iquote", "-idirafter"] : List String) &&
        (match ob with | some b => (env.resolve b = q : Bool) | none => false)) ||
      (strStarts a "-I" && a ≠ "-I" && env.resolve (strDropN a 2) = q)) rfl
    (fun a l => by rcases l with _ | ⟨b, l2⟩ <;> rfl) ?_ l m h
  intro a b hab
  simp only [Bool.and_false, Bool.false_or] at hab
  exact Bool.or_eq_true_iff.mpr (Or.inr hab)

theorem hsi_append_left (env : SanEnv) (q : String) (l m : List String)
    (h : hsiScan env q m = true) : hsiScan env q (l ++ m) = true :=
  scan_append_left (hsiScan env q)
    (fun a ob => (a ∈ (["-I", "-isystem", "-iquote", "-idirafter"] : List String) &&
        (match ob with | some b => (env.resolve b = q : Bool) | none => false)) ||
      (strStarts a "-I" && a ≠ "-I" && env.resolve (strDropN a 2) = q))
    (fun a l => by rcases l with _ | ⟨b, l2⟩ <;> rfl) l m h

theorem hsi_filter (env : SanEnv) (dir q : String) (l : List String)
    (hst : stableChunks env dir l = true) :
    hsiScan env q (l.filter (fun t => !isWdTok t)) = hsiScan env q l := by
  refine scan_filter_eq env dir (hsiScan env q)
    (fun a ob => (a ∈ (["-I", "-isystem", "-iquote", "-idirafter"] : List String) &&
        (match ob with | some b => (env.resolve b = q : Bool) | none => false)) ||
      (strStarts a "-I" && a ≠ "-I" && env.resolve (strDropN a 2) = q))
    (fun a l => by rcases l with _ | ⟨b, l2⟩ <;> rfl) ?_ ?_ ?_ l hst
  · intro t ht ob
    simp [(wd_not_I ht).1, (wd_not_I ht).2]
  · intro v hv ob
    have hmem : v ∉ (["-I", "-isystem", "-iquote", "-idirafter"] : List String) :=
      fun hm => by
        rw [mem_F_dash v hm] at hv
        exact absurd hv (by simp)
    simp [notdash_not_I hv, hmem]
  · intro t ht ob
    simp [(singleScanFacts ht).1, (singleScanFacts ht).2]

theorem hsi_append_pair (env : SanEnv) (q : String) (l : List String) :
    hsiScan env (env.resolve q) (l ++ ["-I", q]) = true :=
  hsi_append_left env (env.resolve q) l ["-I", q] (by simp [hsiScan])

theorem hap_append_right (env : SanEnv) (l m : List String)
    (h : hapScan env l = true) : hapScan env (l ++ m) = true := by
  refine scan_append_right (hapScan env)
    (fun a ob => (a ∈ (["-I", "-isystem", "-iquote", "-idirafter"] : List String) &&
        (match ob with
         | some b => (!strStarts b "-" && env.resolve b ∉ SYS_PATHS : Bool)
         | none => false)) ||
      (strStarts a "-I" && a ≠ "-I" && env.resolve (strDropN a 2) ∉ SYS_PATHS)) rfl
    (fun a l => by rcases l with _ | ⟨b, l2⟩ <;> rfl) ?_ l m h
  intro a b hab
  simp only [Bool.and_false, Bool.false_or] at hab
  exact Bool.or_eq_true_iff.mpr (Or.inr hab)

theorem hap_append_left (env : SanEnv) (l m : List String)
    (h : hapScan env m = true) : hapScan env (l ++ m) = true :=
  scan_append_left (hapScan env)
    (fun a ob => (a ∈ (["-I", "-isystem", "-iquote", "-idirafter"] : List String) &&
        (match ob with
         | some b => (!strStarts b "-" && env.resolve b ∉ SYS_PATHS : Bool)
         | none => false)) ||
      (strStarts a "-I" && a ≠ "-I" && env.resolve (strDropN a 2) ∉ SYS_PATHS))
    (fun a l => by rcases l with _ | ⟨b, l2⟩ <;> rfl) l m h

theorem hap_filter (env : SanEnv) (dir : String) (l : List String)
    (hst : stableChunks env dir l = true) :
    hapScan env (l.filter (fun t => !isWdTok t)) = hapScan env l := by
  refine scan_filter_eq env dir (hapScan env)
    (fun a ob => (a ∈ (["-I", "-isystem", "-iquote", "-idirafter"] : List String) &&
        (match ob with
         | some b => (!strStarts b "-" && env.resolve b ∉ SYS_PATHS : Bool)
         | none => false)) ||
      (strStarts a "-I" && a ≠ "-I" && env.resolve (strDropN a 2) ∉ SYS_PATHS))
    (fun a l => by rcases l with _ | ⟨b, l2⟩ <;> rfl) ?_ ?_ ?_ l hst
  · intro t ht ob
    simp [(wd_not_I ht).1, (wd_not_I ht).2]
  · intro v hv ob
    have hmem : v ∉ (["-I", "-isystem", "-iquote", "-idirafter"] : List String) :=
      fun hm => by
        rw [mem_F_dash v hm] at hv
        exact absurd hv (by simp)
    simp [notdash_not_I hv, hmem]
  · intro t ht ob
    simp [(singleScanFacts ht).1, (singleScanFacts ht).2]

theorem expandResp_id (env : SanEnv) (l : List String)
    (h : ∀ t ∈ l, strStarts t "@" = false) : expandResp env l = l := by
  induction l with
  | nil => rfl
  | cons a l2 ih =>
    rw [expandResp, List.map_cons, List.flatten_cons, if_neg (by simp [h a (by simp)])]
    rw [expandResp] at ih
    rw [ih (fun t ht => h t (List.mem_cons_of_mem _ ht))]
    rfl

/-- Tokens of a stable chunk list never name response files. -/
theorem stable_no_at (env : SanEnv) (dir : String) :
    ∀ (l : List String), stableChunks env dir l = true →
      ∀ t ∈ l, strStarts t "@" = false := by
  have key : ∀ (n : Nat) (l : List String), l.length ≤ n →
      stableChunks env dir l = true → ∀ t ∈ l, strStarts t "@" = false := by
    intro n
    induction n with
    | zero =>
      intro l hl _
      have : l = [] := List.length_eq_zero.mp (Nat.le_zero.mp hl)
      subst this
      intro t ht
      exact absurd ht (by simp)
    | succ n ih =>
      intro l hl hst
      rcases l with _ | ⟨t, rest⟩
      · intro t ht
        exact absurd ht (by simp)
      · have hmem : ∀ x, x ∈ rest → x ∈ t :: rest := fun x hx => List.mem_cons_of_mem _ hx
        rcases rest with _ | ⟨v, rest2⟩
        · rw [stableChunks] at hst
          intro x hx
          rcases List.mem_cons.mp hx with he | he
          · subst he
            by_cases hwd : isWdTok x = true
            · exact starts_disjoint _ _ (isWdTok_starts hwd) (by decide) (by decide)
            · rw [if_neg hwd] at hst
              by_cases hp : x ∈ PAIR_FLAGS
              · rw [if_pos hp] at hst
                simp at hst
              · rw [if_neg hp] at hst
                rw [Bool.and_eq_true] at hst
                have := hst.1
                simp only [singleStable, Bool.and_eq_true] at this
                simpa using this.1.1.1.1.1.1.1.1
          · exact absurd he (by simp)
        · rw [stableChunks] at hst
          by_cases hwd : isWdTok t = true
          · rw [if_pos hwd] at hst
            intro x hx
            rcases List.mem_cons.mp hx with he | he
            · subst he
              exact starts_disjoint _ _ (isWdTok_starts hwd) (by decide) (by decide)
            · exact ih (v :: rest2) (by simp at hl ⊢; omega) hst x he
          · rw [if_neg hwd] at hst
            by_cases hp : t ∈ PAIR_FLAGS
            · rw [if_pos hp] at hst
              rw [Bool.and_eq_true] at hst
              obtain ⟨hpo, hrest⟩ := hst
              simp only [pairChunkOk, Bool.and_eq_true] at hpo
              intro x hx
              rcases List.mem_cons.mp hx with he | he
              · subst he
                exact starts_disjoint _ _ (pair_facts hp).1 (by decide) (by decide)
              · rcases List.mem_cons.mp he with he2 | he2
                · subst he2
                  simpa using hpo.1.1.2
                · exact ih rest2 (by simp at hl ⊢; omega) hrest x he2
            · rw [if_neg hp] at hst
              rw [Bool.and_eq_true] at hst
              obtain ⟨hss, hrest⟩ := hst
              intro x hx
              rcases List.mem_cons.mp hx with he | he
              · subst he
                have := hss
                simp only [singleStable, Bool.and_eq_true] at this
                simpa using this.1.1.1.1.1.1.1.1
              · exact ih (v :: rest2) (by simp at hl ⊢; omega) hrest x he
  exact fun l => key l.length l (le_refl _)

theorem filter_any_wd (l : List String) :
    (l.filter (fun t => !isWdTok t)).any isWdTok = false := by
  rw [List.any_eq_false]
  intro x hx
  have := (List.mem_filter.mp hx).2
  simpa using this

theorem wd_token_isWd (dir : String) :
    isWdTok ("-working-directory=" ++ pathNorm dir) = true := by
  rw [isWdTok, starts_append]
  simp

theorem sanRes_none (env : SanEnv) (b : Bool) (l : List String)
    (HB : pickResource env = none) : sanRes env b l = l := by
  rcases b <;> simp [sanRes, HB]

theorem stable_lang (env : SanEnv) (dir src : String) :
    stableChunks env dir (langPrefixFor src) = true := by
  rw [langPrefixFor]
  split_ifs <;> rfl

theorem cf_lang_one (env : SanEnv) (dir src : String) :
    (chunkFlags env dir (langPrefixFor src)).1 = true := by
  rw [langPrefixFor]
  split_ifs <;> rfl

theorem ne_empty_of_slash {s : String} (h : strStarts s "/" = true) : ¬ s = "" :=
  fun he => absurd (he ▸ h) (by decide)

theorem stable_wd_chunk (env : SanEnv) (dir : String) :
    stableChunks env dir ["-working-directory=" ++ pathNorm dir] = true :=
  stableChunks_cons_wd (wd_token_isWd dir) rfl

theorem pairOk_resolve (env : SanEnv) (dir x : String)
    (HA : ∀ x, strStarts (env.resolve x) "/" = true ∧
      pathNorm (env.resolve x) = env.resolve x) :
    pairChunkOk env dir "-I" (env.resolve x) = true := by
  simp only [pairChunkOk, Bool.and_eq_true]
  refine ⟨⟨⟨by simp [slash_not_dash (HA x).1], by simp [slash_not_at (HA x).1]⟩,
    by decide⟩, ?_⟩
  have : _abspath env (env.resolve x) dir = env.resolve x := by
    rw [_abspath, if_pos (HA x).1, (HA x).2]
  simp [this]

theorem stable_pair_resolve (env : SanEnv) (dir x : String)
    (HA : ∀ x, strStarts (env.resolve x) "/" = true ∧
      pathNorm (env.resolve x) = env.resolve x) :
    stableChunks env dir ["-I", env.resolve x] = true :=
  stableChunks_cons_pair (by decide) (pairOk_resolve env dir x HA) rfl

theorem stable_pair_usr (env : SanEnv) (dir : String) :
    stableChunks env dir ["-I", "/usr/include"] = true := by rfl

theorem stable_pair_multi (env : SanEnv) (dir : String) :
    stableChunks env dir ["-I", MULTIARCH] = true := by rfl

theorem cf_pair_I (env : SanEnv) (dir : String) (x : String) :
    chunkFlags env dir ["-I", x] = (false, false, false) := by
  rw [chunkFlags_cons_pair (by decide)]
  rfl

theorem cf_wd_chunk (env : SanEnv) (dir : String) :
    chunkFlags env dir ["-working-directory=" ++ pathNorm dir] = (false, false, false) := by
  rw [chunkFlags_cons_wd (wd_token_isWd dir)]
  rfl

theorem include_present_true {l : List String} {p : String}
    (hne : ¬ p = "") (hs : iapScan p l = true) :
    _include_already_present l p = true := by
  rw [_include_already_present, if_neg hne]
  exact hs

theorem include_present_elim {l : List String} {p : String}
    (h : _include_already_present l p = true) :
    ¬ p = "" ∧ iapScan p l = true := by
  rw [_include_already_present] at h
  by_cases hne : p = ""
  · rw [if_pos hne] at h
    exact absurd h (by simp)
  · rw [if_neg hne] at h
    exact ⟨hne, h⟩

/-- Running the sanitizer on a stable chunk list that already carries the
include guarantees and an `-x` pair: everything is kept verbatim except
that the `-working-directory` tokens are dropped and a single fresh
`-working-directory=` token is appended at the end. -/
theorem sanitize_stable_run (env : SanEnv) (src dir : String) (X : List String)
    (HB : pickResource env = none)
    (hstX : stableChunks env dir X = true)
    (P1 : env.resolve (parentOf src) = env.resolve dir ∨
      _include_already_present X (env.resolve (parentOf src)) = true)
    (P2 : hsiScan env (env.resolve "/usr/include") X = true)
    (P3 : env.multiarchIsDir = true → hsiScan env (env.resolve MULTIARCH) X = true)
    (P4 : env.addDefaults = true → hapScan env X = false →
      _include_already_present X (env.resolve dir) = true ∧
      _include_already_present X (env.resolve (parentOf src)) = true)
    (P5 : (chunkFlags env dir X).1 = true) :
    _sanitize_clang_args_for_libclang env X src dir =
      X.filter (fun t => !isWdTok t) ++ ["-working-directory=" ++ pathNorm dir] := by
  have hexp : expandResp env X = X := expandResp_id env X (stable_no_at env dir X hstX)
  have hloop := sanLoop_stable env dir X hstX true false false false
  have hincl : ∀ p, _include_already_present X p = true →
      _include_already_present (X.filter (fun t => !isWdTok t) ++
        ["-working-directory=" ++ pathNorm dir]) p = true := by
    intro p hp
    obtain ⟨hne, hscan⟩ := include_present_elim hp
    refine include_present_true hne (iap_append_right p _ _ ?_)
    rw [iap_filter env dir p X hstX]
    exact hscan
  have hsit : ∀ q, hsiScan env q X = true →
      hsiScan env q (X.filter (fun t => !isWdTok t) ++
        ["-working-directory=" ++ pathNorm dir]) = true := by
    intro q hq
    refine hsi_append_right env q _ _ ?_
    rw [hsi_filter env dir q X hstX]
    exact hq
  have h1 : sanWd dir (List.filter (fun t => !isWdTok t) X) =
      List.filter (fun t => !isWdTok t) X ++
        ["-working-directory=" ++ pathNorm dir] := by
    rw [sanWd, if_neg]
    rw [filter_any_wd]
    simp
  have h2 : sanSrcI env src dir (List.filter (fun t => !isWdTok t) X ++
      ["-working-directory=" ++ pathNorm dir]) =
      List.filter (fun t => !isWdTok t) X ++
        ["-working-directory=" ++ pathNorm dir] := by
    have hcond : ¬(env.resolve (parentOf src) ≠ env.resolve dir ∧
        ¬ _include_already_present (List.filter (fun t => !isWdTok t) X ++
          ["-working-directory=" ++ pathNorm dir])
            (env.resolve (parentOf src)) = true) := by
      rcases P1 with hP | hP
      · exact fun hc => hc.1 hP
      · exact fun hc => hc.2 (hincl _ hP)
    simp only [sanSrcI]
    rw [if_neg hcond]
  have h3 : sanUsr env (List.filter (fun t => !isWdTok t) X ++
      ["-working-directory=" ++ pathNorm dir]) =
      List.filter (fun t => !isWdTok t) X ++
        ["-working-directory=" ++ pathNorm dir] := by
    have hss : _has_sys_include env (List.filter (fun t => !isWdTok t) X ++
        ["-working-directory=" ++ pathNorm dir]) "/usr/include" = true := by
      rw [_has_sys_include]
      exact hsit _ P2
    rw [sanUsr, if_neg (by simp [hss])]
  have h4 : sanMulti env (List.filter (fun t => !isWdTok t) X ++
      ["-working-directory=" ++ pathNorm dir]) =
      List.filter (fun t => !isWdTok t) X ++
        ["-working-directory=" ++ pathNorm dir] := by
    rw [sanMulti, if_neg]
    intro hc
    have hss : _has_sys_include env (List.filter (fun t => !isWdTok t) X ++
        ["-working-directory=" ++ pathNorm dir]) MULTIARCH = true := by
      rw [_has_sys_include]
      exact hsit _ (P3 hc.1)
    exact hc.2 hss
  have h5 : sanDefaults env src dir (List.filter (fun t => !isWdTok t) X ++
      ["-working-directory=" ++ pathNorm dir]) =
      List.filter (fun t => !isWdTok t) X ++
        ["-working-directory=" ++ pathNorm dir] := by
    by_cases hcond : env.addDefaults = true ∧
        _has_any_project_includes env (List.filter (fun t => !isWdTok t) X ++
          ["-working-directory=" ++ pathNorm dir]) = false
    · have hapX : hapScan env X = false := by
        by_cases hX : hapScan env X = true
        · have : hapScan env (List.filter (fun t => !isWdTok t) X ++
              ["-working-directory=" ++ pathNorm dir]) = true := by
            refine hap_append_right env _ _ ?_
            rw [hap_filter env dir X hstX]
            exact hX
          rw [_has_any_project_includes] at hcond
          rw [this] at hcond
          exact absurd hcond.2 (by simp)
        · exact Bool.eq_false_iff.mpr hX
      obtain ⟨hied, hisd⟩ := P4 hcond.1 hapX
      have hced : ¬(env.resolve dir ≠ "" ∧
          ¬ _include_already_present (List.filter (fun t => !isWdTok t) X ++
            ["-working-directory=" ++ pathNorm dir]) (env.resolve dir) = true) :=
        fun hc => hc.2 (hincl _ hied)
      have hcsd : ¬(env.resolve (parentOf src) ≠ "" ∧
          ¬ _include_already_present (List.filter (fun t => !isWdTok t) X ++
            ["-working-directory=" ++ pathNorm dir])
              (env.resolve (parentOf src)) = true) :=
        fun hc => hc.2 (hincl _ hisd)
      simp only [sanDefaults]
      rw [if_pos hcond, if_neg hced, if_neg hcsd]
    · simp only [sanDefaults]
      rw [if_neg hcond]
  rw [_sanitize_clang_args_for_libclang, hexp, hloop]
  simp only [Bool.false_or]
  rw [h1, h2, h3, h4, sanRes_none env _ _ HB, h5, sanLang, if_neg (by simp [P5])]

/-- The first sanitizer run produces a stable chunk list that already
carries its include guarantees and an `-x` pair. -/
theorem sanitize_post (env : SanEnv) (src dir : String) (raw : List String)
    (HA : ∀ x, strStarts (env.resolve x) "/" = true ∧
      pathNorm (env.resolve x) = env.resolve x)
    (HB : pickResource env = none)
    (HC : ∀ t ∈ expandResp env raw, strStarts t "@" = false ∧
      strStarts t "-isysroot=" = false ∧ strStarts t "--sysroot=" = false ∧
      strStarts t "-resource-dir=" = false) :
    stableChunks env dir (_sanitize_clang_args_for_libclang env raw src dir) = true ∧
    (env.resolve (parentOf src) = env.resolve dir ∨
      _include_already_present (_sanitize_clang_args_for_libclang env raw src dir)
        (env.resolve (parentOf src)) = true) ∧
    hsiScan env (env.resolve "/usr/include")
      (_sanitize_clang_args_for_libclang env raw src dir) = true ∧
    (env.multiarchIsDir = true →
      hsiScan env (env.resolve MULTIARCH)
        (_sanitize_clang_args_for_libclang env raw src dir) = true) ∧
    (env.addDefaults = true →
      hapScan env (_sanitize_clang_args_for_libclang env raw src dir) = false →
      _include_already_present (_sanitize_clang_args_for_libclang env raw src dir)
        (env.resolve dir) = true ∧
      _include_already_present (_sanitize_clang_args_for_libclang env raw src dir)
        (env.resolve (parentOf src)) = true) ∧
    (chunkFlags env dir (_sanitize_clang_args_for_libclang env raw src dir)).1 = true := by
  have hincl_app : ∀ (p : String) (l m : List String),
      _include_already_present l p = true →
      _include_already_present (l ++ m) p = true := by
    intro p l m h
    obtain ⟨hne, hs⟩ := include_present_elim h
    exact include_present_true hne (iap_append_right p l m hs)
  have hincl_pre : ∀ (p : String) (l m : List String),
      _include_already_present m p = true →
      _include_already_present (l ++ m) p = true := by
    intro p l m h
    obtain ⟨hne, hs⟩ := include_present_elim h
    exact include_present_true hne (iap_append_left p l m hs)
  have hem := sanLoop_emission env dir HA (expandResp env raw) HC true false false false
  rcases hR : sanLoop env dir (expandResp env raw) true false false false with ⟨L, c1, c2, c3⟩
  have hst0 : stableChunks env dir L = true := by
    have := hem.1
    rw [hR] at this
    exact this
  have h2 := hem.2
  rw [hR] at h2
  have hfc1 : c1 = (chunkFlags env dir L).1 := by
    have := congrArg (fun p => p.1) h2
    simpa using this
  have hyeq : _sanitize_clang_args_for_libclang env raw src dir =
      sanLang c1 src
        (sanDefaults env src dir
          (sanRes env c3
            (sanMulti env
              (sanUsr env
                (sanSrcI env src dir
                  (sanWd dir L)))))) := by
    rw [_sanitize_clang_args_for_libclang, hR]
  -- step 1: sanWd
  have hw1 : ∃ m1, sanWd dir L = L ++ m1 ∧ stableChunks env dir m1 = true ∧
      (chunkFlags env dir m1).1 = false := by
    rw [sanWd]
    by_cases ha : L.any isWdTok = true
    · rw [if_pos ha]
      exact ⟨[], by simp, rfl, rfl⟩
    · rw [if_neg ha]
      exact ⟨["-working-directory=" ++ pathNorm dir], rfl, stable_wd_chunk env dir,
        by rw [cf_wd_chunk]⟩
  obtain ⟨m1, he1, hsm1, hcm1⟩ := hw1
  have hstw1 : stableChunks env dir (L ++ m1) = true := stableChunks_append hst0 hsm1
  -- step 2: sanSrcI
  have hw2 : ∃ m2, sanSrcI env src dir (L ++ m1) = (L ++ m1) ++ m2 ∧
      stableChunks env dir m2 = true ∧ (chunkFlags env dir m2).1 = false ∧
      (env.resolve (parentOf src) = env.resolve dir ∨
        _include_already_present ((L ++ m1) ++ m2)
          (env.resolve (parentOf src)) = true) := by
    simp only [sanSrcI]
    by_cases hcnd : env.resolve (parentOf src) ≠ env.resolve dir ∧
        ¬ _include_already_present (L ++ m1) (env.resolve (parentOf src)) = true
    · rw [if_pos hcnd]
      refine ⟨["-I", env.resolve (parentOf src)], rfl, stable_pair_resolve env dir _ HA,
        by rw [cf_pair_I], Or.inr ?_⟩
      exact include_present_true (ne_empty_of_slash (HA _).1) (iap_append_pair _ _)
    · rw [if_neg hcnd]
      refine ⟨[], by simp, rfl, rfl, ?_⟩
      by_cases he : env.resolve (parentOf src) = env.resolve dir
      · exact Or.inl he
      · right
        by_cases hi : _include_already_present (L ++ m1)
            (env.resolve (parentOf src)) = true
        · simpa using hi
        · exact absurd ⟨he, hi⟩ hcnd
  obtain ⟨m2, he2, hsm2, hcm2, hq1⟩ := hw2
  have hstw2 : stableChunks env dir ((L ++ m1) ++ m2) = true :=
    stableChunks_append hstw1 hsm2
  -- step 3: sanUsr
  have hw3 : ∃ m3, sanUsr env ((L ++ m1) ++ m2) = ((L ++ m1) ++ m2) ++ m3 ∧
      stableChunks env dir m3 = true ∧ (chunkFlags env dir m3).1 = false ∧
      hsiScan env (env.resolve "/usr/include") (((L ++ m1) ++ m2) ++ m3) = true := by
    rw [sanUsr]
    by_cases hcnd : ¬ _has_sys_include env ((L ++ m1) ++ m2) "/usr/include" = true
    · rw [if_pos hcnd]
      exact ⟨["-I", "/usr/include"], rfl, stable_pair_usr env dir, by rw [cf_pair_I],
        hsi_append_pair env "/usr/include" ((L ++ m1) ++ m2)⟩
    · rw [if_neg hcnd]
      refine ⟨[], by simp, rfl, rfl, ?_⟩
      have hh := not_not.mp hcnd
      rw [_has_sys_include] at hh
      simpa using hh
  obtain ⟨m3, he3, hsm3, hcm3, hq2⟩ := hw3
  have hstw3 : stableChunks env dir (((L ++ m1) ++ m2) ++ m3) = true :=
    stableChunks_append hstw2 hsm3
  -- step 4: sanMulti
  have hw4 : ∃ m4, sanMulti env (((L ++ m1) ++ m2) ++ m3) =
      (((L ++ m1) ++ m2) ++ m3) ++ m4 ∧
      stableChunks env dir m4 = true ∧ (chunkFlags env dir m4).1 = false ∧
      (env.multiarchIsDir = true →
        hsiScan env (env.resolve MULTIARCH)
          ((((L ++ m1) ++ m2) ++ m3) ++ m4) = true) := by
    rw [sanMulti]
    by_cases hcnd : env.multiarchIsDir = true ∧
        ¬ _has_sys_include env (((L ++ m1) ++ m2) ++ m3) MULTIARCH = true
    · rw [if_pos hcnd]
      exact ⟨["-I", MULTIARCH], rfl, stable_pair_multi env dir, by rw [cf_pair_I],
        fun _ => hsi_append_pair env MULTIARCH (((L ++ m1) ++ m2) ++ m3)⟩
    · rw [if_neg hcnd]
      refine ⟨[], by simp, rfl, rfl, fun hma => ?_⟩
      have hh : _has_sys_include env (((L ++ m1) ++ m2) ++ m3) MULTIARCH = true := by
        by_cases hx : _has_sys_include env (((L ++ m1) ++ m2) ++ m3) MULTIARCH = true
        · exact hx
        · exact absurd ⟨hma, hx⟩ hcnd
      rw [_has_sys_include] at hh
      simpa using hh
  obtain ⟨m4, he4, hsm4, hcm4, hq3⟩ := hw4
  have hstw4 : stableChunks env dir ((((L ++ m1) ++ m2) ++ m3) ++ m4) = true :=
    stableChunks_append hstw3 hsm4
  -- step 5: sanRes is the identity
  have he5 : sanRes env c3 ((((L ++ m1) ++ m2) ++ m3) ++ m4) =
      (((L ++ m1) ++ m2) ++ m3) ++ m4 := sanRes_none env c3 _ HB
  -- step 6: sanDefaults
  have hw6 : ∃ m6, sanDefaults env src dir ((((L ++ m1) ++ m2) ++ m3) ++ m4) =
      ((((L ++ m1) ++ m2) ++ m3) ++ m4) ++ m6 ∧
      stableChunks env dir m6 = true ∧ (chunkFlags env dir m6).1 = false ∧
      (env.addDefaults = true →
        hapScan env (((((L ++ m1) ++ m2) ++ m3) ++ m4) ++ m6) = false →
        _include_already_present (((((L ++ m1) ++ m2) ++ m3) ++ m4) ++ m6)
          (env.resolve dir) = true ∧
        _include_already_present (((((L ++ m1) ++ m2) ++ m3) ++ m4) ++ m6)
          (env.resolve (parentOf src)) = true) := by
    by_cases hcond : env.addDefaults = true ∧
        _has_any_project_includes env ((((L ++ m1) ++ m2) ++ m3) ++ m4) = false
    · simp only [sanDefaults]
      rw [if_pos hcond]
      by_cases hc1 : env.resolve dir ≠ "" ∧
          ¬ _include_already_present ((((L ++ m1) ++ m2) ++ m3) ++ m4)
            (env.resolve dir) = true
      · rw [if_pos hc1]
        have hied : _include_already_present
            (((((L ++ m1) ++ m2) ++ m3) ++ m4) ++ ["-I", env.resolve dir])
              (env.resolve dir) = true :=
          include_present_true (ne_empty_of_slash (HA _).1) (iap_append_pair _ _)
        by_cases hc2 : env.resolve (parentOf src) ≠ "" ∧
            ¬ _include_already_present
              (((((L ++ m1) ++ m2) ++ m3) ++ m4) ++ ["-I", env.resolve dir])
                (env.resolve (parentOf src)) = true
        · rw [if_pos hc2]
          refine ⟨["-I", env.resolve dir, "-I", env.resolve (parentOf src)],
            by simp, ?_, ?_, fun _ _ => ⟨?_, ?_⟩⟩
          · exact stableChunks_cons_pair (by decide) (pairOk_resolve env dir _ HA)
              (stable_pair_resolve env dir _ HA)
          · rw [chunkFlags_cons_pair (by decide), chunkFlags_cons_pair (by decide)]
            rfl
          · have := hincl_app (env.resolve dir) _
              ["-I", env.resolve (parentOf src)] hied
            rw [List.append_assoc] at this
            simpa using this
          · have := include_present_true (ne_empty_of_slash (HA _).1)
              (iap_append_pair (env.resolve (parentOf src))
                (((((L ++ m1) ++ m2) ++ m3) ++ m4) ++ ["-I", env.resolve dir]))
            rw [List.append_assoc] at this
            simpa using this
        · rw [if_neg hc2]
          refine ⟨["-I", env.resolve dir], rfl, stable_pair_resolve env dir _ HA,
            by rw [cf_pair_I], fun _ _ => ⟨hied, ?_⟩⟩
          by_cases hi : _include_already_present
              (((((L ++ m1) ++ m2) ++ m3) ++ m4) ++ ["-I", env.resolve dir])
                (env.resolve (parentOf src)) = true
          · exact hi
          · exact absurd ⟨ne_empty_of_slash (HA _).1, hi⟩ hc2
      · rw [if_neg hc1]
        have hied : _include_already_present ((((L ++ m1) ++ m2) ++ m3) ++ m4)
            (env.resolve dir) = true := by
          by_cases hi : _include_already_present ((((L ++ m1) ++ m2) ++ m3) ++ m4)
              (env.resolve dir) = true
          · exact hi
          · exact absurd ⟨ne_empty_of_slash (HA _).1, hi⟩ hc1
        by_cases hc2 : env.resolve (parentOf src) ≠ "" ∧
            ¬ _include_already_present ((((L ++ m1) ++ m2) ++ m3) ++ m4)
              (env.resolve (parentOf src)) = true
        · rw [if_pos hc2]
          refine ⟨["-I", env.resolve (parentOf src)], rfl,
            stable_pair_resolve env dir _ HA, by rw [cf_pair_I],
            fun _ _ => ⟨hincl_app _ _ _ hied, ?_⟩⟩
          exact include_present_true (ne_empty_of_slash (HA _).1) (iap_append_pair _ _)
        · rw [if_neg hc2]
          refine ⟨[], by simp, rfl, rfl, fun _ _ => ⟨by simpa using hied, ?_⟩⟩
          have hisd : _include_already_present ((((L ++ m1) ++ m2) ++ m3) ++ m4)
              (env.resolve (parentOf src)) = true := by
            by_cases hi : _include_already_present ((((L ++ m1) ++ m2) ++ m3) ++ m4)
                (env.resolve (parentOf src)) = true
            · exact hi
            · exact absurd ⟨ne_empty_of_slash (HA _).1, hi⟩ hc2
          simpa using hisd
    · refine ⟨[], ?_, rfl, rfl, fun had hnp => ?_⟩
      · simp only [sanDefaults]
        rw [if_neg hcond]
        simp
      · have hh : _has_any_project_includes env ((((L ++ m1) ++ m2) ++ m3) ++ m4) = true := by
          by_cases hx : _has_any_project_includes env
              ((((L ++ m1) ++ m2) ++ m3) ++ m4) = false
          · exact absurd ⟨had, hx⟩ hcond
          · exact eq_true_of_ne_false hx
        rw [_has_any_project_includes] at hh
        simp only [List.append_nil] at hnp
        rw [hh] at hnp
        exact absurd hnp (by simp)
  obtain ⟨m6, he6, hsm6, hcm6, hq4⟩ := hw6
  have hstw6 : stableChunks env dir (((((L ++ m1) ++ m2) ++ m3) ++ m4) ++ m6) = true :=
    stableChunks_append hstw4 hsm6
  -- chunk flags of the pre-lang list
  have hcfw6 : (chunkFlags env dir (((((L ++ m1) ++ m2) ++ m3) ++ m4) ++ m6)).1 =
      (chunkFlags env dir L).1 := by
    rw [chunkFlags_append m6 hstw4, chunkFlags_append m4 hstw3,
      chunkFlags_append m3 hstw2, chunkFlags_append m2 hstw1,
      chunkFlags_append m1 hst0]
    simp [hcm1, hcm2, hcm3, hcm4, hcm6]
  -- transports into the pre-lang list
  have hq1w : env.resolve (parentOf src) = env.resolve dir ∨
      _include_already_present (((((L ++ m1) ++ m2) ++ m3) ++ m4) ++ m6)
        (env.resolve (parentOf src)) = true := by
    rcases hq1 with h | h
    · exact Or.inl h
    · exact Or.inr (hincl_app _ _ _ (hincl_app _ _ _ (hincl_app _ _ _ h)))
  have hq2w : hsiScan env (env.resolve "/usr/include")
      (((((L ++ m1) ++ m2) ++ m3) ++ m4) ++ m6) = true :=
    hsi_append_right env _ _ _ (hsi_append_right env _ _ _ hq2)
  have hq3w : env.multiarchIsDir = true →
      hsiScan env (env.resolve MULTIARCH)
        (((((L ++ m1) ++ m2) ++ m3) ++ m4) ++ m6) = true :=
    fun hma => hsi_append_right env _ _ _ (hq3 hma)
  -- final: sanLang
  rw [hyeq, he1, he2, he3, he4, he5, he6]
  by_cases hsl : c1 = false
  · rw [sanLang, if_pos hsl]
    have hlangst := stable_lang env dir src
    refine ⟨stableChunks_append hlangst hstw6, ?_, ?_, ?_, ?_, ?_⟩
    · rcases hq1w with h | h
      · exact Or.inl h
      · exact Or.inr (hincl_pre _ _ _ h)
    · exact hsi_append_left env _ _ _ hq2w
    · exact fun hma => hsi_append_left env _ _ _ (hq3w hma)
    · intro had hnp
      have hnp2 : hapScan env (((((L ++ m1) ++ m2) ++ m3) ++ m4) ++ m6) = false := by
        by_cases hx : hapScan env (((((L ++ m1) ++ m2) ++ m3) ++ m4) ++ m6) = true
        · rw [hap_append_left env (langPrefixFor src) _ hx] at hnp
          exact absurd hnp (by simp)
        · exact Bool.eq_false_iff.mpr hx
      obtain ⟨ha1, ha2⟩ := hq4 had hnp2
      exact ⟨hincl_pre _ _ _ ha1, hincl_pre _ _ _ ha2⟩
    · rw [chunkFlags_append _ hlangst]
      simp [cf_lang_one env dir src]
  · rw [sanLang, if_neg hsl]
    have hc1t : c1 = true := eq_true_of_ne_false hsl
    refine ⟨hstw6, hq1w, hq2w, hq3w, hq4, ?_⟩
    rw [hcfw6, ← hfc1]
    exact hc1t

/-- C9: the spec claims the compile-argument sanitizer is idempotent
verbatim. It is not: a second run relocates the `-working-directory=`
token to the end of the vector (see the counterexample). The amended
statement proved here: whenever the environment's `resolve` yields
absolute, already-normalized paths, no clang resource directory is
discoverable, and the (response-file-expanded) raw tokens use none of the
`@file`, `-isysroot=`, `--sysroot=`, `-resource-dir=` spellings, the second
run returns the first run's output unchanged except that its
`-working-directory` token is moved to the end. -/
theorem C9_sanitizer_idempotence (env : SanEnv) (raw : List String) (src dir : String)
    (HA : ∀ x, strStarts (env.resolve x) "/" = true ∧
      pathNorm (env.resolve x) = env.resolve x)
    (HB : pickResource env = none)
    (HC : ∀ t ∈ expandResp env raw, strStarts t "@" = false ∧
      strStarts t "-isysroot=" = false ∧ strStarts t "--sysroot=" = false ∧
      strStarts t "-resource-dir=" = false) :
    _sanitize_clang_args_for_libclang env
        (_sanitize_clang_args_for_libclang env raw src dir) src dir =
      (_sanitize_clang_args_for_libclang env raw src dir).filter
          (fun t => !isWdTok t) ++
        ["-working-directory=" ++ pathNorm dir] := by
  obtain ⟨hst, p1, p2, p3, p4, p5⟩ := sanitize_post env src dir raw HA HB HC
  exact sanitize_stable_run env src dir _ HB hst p1 p2 p3 p4 p5

/-- C9 counterexample: on `gcc -c foo.c` the first sanitizer run yields
`-x c -working-directory=/a -I /usr/include`; the second run moves the
`-working-directory=` token to the end, so the sanitizer is not a no-op on
its own output. -/
theorem C9_sanitizer_idempotence_counterexample :
    _sanitize_clang_args_for_libclang envC9 ["gcc", "-c", "foo.c"] "/a/foo.c" "/a" =
      ["-x", "c", "-working-directory=/a", "-I", "/usr/include"] ∧
    _sanitize_clang_args_for_libclang envC9
        (_sanitize_clang_args_for_libclang envC9 ["gcc", "-c", "foo.c"] "/a/foo.c" "/a")
        "/a/foo.c" "/a" =
      ["-x", "c", "-I", "/usr/include", "-working-directory=/a"] ∧
    _sanitize_clang_args_for_libclang envC9
        (_sanitize_clang_args_for_libclang envC9 ["gcc", "-c", "foo.c"] "/a/foo.c" "/a")
        "/a/foo.c" "/a" ≠
      _sanitize_clang_args_for_libclang envC9 ["gcc", "-c", "foo.c"] "/a/foo.c" "/a" :=
  ⟨by decide, by decide, by decide⟩

/-- C9 witness: the amended theorem applied at a concrete environment and
the raw vector `gcc -c foo.c`, with every hypothesis discharged. -/
theorem C9_sanitizer_idempotence_witness :
    (∀ x, strStarts (envW.resolve x) "/" = true ∧
      pathNorm (envW.resolve x) = envW.resolve x) ∧
    pickResource envW = none ∧
    (∀ t ∈ expandResp envW ["gcc", "-c", "foo.c"], strStarts t "@" = false ∧
      strStarts t "-isysroot=" = false ∧ strStarts t "--sysroot=" = false ∧
      strStarts t "-resource-dir=" = false) ∧
    _sanitize_clang_args_for_libclang envW
        (_sanitize_clang_args_for_libclang envW ["gcc", "-c", "foo.c"] "/a/foo.c" "/a")
        "/a/foo.c" "/a" =
      (_sanitize_clang_args_for_libclang envW ["gcc", "-c", "foo.c"] "/a/foo.c" "/a").filter
          (fun t => !isWdTok t) ++
        ["-working-directory=" ++ pathNorm "/a"] :=
  ⟨fun _ => ⟨rfl, rfl⟩, rfl, by decide,
    C9_sanitizer_idempotence envW ["gcc", "-c", "foo.c"] "/a/foo.c" "/a"
      (fun _ => ⟨rfl, rfl⟩) rfl (by decide)⟩

end CW
